import Mathlib

/-!
# Telemetry and coordination layer of the microservices repository

A shallow embedding of the request middleware (`logRequests`), the enrichment
handler (`getLastOrderedProduct`) and the consumer (`logger/main.go`), with the
properties of the specification stated and settled against it.

Conventions of the embedding:

* Go strings and byte slices are lists of bytes (`Bytes`), every byte a natural
  number below 256.
* A handler `func(w http.ResponseWriter, r *http.Request)` is a function of the
  response writer, the request and the ambient state it can reach; it either
  returns or panics (`Outcome`).
* `go func() {...}()` adds a goroutine to the pool of started goroutines; its body
  is a separate function that the scheduler runs later.
* External collaborators (database, peer service, broker, clock) are oracles.
-/

namespace Microservices

/-! ## Data model -/

/-- Go `string` / `[]byte`: a sequence of bytes. -/
abbrev Bytes := List Nat

/-- The bytes of an ASCII string literal of the source. -/
def lit (s : String) : Bytes := s.toList.map Char.toNat

/-- The fields of `*http.Request` that the services read. -/
structure Request where
  Method : Bytes
  Path : Bytes
  RemoteAddr : Bytes
  Body : Bytes
deriving DecidableEq, Repr

/-- The state of an `http.ResponseWriter`: the header map, the status line once it
has been written together with the headers that went out with it, and the body
written so far. -/
structure ResponseWriter where
  header : List (String × String)
  status : Option Nat
  sentHeader : List (String × String)
  body : Bytes
deriving DecidableEq, Repr

/-- A fresh response writer, as the server hands it to a handler. -/
def ResponseWriter.fresh : ResponseWriter :=
  { header := [], status := none, sentHeader := [], body := [] }

/-- Go `w.Header().Set(k, v)`. -/
def ResponseWriter.setHeader (w : ResponseWriter) (k v : String) : ResponseWriter :=
  { w with header := (w.header.filter fun kv => kv.1 ≠ k) ++ [(k, v)] }

/-- Go `w.WriteHeader(code)`: the first call sends the status line and the current
headers; later calls change nothing. -/
def ResponseWriter.WriteHeader (w : ResponseWriter) (code : Nat) : ResponseWriter :=
  match w.status with
  | some _ => w
  | none => { w with status := some code, sentHeader := w.header }

/-- Go `w.Write(b)`: sends status 200 first when no status was written yet. -/
def ResponseWriter.Write (w : ResponseWriter) (b : Bytes) : ResponseWriter :=
  let w1 := match w.status with
    | some _ => w
    | none => w.WriteHeader 200
  { w1 with body := w1.body ++ b }

/-- The status the client receives: the written one, or 200 when the handler
returned without writing any. -/
def ResponseWriter.statusCode (w : ResponseWriter) : Nat := w.status.getD 200

/-- A Go call either returns or panics; both leave a state behind. -/
inductive Outcome (α : Type) where
  | returned (a : α)
  | panicked (a : α)
deriving DecidableEq, Repr

/-- The state left behind by a call. -/
def Outcome.state {α : Type} : Outcome α → α
  | .returned a => a
  | .panicked a => a

/-- An `http.HandlerFunc` over the ambient state `σ` it can reach. -/
abbrev Handler (σ : Type) := ResponseWriter → Request → σ → Outcome (ResponseWriter × σ)

/-! ## Request middleware (`6_monitoring/services/service2/main.go`, `logRequests`) -/

/-- The state `logRequests` owns: the two request metrics and the goroutines it has
started (each goroutine closes over its request `r`). Durations are nanoseconds. The
ambient state `σ` of the wrapped handlers does not hold this state: no handler of the
services touches the request metrics or the Kafka writer. -/
structure Telemetry where
  httpRequestsTotal : Nat
  httpRequestDuration : List Nat
  goroutines : List Request
deriving DecidableEq, Repr

/-- Go `logRequests(kafkaWriter, next)`: the returned handler starts the notification
goroutine, increments the counter, starts the timer, calls `next` and, when `next`
returns, observes the elapsed time. `clock` reads `time.Now()` from the ambient
state. A panic of `next` unwinds through the handler: the statement after the call
is not reached. -/
def logRequests {σ : Type} (clock : σ → Nat) (next : Handler σ) :
    ResponseWriter → Request → Telemetry × σ → Outcome (ResponseWriter × Telemetry × σ) :=
  fun w r ts =>
    let t := ts.1
    let s := ts.2
    -- go func() { ... }()
    let t1 := { t with goroutines := t.goroutines ++ [r] }
    -- httpRequestsTotal.Inc()
    let t2 := { t1 with httpRequestsTotal := t1.httpRequestsTotal + 1 }
    -- timer := prometheus.NewTimer(httpRequestDuration)
    let start := clock s
    -- next(w, r)
    match next w r s with
    | .returned ws =>
      -- timer.ObserveDuration()
      .returned (ws.1,
        { t2 with httpRequestDuration := t2.httpRequestDuration ++ [clock ws.2 - start] }, ws.2)
    | .panicked ws => .panicked (ws.1, t2, ws.2)

/-- A handler that panics at once (for instance by indexing out of range). -/
def panicHandler : Handler Nat := fun w _ s => .panicked (w, s)

/-- A handler that writes an error response and returns, taking 5 ns. -/
def errorHandler : Handler Nat := fun w _ s =>
  .returned ((w.WriteHeader 500).Write (lit "boom"), s + 5)

/-- A sample request. -/
def sampleRequest : Request :=
  { Method := lit "GET", Path := lit "/products/1", RemoteAddr := lit "10.0.0.5:5555", Body := [] }

/-- Telemetry of a freshly started process. -/
def Telemetry.init : Telemetry :=
  { httpRequestsTotal := 0, httpRequestDuration := [], goroutines := [] }

/-! ## `unicode/utf8` and `encoding/json` string literals

The JSON string encoder and decoder of the Go standard library that the services
call (`json.Marshal`, `json.NewEncoder(w).Encode`), with the UTF-8 routines they
rest on. Shifts and masks are written as division and remainder. -/

/-- Go `utf8.RuneError`, also `unicode.ReplacementChar`. -/
def RuneError : Nat := 0xFFFD

/-- Go `utf8.first`: information about the first byte of a UTF-8 sequence (`as` is
0xF0, `xx` is 0xF1; otherwise the low three bits give the size and the high four
bits the index into `acceptRanges`). -/
def first (p0 : Nat) : Nat :=
  if p0 < 0x80 then 0xF0
  else if p0 < 0xC2 then 0xF1
  else if p0 < 0xE0 then 0x02
  else if p0 = 0xE0 then 0x13
  else if p0 < 0xED then 0x03
  else if p0 = 0xED then 0x23
  else if p0 < 0xF0 then 0x03
  else if p0 = 0xF0 then 0x34
  else if p0 < 0xF4 then 0x04
  else if p0 = 0xF4 then 0x44
  else 0xF1

/-- Go `utf8.acceptRanges`: the range of valid second bytes. -/
def acceptRanges (i : Nat) : Nat × Nat :=
  match i with
  | 0 => (0x80, 0xBF)
  | 1 => (0xA0, 0xBF)
  | 2 => (0x80, 0x9F)
  | 3 => (0x90, 0xBF)
  | 4 => (0x80, 0x8F)
  | _ => (0, 0)

/-- Go `utf8.DecodeRune` / `utf8.DecodeRuneInString`: the first rune of `p` and its
width in bytes; `(RuneError, 1)` for an invalid encoding, `(RuneError, 0)` for the
empty input. -/
def DecodeRune (p : Bytes) : Nat × Nat :=
  match p with
  | [] => (RuneError, 0)
  | p0 :: t =>
    let x := first p0
    if x ≥ 0xF0 then
      (if x = 0xF0 then p0 else RuneError, 1)
    else
      let sz := x % 8
      let accept := acceptRanges (x / 16)
      if t.length + 1 < sz then (RuneError, 1)
      else
        match t with
        | [] => (RuneError, 1)
        | b1 :: t1 =>
          if b1 < accept.1 ∨ accept.2 < b1 then (RuneError, 1)
          else if sz ≤ 2 then ((p0 % 32) * 64 + b1 % 64, 2)
          else
            match t1 with
            | [] => (RuneError, 1)
            | b2 :: t2 =>
              if b2 < 0x80 ∨ 0xBF < b2 then (RuneError, 1)
              else if sz ≤ 3 then ((p0 % 16) * 4096 + (b1 % 64) * 64 + b2 % 64, 3)
              else
                match t2 with
                | [] => (RuneError, 1)
                | b3 :: _ =>
                  if b3 < 0x80 ∨ 0xBF < b3 then (RuneError, 1)
                  else ((p0 % 8) * 262144 + (b1 % 64) * 4096 + (b2 % 64) * 64 + b3 % 64, 4)

/-- Go `utf8.EncodeRune`: the UTF-8 encoding of a rune; surrogates and values beyond
`utf8.MaxRune` are encoded as `RuneError`. -/
def EncodeRune (r : Nat) : Bytes :=
  if r ≤ 0x7F then [r]
  else if r ≤ 0x7FF then [0xC0 + r / 64, 0x80 + r % 64]
  else if r > 0x10FFFF ∨ (0xD800 ≤ r ∧ r ≤ 0xDFFF) then [0xEF, 0xBF, 0xBD]
  else if r ≤ 0xFFFF then [0xE0 + r / 4096, 0x80 + (r / 64) % 64, 0x80 + r % 64]
  else [0xF0 + r / 262144, 0x80 + (r / 4096) % 64, 0x80 + (r / 64) % 64, 0x80 + r % 64]

/-- What a successful `DecodeRune` on `p` guarantees: it consumed between one and
`p.length` bytes, re-encoding the rune gives back the bytes consumed, the result
does not depend on the bytes that follow them, and the bytes consumed after the first
are continuation bytes. -/
def DecodeOk (p : Bytes) : Prop :=
  1 ≤ (DecodeRune p).2 ∧ (DecodeRune p).2 ≤ p.length
    ∧ EncodeRune (DecodeRune p).1 = p.take (DecodeRune p).2
    ∧ (∀ q, DecodeRune (p.take (DecodeRune p).2 ++ q) = DecodeRune p)
    ∧ ∀ x ∈ (p.take (DecodeRune p).2).tail, 0x80 ≤ x

/-- Go `utf8.Valid` / `utf8.ValidString`, by repeated decoding (`fuel` bounds the
number of runes; the length of the input suffices). -/
def validLoop : Nat → Bytes → Bool
  | _, [] => true
  | 0, _ :: _ => false
  | fuel + 1, c :: t =>
    let d := DecodeRune (c :: t)
    if d.1 = RuneError ∧ d.2 = 1 then false
    else validLoop fuel ((c :: t).drop d.2)

/-- Go `utf8.Valid(s)`. -/
def utf8Valid (s : Bytes) : Bool := validLoop s.length s

/-- Go `json.htmlSafeSet`: the ASCII bytes that `encoding/json` writes unescaped when
HTML escaping is on (the default of `Marshal` and of `Encoder`): space to DEL apart
from the double quote, the ampersand, the angle brackets and the backslash. -/
def htmlSafeSet (b : Nat) : Bool :=
  0x20 ≤ b && b ≤ 0x7F && b != 0x22 && b != 0x26 && b != 0x3C && b != 0x3E && b != 0x5C

/-- Go `hex[i]` of `const hex = "0123456789abcdef"`. -/
def hex (i : Nat) : Nat := if i < 10 then 0x30 + i else 0x57 + i

/-- One iteration of the loop of `json.appendString` with `escapeHTML = true`, at the
non-empty rest `b :: t` of `src`: the bytes the iteration adds to the output and the
rest of `src` after it. (The source copies unescaped stretches `src[start:i]` in one
piece; the output is the same. Releases of Go before 1.22 write `\u0008` and
`\u000c` where this one writes `\b` and `\f`; both are read back as the same
byte.) -/
def appendStringStep (b : Nat) (t : Bytes) : Bytes × Bytes :=
  if b < 0x80 then
    if htmlSafeSet b then ([b], t)
    else if b = 0x5C ∨ b = 0x22 then ([0x5C, b], t)
    else if b = 0x08 then ([0x5C, 0x62], t)
    else if b = 0x0C then ([0x5C, 0x66], t)
    else if b = 0x0A then ([0x5C, 0x6E], t)
    else if b = 0x0D then ([0x5C, 0x72], t)
    else if b = 0x09 then ([0x5C, 0x74], t)
    else ([0x5C, 0x75, 0x30, 0x30, hex (b / 16), hex (b % 16)], t)
  else
    let d := DecodeRune (b :: t)
    if d.1 = RuneError ∧ d.2 = 1 then ([0x5C, 0x75, 0x66, 0x66, 0x66, 0x64], t)
    else if d.1 = 0x2028 ∨ d.1 = 0x2029 then
      ([0x5C, 0x75, 0x32, 0x30, 0x32, hex (d.1 % 16)], (b :: t).drop d.2)
    else ((b :: t).take d.2, (b :: t).drop d.2)

/-- The loop of `json.appendString` (`fuel` bounds the number of iterations; the
length of the input suffices). -/
def appendStringLoop : Nat → Bytes → Bytes
  | _, [] => []
  | 0, _ :: _ => []
  | fuel + 1, b :: t =>
    (appendStringStep b t).1 ++ appendStringLoop fuel (appendStringStep b t).2

/-- Go `json.appendString(nil, src, true)`: the JSON string literal for the Go string
`src`. Invalid UTF-8 is replaced by U+FFFD. -/
def appendString (src : Bytes) : Bytes :=
  [0x22] ++ appendStringLoop src.length src ++ [0x22]

/-- The value of a hexadecimal digit, as in the `switch` of `json.getu4`. -/
def hexVal (c : Nat) : Option Nat :=
  if 0x30 ≤ c ∧ c ≤ 0x39 then some (c - 0x30)
  else if 0x61 ≤ c ∧ c ≤ 0x66 then some (c - 0x61 + 10)
  else if 0x41 ≤ c ∧ c ≤ 0x46 then some (c - 0x41 + 10)
  else none

/-- Go `json.getu4`: the rune of a `\uXXXX` escape at the start of `s`; `none` (the
source returns -1) when `s` does not start with one. -/
def getu4 (s : Bytes) : Option Nat :=
  match s with
  | b0 :: b1 :: c1 :: c2 :: c3 :: c4 :: _ =>
    if b0 ≠ 0x5C ∨ b1 ≠ 0x75 then none
    else
      match hexVal c1, hexVal c2, hexVal c3, hexVal c4 with
      | some h1, some h2, some h3, some h4 => some (((h1 * 16 + h2) * 16 + h3) * 16 + h4)
      | _, _, _, _ => none
  | _ => none

/-- Go `utf16.DecodeRune(r1, r2)`; `r2 = none` stands for the -1 of a failed `getu4`. -/
def utf16DecodeRune (r1 : Nat) (r2 : Option Nat) : Nat :=
  match r2 with
  | some r2 =>
    if 0xD800 ≤ r1 ∧ r1 < 0xDC00 ∧ 0xDC00 ≤ r2 ∧ r2 < 0xE000 then
      (r1 - 0xD800) * 1024 + (r2 - 0xDC00) + 0x10000
    else RuneError
  | none => RuneError

/-- One iteration of the first loop of `json.unquoteBytes` at the non-empty rest
`c :: t`: the number of bytes to step over, or `none` when the loop breaks. -/
def unquoteScanStep (c : Nat) (t : Bytes) : Option Nat :=
  if c = 0x5C ∨ c = 0x22 ∨ c < 0x20 then none
  else if c < 0x80 then some 1
  else
    let d := DecodeRune (c :: t)
    if d.1 = RuneError ∧ d.2 = 1 then none else some d.2

/-- The first loop of `json.unquoteBytes`: the number of leading bytes of the
literal's content that need no unquoting. -/
def unquoteScan : Nat → Bytes → Nat
  | _, [] => 0
  | 0, _ :: _ => 0
  | fuel + 1, c :: t =>
    match unquoteScanStep c t with
    | none => 0
    | some n => n + unquoteScan fuel ((c :: t).drop n)

/-- One iteration of the second loop of `json.unquoteBytes` at the non-empty rest
`c :: t`: the bytes written and the rest of the input after it; `none` when the
literal is malformed (the source returns `ok = false`). -/
def unquoteStep (c : Nat) (t : Bytes) : Option (Bytes × Bytes) :=
  if c = 0x5C then
    match t with
    | [] => none
    | e :: t1 =>
      if e = 0x22 ∨ e = 0x5C ∨ e = 0x2F ∨ e = 0x27 then some ([e], t1)
      else if e = 0x62 then some ([0x08], t1)
      else if e = 0x66 then some ([0x0C], t1)
      else if e = 0x6E then some ([0x0A], t1)
      else if e = 0x72 then some ([0x0D], t1)
      else if e = 0x74 then some ([0x09], t1)
      else if e = 0x75 then
        match getu4 (c :: t) with
        | none => none
        | some rr =>
          let rest := (c :: t).drop 6
          if 0xD800 ≤ rr ∧ rr < 0xE000 then
            let dec := utf16DecodeRune rr (getu4 rest)
            if dec ≠ RuneError then some (EncodeRune dec, rest.drop 6)
            else some (EncodeRune RuneError, rest)
          else some (EncodeRune rr, rest)
      else none
  else if c = 0x22 ∨ c < 0x20 then none
  else if c < 0x80 then some ([c], t)
  else
    let d := DecodeRune (c :: t)
    some (EncodeRune d.1, (c :: t).drop d.2)

/-- The second loop of `json.unquoteBytes` (`fuel` bounds the number of iterations;
the length of the input suffices). -/
def unquoteLoop : Nat → Bytes → Option Bytes
  | _, [] => some []
  | 0, _ :: _ => none
  | fuel + 1, c :: t =>
    match unquoteStep c t with
    | none => none
    | some st => (unquoteLoop fuel st.2).map (st.1 ++ ·)

/-- Go `json.unquoteBytes`: the Go string that the JSON string literal `s` denotes. -/
def unquoteBytes (s : Bytes) : Option Bytes :=
  if s.length < 2 ∨ s.head? ≠ some 0x22 ∨ s.getLast? ≠ some 0x22 then none
  else
    let inner := (s.drop 1).dropLast
    let r := unquoteScan inner.length inner
    if r = inner.length then some inner
    else (unquoteLoop inner.length (inner.drop r)).map (inner.take r ++ ·)

/-- Go `json.NewEncoder(w).Encode(v)` for a Go string `v`: the literal followed by a
newline, written to `w`. Encoding a string cannot fail. -/
def encodeString (w : ResponseWriter) (v : Bytes) : ResponseWriter :=
  w.Write (appendString v ++ [0x0A])

/-! ## Broker notification (`logRequests`, the goroutine) -/

/-- The order `<=` of Go strings: bytewise lexicographic. -/
def bytesLe : Bytes → Bytes → Bool
  | [], _ => true
  | _ :: _, [] => false
  | a :: s, b :: t => a < b || (a == b && bytesLe s t)

/-- The object that `json.Marshal` writes for a `map[string]interface{}` whose values
are strings: the members in the order of their keys, keys and values as string
literals, no white space. -/
def marshalMap (m : List (Bytes × Bytes)) : Bytes :=
  [0x7B] ++ List.intercalate [0x2C]
    ((m.insertionSort fun a b => bytesLe a.1 b.1 = true).map
      fun kv => appendString kv.1 ++ [0x3A] ++ appendString kv.2) ++ [0x7D]

/-- Go `json.Marshal` on such a map: it cannot fail (`none` would stand for an error). -/
def jsonMarshal (m : List (Bytes × Bytes)) : Option Bytes := some (marshalMap m)

/-- A `kafka.Message`. -/
structure KafkaMessage where
  Value : Bytes
deriving DecidableEq, Repr

/-- A `kafka.Writer` as the service drives it: the calls of `WriteMessages` it has
received, each with its messages, and the messages the broker has accepted. -/
structure KafkaWriter where
  calls : List (List KafkaMessage)
  delivered : List KafkaMessage
deriving DecidableEq, Repr

/-- A writer that has not been used. -/
def KafkaWriter.init : KafkaWriter := { calls := [], delivered := [] }

/-- Go `kafkaWriter.WriteMessages(ctx, msgs...)`: `sendErr` is the error the send ends
with (`none` for `nil`); the messages are delivered when there is none. -/
def KafkaWriter.WriteMessages (kw : KafkaWriter) (sendErr : Option Bytes)
    (msgs : List KafkaMessage) : KafkaWriter × Option Bytes :=
  ({ calls := kw.calls ++ [msgs],
     delivered := if sendErr.isNone then kw.delivered ++ msgs else kw.delivered }, sendErr)

/-- The map `logData` that the goroutine builds from the request. -/
def logData (r : Request) : List (Bytes × Bytes) :=
  [(lit "method", r.Method), (lit "path", r.Path), (lit "ip", r.RemoteAddr)]

/-- The body of the goroutine that `logRequests` starts for request `r`: marshal
`logData`, dropping the error (`logBytes` is `nil` when there is one), and call
`WriteMessages` once with one message, dropping its result. `marshal` is
`jsonMarshal` in the program; `sendErr` is the outcome of the send. -/
def notifyBroker (marshal : List (Bytes × Bytes) → Option Bytes) (sendErr : Option Bytes)
    (r : Request) (kw : KafkaWriter) : KafkaWriter :=
  -- logBytes, _ := json.Marshal(logData)
  let logBytes := (marshal (logData r)).getD []
  -- kafkaWriter.WriteMessages(context.Background(), kafka.Message{Value: logBytes})
  (kw.WriteMessages sendErr [{ Value := logBytes }]).1

/-- One request through the handler returned by `logRequests`, together with the
goroutine that the call starts: the outcome of the handler, and the writer after the
goroutine has run. The goroutine touches the writer only, and the handler never
does, so the moment at which the scheduler runs the goroutine makes no difference. -/
def serve {σ : Type} (marshal : List (Bytes × Bytes) → Option Bytes) (sendErr : Option Bytes)
    (clock : σ → Nat) (next : Handler σ) (w : ResponseWriter) (r : Request)
    (t : Telemetry) (kw : KafkaWriter) (s : σ) :
    Outcome (ResponseWriter × Telemetry × σ) × KafkaWriter :=
  let out := logRequests clock next w r (t, s)
  (out, (out.state.2.1.goroutines.drop t.goroutines.length).foldl
    (fun acc req => notifyBroker marshal sendErr req acc) kw)

/-- The response a call leaves behind, and whether it returned or panicked. -/
def Outcome.response {α : Type} : Outcome (ResponseWriter × α) → Outcome ResponseWriter
  | .returned a => .returned a.1
  | .panicked a => .panicked a.1

/-- The string state of the scanner of `encoding/json`: with the input just after an
opening quote, the raw content of the literal and the input after the closing quote;
`none` for a literal that is not terminated or holds a control character or a
malformed escape. -/
def scanLiteral : Bytes → Option (Bytes × Bytes)
  | [] => none
  | c :: t =>
    if c = 0x22 then some ([], t)
    else if c = 0x5C then
      match t with
      | [] => none
      | e :: t1 =>
        if e = 0x22 ∨ e = 0x5C ∨ e = 0x2F ∨ e = 0x62 ∨ e = 0x66 ∨ e = 0x6E ∨ e = 0x72
            ∨ e = 0x74 then
          (scanLiteral t1).map fun p => (c :: e :: p.1, p.2)
        else if e = 0x75 then
          match t1 with
          | h1 :: h2 :: h3 :: h4 :: t2 =>
            if (hexVal h1).isSome ∧ (hexVal h2).isSome ∧ (hexVal h3).isSome
                ∧ (hexVal h4).isSome then
              (scanLiteral t2).map fun p => (c :: e :: h1 :: h2 :: h3 :: h4 :: p.1, p.2)
            else none
          | _ => none
        else none
    else if c < 0x20 then none
    else (scanLiteral t).map fun p => (c :: p.1, p.2)

/-- The scanner, inside a literal, passes over the bytes `out` and goes on with what
follows them. -/
def ScanThrough (out : Bytes) : Prop :=
  ∀ Y, scanLiteral (out ++ Y) = (scanLiteral Y).map fun p => (out ++ p.1, p.2)

/-- A string literal at the front of the input: the Go string it denotes and the
input after it. -/
def decodeLiteral (s : Bytes) : Option (Bytes × Bytes) :=
  match s with
  | [] => none
  | q :: t =>
    if q ≠ 0x22 then none
    else
      match scanLiteral t with
      | none => none
      | some p => (unquoteBytes ([0x22] ++ p.1 ++ [0x22])).map fun v => (v, p.2)

/-- The members `"key":"value"` of a compact JSON object up to its closing brace,
with the input just after the opening brace or a comma (`fuel` bounds the number of
members). -/
def decodeMembers : Nat → Bytes → Option (List (Bytes × Bytes))
  | 0, _ => none
  | fuel + 1, s =>
    match decodeLiteral s with
    | none => none
    | some (k, rest) =>
      match rest with
      | [] => none
      | colon :: rest1 =>
        if colon ≠ 0x3A then none
        else
          match decodeLiteral rest1 with
          | none => none
          | some (v, rest2) =>
            match rest2 with
            | [] => none
            | sep :: rest3 =>
              if sep = 0x7D then (if rest3 = [] then some [(k, v)] else none)
              else if sep = 0x2C then (decodeMembers fuel rest3).map ((k, v) :: ·)
              else none

/-- Decoding of a compact JSON object with string members, as `json.Unmarshal` into
a `map[string]string` reads it: the members in the order of the text. -/
def decodeObject (s : Bytes) : Option (List (Bytes × Bytes)) :=
  match s with
  | [] => none
  | b :: t =>
    if b ≠ 0x7B then none
    else if t = [0x7D] then some []
    else decodeMembers t.length t

/-- The request `GET /products/%ff`: its path ends in the byte 0xFF. -/
def invalidPathRequest : Request :=
  { Method := lit "GET", Path := lit "/products/" ++ [0xFF],
    RemoteAddr := lit "10.0.0.5:5555", Body := [] }

/-- The request of the end-to-end scenario. -/
def scenarioRequest : Request :=
  { Method := lit "GET", Path := lit "/users/1", RemoteAddr := lit "10.0.0.5:5555", Body := [] }

/-! ## Enrichment handler (`6_monitoring/services/service1/main.go` and
`5_kafka/services/service1/main.go`, `getLastOrderedProduct`) -/

/-- The digits of `s` as a number, `none` when some byte is not a decimal digit. -/
def parseDigits (s : Bytes) : Option Nat :=
  s.foldl (fun acc ch => acc.bind fun n =>
    if 0x30 ≤ ch ∧ ch ≤ 0x39 then some (n * 10 + (ch - 0x30)) else none) (some 0)

/-- Go `strconv.Atoi` with a 64-bit `int`: an optional sign, then at least one decimal
digit and nothing else; `none` stands for a returned error (syntax or range). -/
def Atoi (s : Bytes) : Option Int :=
  match s with
  | [] => none
  | c :: t =>
    let neg := c = 0x2D
    let digits := if c = 0x2D ∨ c = 0x2B then t else s
    if digits = [] then none
    else
      match parseDigits digits with
      | none => none
      | some n =>
        if neg then (if n ≤ 2 ^ 63 then some (-(n : Int)) else none)
        else (if n < 2 ^ 63 then some (n : Int) else none)

/-- The verb `%d` of `fmt` for an `int`: decimal digits, with a minus sign for a
negative number. -/
def formatInt (n : Int) : Bytes :=
  if n < 0 then 0x2D :: lit (Nat.repr n.natAbs) else lit (Nat.repr n.toNat)

/-- The `User` record of service 1. -/
structure User where
  ID : Int
  Username : Bytes
  Email : Bytes
  LastOrderedProduct : Int
deriving DecidableEq, Repr

/-- What `row.Scan(...)` yields after `db.QueryRow("SELECT * FROM users WHERE id = $1", id)`. -/
inductive ScanResult where
  | ok (user : User)
  | errNoRows
  | err (msg : Bytes)
deriving DecidableEq, Repr

/-- What `io.ReadAll(resp.Body)` returns. -/
inductive ReadAllResult where
  | ok (body : Bytes)
  | err (msg : Bytes)
deriving DecidableEq, Repr

/-- What `http.Get(url)` returns: an error, or a response with the peer's status code
(of any class) whose body is yet to be read. -/
inductive GetResult where
  | err (msg : Bytes)
  | response (status : Nat) (body : ReadAllResult)
deriving DecidableEq, Repr

/-- The collaborators of service 1: the users table, the environment variable
`HELPER_SERVICE`, the peer service behind `http.Get`, and how long calls take. -/
structure Backend where
  queryUser : Int → ScanResult
  queryTime : Int → Nat
  helperService : Bytes
  httpGet : Bytes → GetResult
  getTime : Bytes → Nat

/-- An argument of a database statement. -/
inductive SqlValue where
  | int (n : Int)
  | text (s : Bytes)
deriving DecidableEq, Repr

/-- A statement sent to the database: its text and its arguments. -/
abbrev Statement := String × List SqlValue

/-- The ambient state the handlers of the database-backed services act on: the
clock, the statements sent to the database, the histogram
`db_query_duration_seconds`, and the URLs requested with `http.Get`. (Diagnostic
prints to standard output are left out.) -/
structure Sys where
  now : Nat
  statements : List Statement
  dbQueryDuration : List Nat
  outbound : List Bytes
deriving DecidableEq, Repr

/-- The state of a freshly started service. -/
def Sys.init : Sys := { now := 0, statements := [], dbQueryDuration := [], outbound := [] }

/-- The URL `fmt.Sprintf("http://%s/products/%d", productsServiceName, n)`. -/
def productURL (host : Bytes) (n : Int) : Bytes :=
  lit "http://" ++ host ++ lit "/products/" ++ formatInt n

/-- The state after `db.QueryRow("SELECT * FROM users WHERE id = $1", id)`, wrapped in
a `dbQueryDuration` timer when `timed`. -/
def Sys.afterQuery (timed : Bool) (env : Backend) (id : Int) (s : Sys) : Sys :=
  { s with
    now := s.now + env.queryTime id
    statements := s.statements ++ [("SELECT * FROM users WHERE id = $1", [.int id])]
    dbQueryDuration :=
      if timed then s.dbQueryDuration ++ [env.queryTime id] else s.dbQueryDuration }

/-- The state after `http.Get(url)`. -/
def Sys.afterGet (env : Backend) (url : Bytes) (s : Sys) : Sys :=
  { s with now := s.now + env.getTime url, outbound := s.outbound ++ [url] }

/-- Go `getLastOrderedProduct(db, w, r)`. With `timed = true` this is the handler of
`6_monitoring`, which wraps the query in a `dbQueryDuration` timer; with
`timed = false` it is the handler of `5_kafka`, which is the same without the timer.
Slicing the path panics when the path is shorter than the route. -/
def getLastOrderedProduct (timed : Bool) (env : Backend) : Handler Sys := fun w r s =>
  -- idStr := r.URL.Path[len("/users/product/"):]
  if r.Path.length < (lit "/users/product/").length then .panicked (w, s)
  else
    let idStr := r.Path.drop (lit "/users/product/").length
    -- id, err := strconv.Atoi(idStr)
    match Atoi idStr with
    | none =>
      .returned ((w.WriteHeader 400).Write (lit "Invalid user ID."), s)
    | some id =>
      -- row := db.QueryRow("SELECT * FROM users WHERE id = $1", id)
      let s1 := s.afterQuery timed env id
      -- row.Scan(&user.ID, &user.Username, &user.Email, &user.LastOrderedProduct)
      match env.queryUser id with
      | .errNoRows => .returned ((w.WriteHeader 404).Write (lit "User not found."), s1)
      | .err msg =>
        .returned ((w.WriteHeader 500).Write
          (lit "Failed to get user from the database: " ++ msg), s1)
      | .ok user =>
        let url := productURL env.helperService user.LastOrderedProduct
        -- resp, err := http.Get(url)
        let s2 := s1.afterGet env url
        match env.httpGet url with
        | .err msg =>
          .returned ((w.WriteHeader 500).Write
            (lit "Failed to delete user from the database: " ++ msg), s2)
        | .response _ body =>
          -- body, err := io.ReadAll(resp.Body)
          match body with
          | .err _ =>
            -- fmt.Println("Error:", err); return
            .returned (w, s2)
          | .ok b =>
            -- w.Header().Set("Content-Type", "application/json")
            -- json.NewEncoder(w).Encode(string(body))
            .returned (encodeString (w.setHeader "Content-Type" "application/json") b, s2)

/-- A user row whose last ordered product is 7. -/
def sampleUser : User :=
  { ID := 1, Username := lit "ann", Email := lit "ann@example.org", LastOrderedProduct := 7 }

/-- A backend that knows user 1 and whose peer answers every GET with `reply`. -/
def sampleBackend (reply : GetResult) : Backend :=
  { queryUser := fun id => if id = 1 then .ok sampleUser else .errNoRows
    queryTime := fun _ => 3
    helperService := lit "service2:8080"
    httpGet := fun _ => reply
    getTime := fun _ => 4 }

/-- The request `GET /users/product/<id>`. -/
def productRequest (id : Bytes) : Request :=
  { Method := lit "GET", Path := lit "/users/product/" ++ id,
    RemoteAddr := lit "10.0.0.5:5555", Body := [] }

/-- The peer body of the end-to-end scenario. -/
def widgetBody : Bytes := lit "\x7b\"id\":7,\"name\":\"Widget\",\"price\":10\x7d"

/-! ## Consumer (`6_monitoring/services/logger/main.go`) -/

/-- What `reader.ReadMessage(ctx)` returns: a message, or an error. A cancelled
context makes it return the error `context.Canceled`. -/
inductive ReadResult where
  | message (value : Bytes)
  | error (err : Bytes)
deriving DecidableEq, Repr

/-- The error text of `context.Canceled`. -/
def contextCanceled : Bytes := lit "context canceled"

/-- Lines written through the `log` package (without the timestamp). -/
inductive LogLine where
  | shuttingDown
  | readError (topic : Nat) (err : Bytes)
  | received (topic : Nat) (value : Bytes)
  | serviceStopped
deriving DecidableEq, Repr

/-- How one pass through the body of a `for` loop ends: the loop goes on with the
next iteration (end of body or `continue`), or the enclosing function is left
(`break`/`return`). -/
inductive Control where
  | nextIteration
  | leave
deriving DecidableEq, Repr

/-- The states of a topic subscription. -/
inductive Phase where
  | running
  | closed
deriving DecidableEq, Repr

/-- One subscription goroutine: its state, the number of `ReadMessage` calls it has
made, the messages it has handled and the lines it has logged. -/
structure Subscription where
  phase : Phase
  reads : Nat
  handled : List Bytes
  log : List LogLine
deriving DecidableEq, Repr

/-- A subscription at process start. -/
def Subscription.init : Subscription :=
  { phase := .running, reads := 0, handled := [], log := [] }

/-- The body of the receive loop of topic `topic`, after `ReadMessage` returned
`res`: an error is logged and the loop `continue`s; a message is logged and the
body ends. Neither branch leaves the loop. -/
def loopBody (topic : Nat) (res : ReadResult) (s : Subscription) : Subscription × Control :=
  match res with
  | .error err =>
    ({ s with reads := s.reads + 1, log := s.log ++ [.readError topic err] }, .nextIteration)
  | .message value =>
    ({ s with reads := s.reads + 1, handled := s.handled ++ [value],
              log := s.log ++ [.received topic value] }, .nextIteration)

/-- One scheduling step of a subscription goroutine: a closed subscription does
nothing; a running one performs one loop iteration, and if the loop were left the
deferred `reader.Close()` would run and close the subscription. -/
def Subscription.step (topic : Nat) (res : ReadResult) (s : Subscription) : Subscription :=
  match s.phase with
  | .closed => s
  | .running =>
    match loopBody topic res s with
    | (s1, .nextIteration) => s1
    | (s1, .leave) => { s1 with phase := .closed }

/-- The subscription after the reads `results`, in order. -/
def Subscription.run (topic : Nat) (results : List ReadResult) (s : Subscription) : Subscription :=
  results.foldl (fun acc res => acc.step topic res) s

/-- What the scheduler can do next in the consumer process. -/
inductive Event where
  | signal
  | signalGoroutine
  | topic1 (res : ReadResult)
  | topic2 (res : ReadResult)
  | mainGoroutine
deriving DecidableEq, Repr

/-- The consumer process: the signal channel, the shared context, the main
goroutine and the two subscription goroutines. -/
structure Consumer where
  signalPending : Bool
  signalGoroutineDone : Bool
  cancelled : Bool
  mainExited : Bool
  topic1 : Subscription
  topic2 : Subscription
  log : List LogLine
deriving DecidableEq, Repr

/-- The consumer once `main` has started its three goroutines. -/
def Consumer.init : Consumer :=
  { signalPending := false, signalGoroutineDone := false, cancelled := false,
    mainExited := false, topic1 := Subscription.init, topic2 := Subscription.init, log := [] }

/-- One step of the consumer process. Once `main` has returned the process is gone
and nothing runs any more. -/
def Consumer.step (c : Consumer) (e : Event) : Consumer :=
  if c.mainExited then c else
  match e with
  | .signal => { c with signalPending := true }
  | .signalGoroutine =>
    -- <-signalCh; log.Println("Shutting down..."); cancel()
    if c.signalPending && !c.signalGoroutineDone then
      { c with signalGoroutineDone := true, cancelled := true, log := c.log ++ [.shuttingDown] }
    else c
  | .topic1 res => { c with topic1 := c.topic1.step 1 res }
  | .topic2 res => { c with topic2 := c.topic2.step 2 res }
  | .mainGoroutine =>
    -- <-ctx.Done(); log.Println("Service stopped."); return
    if c.cancelled then { c with mainExited := true, log := c.log ++ [.serviceStopped] }
    else c

/-- The consumer after the schedule `es`. -/
def Consumer.run (es : List Event) (c : Consumer) : Consumer := es.foldl Consumer.step c

/-- The text that the `log` package writes for a line, after its timestamp header:
the formatted message, ended by a newline. -/
def LogLine.text : LogLine → Bytes
  | .shuttingDown => lit "Shutting down...\n"
  | .readError topic err =>
    lit "Error reading message from Topic " ++ formatInt topic ++ lit ": " ++ err ++ [0x0A]
  | .received topic value =>
    lit "[Topic " ++ formatInt topic ++ lit "] Received message: " ++ value ++ [0x0A]
  | .serviceStopped => lit "Service stopped.\n"

/-- The line a receive loop logs for the outcome of one read. -/
def lineOf (topic : Nat) : ReadResult → LogLine
  | .message value => .received topic value
  | .error err => .readError topic err

/-- The values of the messages among the outcomes of reads. -/
def messagesOf : List ReadResult → List Bytes
  | [] => []
  | .message value :: rest => value :: messagesOf rest
  | .error _ :: rest => messagesOf rest

/-- Signals the operating system can deliver to the consumer process:
`os.Interrupt`, `syscall.SIGTERM`, and any other one. -/
inductive Signal where
  | interrupt
  | terminate
  | other
deriving DecidableEq, Repr

/-- Delivery of a signal to the process after
`signal.Notify(signalCh, os.Interrupt, syscall.SIGTERM)`: the two signals named there
are relayed to `signalCh`, whose buffer holds one; no other signal reaches the
channel. -/
def Consumer.receive (c : Consumer) (sig : Signal) : Consumer :=
  match sig with
  | .interrupt => c.step .signal
  | .terminate => c.step .signal
  | .other => c

/-- The number of calls of `cancel()` so far: each one follows the line
"Shutting down..." in the signal goroutine. -/
def Consumer.cancelCalls (c : Consumer) : Nat := c.log.count .shuttingDown

/-- The cancellation bookkeeping of the consumer: the context is cancelled exactly
when the signal goroutine has run, which needs a relayed signal, and `cancel()` has
then been called once. -/
def CancelInv (c : Consumer) : Prop :=
  c.cancelled = c.signalGoroutineDone
  ∧ (c.signalGoroutineDone = true → c.signalPending = true)
  ∧ c.cancelCalls = if c.signalGoroutineDone then 1 else 0

/-! ## In-memory product service (`2_storage/services/service2/main.go`) -/

/-- The `Product` record of the in-memory service: its id is a string. -/
structure MemProduct where
  ID : Bytes
  Name : Bytes
  Price : Int
deriving DecidableEq, Repr

/-- The JSON object that `encoding/json` writes for a `Product` of the in-memory
service: the fields in the order of the struct, under their tags. -/
def MemProduct.json (p : MemProduct) : Bytes :=
  lit "\x7b\"id\":" ++ appendString p.ID ++ lit ",\"name\":" ++ appendString p.Name
    ++ lit ",\"price\":" ++ formatInt p.Price ++ lit "\x7d"

/-- The JSON text for the slice `products`: `null` for the nil slice (`none`), an
array otherwise. -/
def MemProduct.jsonSlice : Option (List MemProduct) → Bytes
  | none => lit "null"
  | some l => lit "[" ++ List.intercalate (lit ",") (l.map MemProduct.json) ++ lit "]"

/-- Go `json.NewEncoder(w).Encode(v)` once `v` is marshalled to `text`: the text and
a newline are written to `w`. -/
def encodeJSON (w : ResponseWriter) (text : Bytes) : ResponseWriter :=
  w.Write (text ++ [0x0A])

/-- Go `append(products[:index], products[index+1:]...)`: the slice without the
element at `index`. -/
def removeAt (index : Nat) (products : List MemProduct) : List MemProduct :=
  products.take index ++ products.drop (index + 1)

/-- The `range` loop of the in-memory `deleteProduct` from `index` on, `rest` being
the elements still to visit: at the first product with the id the slice is
reassigned and the loop is left. -/
def Storage.deleteLoop (id : Bytes) (products : List MemProduct) :
    Nat → List MemProduct → List MemProduct
  | _, [] => products
  | index, product :: rest =>
    if product.ID = id then removeAt index products
    else Storage.deleteLoop id products (index + 1) rest

/-- The in-memory `deleteProduct(w, r)`, with `id` standing for `mux.Vars(r)["id"]`;
the state is the package variable `products` (`none` is the nil slice). -/
def Storage.deleteProduct (id : Bytes) : Handler (Option (List MemProduct)) :=
  fun w _ products =>
    let products1 := products.map fun l => Storage.deleteLoop id l 0 l
    -- json.NewEncoder(w).Encode(products)
    .returned (encodeJSON w (MemProduct.jsonSlice products1), products1)

/-- The `range` loop of the in-memory `updateProduct` from `index` on: at the first
product with the id, that element is removed, the body is decoded into
`updatedProduct`, its ID is set to the id and it is appended; the new slice and
`updatedProduct` are the result. `none` when the loop ends without a match.
`decode body` is the value `json.NewDecoder(r.Body).Decode(&updatedProduct)` leaves
in the variable (its error is dropped). -/
def Storage.updateLoop (decode : Bytes → MemProduct) (id body : Bytes)
    (products : List MemProduct) : Nat → List MemProduct → Option (List MemProduct × MemProduct)
  | _, [] => none
  | index, product :: rest =>
    if product.ID = id then
      -- products = append(products[:index], products[index+1:]...)
      let products1 := removeAt index products
      -- _ = json.NewDecoder(r.Body).Decode(&updatedProduct); updatedProduct.ID = params["id"]
      let updatedProduct := { decode body with ID := id }
      -- products = append(products, updatedProduct)
      some (products1 ++ [updatedProduct], updatedProduct)
    else Storage.updateLoop decode id body products (index + 1) rest

/-- The in-memory `updateProduct(w, r)`, with `id` standing for
`mux.Vars(r)["id"]`. -/
def Storage.updateProduct (decode : Bytes → MemProduct) (id : Bytes) :
    Handler (Option (List MemProduct)) :=
  fun w r products =>
    match Storage.updateLoop decode id r.Body (products.getD []) 0 (products.getD []) with
    | some res =>
      -- json.NewEncoder(w).Encode(updatedProduct); return
      .returned (encodeJSON w res.2.json, some res.1)
    | none =>
      -- json.NewEncoder(w).Encode(nil)
      .returned (encodeJSON w (lit "null"), products)

/-- A decoder for the examples: the body is taken as the name, the id is "body-id"
and the price 5. -/
def sampleDecode (body : Bytes) : MemProduct :=
  { ID := lit "body-id", Name := body, Price := 5 }

/-- Three products, two of them with the id "a". -/
def sampleProducts : List MemProduct :=
  [{ ID := lit "b", Name := lit "pen", Price := 2 },
   { ID := lit "a", Name := lit "ink", Price := 3 },
   { ID := lit "a", Name := lit "cap", Price := 1 }]

/-! ## Greeting service (`1_kubernetes/services/service2/main.go`) and `fmt.Fprintf`
without operands -/

/-- Go `fmt.parsenum` on the bytes `s[start:end]`: the number read, whether digits
were read, and the bytes of the range left after them; on overflow the position
jumps to the end of the range. -/
def parsenum : Bytes → Nat → Bool → Nat × Bool × Bytes
  | [], num, isnum => (num, isnum, [])
  | c :: t, num, isnum =>
    if 0x30 ≤ c ∧ c ≤ 0x39 then
      if num > 1000000 then (0, false, [])
      else parsenum t (num * 10 + (c - 0x30)) true
    else (num, isnum, c :: t)

/-- Go `fmt.parseArgNumber` on a format that starts with `[`: the width of the
bracketed index and whether it is well formed. -/
def parseArgNumber (format : Bytes) : Nat × Bool :=
  if format.length < 3 then (1, false)
  else
    let inner := format.drop 1
    let k := inner.indexOf 0x5D
    if k < inner.length then
      let res := parsenum (inner.take k) 0 false
      if !res.2.1 ∨ res.2.2 ≠ [] then (k + 2, false) else (k + 2, true)
    else (1, false)

/-- Go `(*pp).argNumber` when the call has no operands: at `[` the index is skipped,
it can never be valid, so `goodArgNum` becomes false; the results are the rest of the
format, `found` and `goodArgNum`. -/
def argNumber (rest : Bytes) (goodArgNum : Bool) : Bytes × Bool × Bool :=
  match rest with
  | [] => (rest, false, goodArgNum)
  | c :: _ =>
    if c ≠ 0x5B then (rest, false, goodArgNum)
    else (rest.drop (parseArgNumber rest).1, (parseArgNumber rest).2, false)

/-- One verb of `(*pp).doPrintf` when the call has no operands, with the format just
after the `%`: what is written and the rest of the format after the verb. Flags,
width and precision are parsed and have no effect; `%%` writes a percent sign; any
other verb finds no operand. -/
def printVerb (t : Bytes) : Bytes × Bytes :=
  -- flags
  let t1 := t.dropWhile fun c => c = 0x23 ∨ c = 0x30 ∨ c = 0x2B ∨ c = 0x2D ∨ c = 0x20
  -- explicit argument index
  let a2 := argNumber t1 true
  -- width
  let w3 : Bytes × Bytes × Bool × Bool :=
    match a2.1 with
    | [] => ([], [], a2.2.1, a2.2.2)
    | c :: t3 =>
      if c = 0x2A then (lit "%!(BADWIDTH)", t3, false, a2.2.2)
      else
        let n := parsenum (c :: t3) 0 false
        ([], n.2.2, a2.2.1, a2.2.2 && !(a2.2.1 && n.2.1))
  -- precision
  let w4 : Bytes × Bytes × Bool × Bool :=
    match w3.2.1 with
    | [] => ([], [], w3.2.2.1, w3.2.2.2)
    | c :: t4 =>
      if c = 0x2E then
        let a := argNumber t4 (w3.2.2.2 && !w3.2.2.1)
        match a.1 with
        | [] => ([], [], a.2.1, a.2.2)
        | d :: t5 =>
          if d = 0x2A then (lit "%!(BADPREC)", t5, false, a.2.2)
          else ([], (parsenum (d :: t5) 0 false).2.2, a.2.1, a.2.2)
      else ([], c :: t4, w3.2.2.1, w3.2.2.2)
  let a5 := if w4.2.2.1 then (w4.2.1, w4.2.2.1, w4.2.2.2) else argNumber w4.2.1 w4.2.2.2
  match a5.1 with
  | [] => (w3.1 ++ w4.1 ++ lit "%!(NOVERB)", [])
  | c :: t6 =>
    let d := if c ≥ 0x80 then DecodeRune (c :: t6) else (c, 1)
    let rest := (c :: t6).drop d.2
    if d.1 = 0x25 then (w3.1 ++ w4.1 ++ [0x25], rest)
    else if !a5.2.2 then (w3.1 ++ w4.1 ++ lit "%!" ++ EncodeRune d.1 ++ lit "(BADINDEX)", rest)
    else (w3.1 ++ w4.1 ++ lit "%!" ++ EncodeRune d.1 ++ lit "(MISSING)", rest)

/-- The loop of `(*pp).doPrintf` when the call has no operands: bytes up to a `%`
are copied, a `%` starts a verb (`fuel` bounds the number of iterations; the length
of the format suffices). -/
def doPrintf : Nat → Bytes → Bytes
  | _, [] => []
  | 0, _ :: _ => []
  | fuel + 1, c :: t =>
    if c ≠ 0x25 then c :: doPrintf fuel t
    else (printVerb t).1 ++ doPrintf fuel (printVerb t).2

/-- Go `fmt.Fprintf(w, format)` with no operands: the formatted text is written to
`w` in one `Write`. -/
def Fprintf (w : ResponseWriter) (format : Bytes) : ResponseWriter :=
  w.Write (doPrintf format.length format)

/-- Go `url.Values`: the parsed query, each key with its values. -/
abbrev Values := List (Bytes × List Bytes)

/-- Go `url.Values.Get`: the first value of the key, the empty string when the key
is absent. -/
def Values.Get (v : Values) (key : Bytes) : Bytes :=
  match v.lookup key with
  | some (x :: _) => x
  | _ => []

/-- The function `greetHandler(w, r)`, with `query` standing for `r.URL.Query()`. -/
def greetHandler {σ : Type} (query : Values) : Handler σ := fun w _ s =>
  let name := Values.Get query (lit "name")
  let name := if name = [] then lit "Guest" else name
  -- greeting := fmt.Sprintf("Hello, %s!", name)
  let greeting := lit "Hello, " ++ name ++ lit "!"
  -- fmt.Fprintf(w, greeting)
  .returned (Fprintf w greeting, s)

/-! ## Database-backed product service (`6_monitoring/services/service2/main.go`
and `4_istio/services/service2/main.go`) -/

/-- What `row.Scan(...)` yields after `db.QueryRow(...)`: the row, `sql.ErrNoRows`,
or another error. -/
inductive RowScan (α : Type) where
  | ok (row : α)
  | errNoRows
  | err (msg : Bytes)
deriving DecidableEq, Repr

/-- What `db.Query(...)` and the loop over `rows.Next()` / `rows.Scan(...)` yield: a
query error, or the rows scanned, ended by the error of a later `Scan` when there is
one. -/
inductive RowsResult (α : Type) where
  | queryErr (msg : Bytes)
  | rows (scanned : List α) (scanErr : Option Bytes)
deriving DecidableEq, Repr

/-- What `db.Exec(...)` yields: an error, or a result with its `RowsAffected()`. -/
inductive ExecResult where
  | err (msg : Bytes)
  | ok (rowsAffected : Int)
deriving DecidableEq, Repr

/-- The text `err.Error()` of a failed `Scan`. -/
def RowScan.errorText {α : Type} : RowScan α → Bytes
  | .ok _ => []
  | .errNoRows => lit "sql: no rows in result set"
  | .err msg => msg

/-- The state after the database statement `st`, which takes `elapsed st`; a
`dbQueryDuration` timer around it observes that time when `timed`. -/
def Sys.afterStatement (timed : Bool) (elapsed : Statement → Nat) (st : Statement) (s : Sys) :
    Sys :=
  { s with
    now := s.now + elapsed st
    statements := s.statements ++ [st]
    dbQueryDuration :=
      if timed then s.dbQueryDuration ++ [elapsed st] else s.dbQueryDuration }

/-- The JSON array of the items. -/
def jsonArray (items : List Bytes) : Bytes :=
  lit "[" ++ List.intercalate (lit ",") items ++ lit "]"

/-- The `Product` record of service 2. -/
structure Product where
  ID : Int
  Name : Bytes
  Price : Int
deriving DecidableEq, Repr

/-- The JSON object that `encoding/json` writes for a `Product`. -/
def Product.json (p : Product) : Bytes :=
  lit "\x7b\"id\":" ++ formatInt p.ID ++ lit ",\"name\":" ++ appendString p.Name
    ++ lit ",\"price\":" ++ formatInt p.Price ++ lit "\x7d"

/-- The collaborators of service 2 during one request: the JSON decoder on the
request body (`none` for an error of `Decode`), the answers of the database to the
five statements, and how long a statement takes. -/
structure ProductDb where
  decodeProduct : Bytes → Option Product
  selectAll : RowsResult Product
  selectById : Int → RowScan Product
  insert : Bytes → Int → RowScan Int
  update : Bytes → Int → Int → ExecResult
  delete : Int → ExecResult
  elapsed : Statement → Nat

/-- The function `getProducts(db, w, r)` of service 2; `timed` is true for
`6_monitoring`, whose statements are wrapped in a `dbQueryDuration` timer, and false
for `4_istio`. -/
def getProducts (timed : Bool) (db : ProductDb) : Handler Sys := fun w _ s =>
  -- rows, err := db.Query("SELECT * FROM products")
  let s1 := s.afterStatement timed db.elapsed ("SELECT * FROM products", [])
  match db.selectAll with
  | .queryErr msg =>
    .returned ((w.WriteHeader 500).Write
      (lit "Failed to get products from the database: " ++ msg), s1)
  | .rows _ (some msg) =>
    .returned ((w.WriteHeader 500).Write
      (lit "Failed to scan products from the database: " ++ msg), s1)
  | .rows products none =>
    -- products := make([]Product, 0) ...; json.NewEncoder(w).Encode(products)
    .returned (encodeJSON (w.setHeader "Content-Type" "application/json")
      (jsonArray (products.map Product.json)), s1)

/-- The function `getProduct(db, w, r)` of service 2. -/
def getProduct (timed : Bool) (db : ProductDb) : Handler Sys := fun w r s =>
  -- idStr := r.URL.Path[len("/products/"):]
  if r.Path.length < (lit "/products/").length then .panicked (w, s)
  else
    match Atoi (r.Path.drop (lit "/products/").length) with
    | none => .returned ((w.WriteHeader 400).Write (lit "Invalid product ID."), s)
    | some id =>
      -- row := db.QueryRow("SELECT * FROM products WHERE id = $1", id)
      let s1 := s.afterStatement timed db.elapsed
        ("SELECT * FROM products WHERE id = $1", [.int id])
      match db.selectById id with
      | .errNoRows => .returned ((w.WriteHeader 404).Write (lit "Product not found."), s1)
      | .err msg =>
        .returned ((w.WriteHeader 500).Write
          (lit "Failed to get product from the database: " ++ msg), s1)
      | .ok product =>
        .returned (encodeJSON (w.setHeader "Content-Type" "application/json") product.json, s1)

/-- The function `createProduct(db, w, r)` of service 2. -/
def createProduct (timed : Bool) (db : ProductDb) : Handler Sys := fun w r s =>
  -- json.NewDecoder(r.Body).Decode(&product)
  match db.decodeProduct r.Body with
  | none => .returned ((w.WriteHeader 400).Write (lit "Invalid product data."), s)
  | some product =>
    if product.Name = [] ∨ product.Price ≤ 0 then
      .returned ((w.WriteHeader 400).Write (lit "Invalid product data."), s)
    else
      -- db.QueryRow("INSERT ... RETURNING id", product.Name, product.Price).Scan(&product.ID)
      let s1 := s.afterStatement timed db.elapsed
        ("INSERT INTO products (name, price) VALUES ($1, $2) RETURNING id",
          [.text product.Name, .int product.Price])
      match db.insert product.Name product.Price with
      | .ok id =>
        .returned (encodeJSON (w.setHeader "Content-Type" "application/json")
          ({ product with ID := id } : Product).json, s1)
      | res =>
        .returned ((w.WriteHeader 500).Write
          (lit "Failed to create product in the database: " ++ res.errorText), s1)

/-- The function `updateProduct(db, w, r)` of service 2. -/
def updateProduct (timed : Bool) (db : ProductDb) : Handler Sys := fun w r s =>
  if r.Path.length < (lit "/products/").length then .panicked (w, s)
  else
    match Atoi (r.Path.drop (lit "/products/").length) with
    | none => .returned ((w.WriteHeader 400).Write (lit "Invalid product ID."), s)
    | some id =>
      match db.decodeProduct r.Body with
      | none => .returned ((w.WriteHeader 400).Write (lit "Invalid product data."), s)
      | some product =>
        if product.Name = [] ∨ product.Price ≤ 0 then
          .returned ((w.WriteHeader 400).Write (lit "Invalid product data."), s)
        else
          -- result, err := db.Exec("UPDATE ...", product.Name, product.Price, id)
          let s1 := s.afterStatement timed db.elapsed
            ("UPDATE products SET name = $1, price = $2 WHERE id = $3",
              [.text product.Name, .int product.Price, .int id])
          match db.update product.Name product.Price id with
          | .err msg =>
            .returned ((w.WriteHeader 500).Write
              (lit "Failed to update product in the database: " ++ msg), s1)
          | .ok rowsAffected =>
            if rowsAffected = 0 then
              .returned ((w.WriteHeader 404).Write (lit "Product not found."), s1)
            else
              .returned ((w.WriteHeader 200).Write (lit "Product updated successfully."), s1)

/-- The function `deleteProduct(db, w, r)` of service 2. Its error message is
formatted without a verb for the operand, so `fmt` appends the operand as an extra
one. -/
def deleteProduct (timed : Bool) (db : ProductDb) : Handler Sys := fun w r s =>
  if r.Path.length < (lit "/products/").length then .panicked (w, s)
  else
    match Atoi (r.Path.drop (lit "/products/").length) with
    | none => .returned ((w.WriteHeader 400).Write (lit "Invalid product ID."), s)
    | some id =>
      -- result, err := db.Exec("DELETE FROM products WHERE id = $1", id)
      let s1 := s.afterStatement timed db.elapsed
        ("DELETE FROM products WHERE id = $1", [.int id])
      match db.delete id with
      | .err msg =>
        -- fmt.Fprintf(w, "Failed to delete product from the database: ", err.Error())
        .returned ((w.WriteHeader 500).Write
          (lit "Failed to delete product from the database: " ++ lit "%!(EXTRA string="
            ++ msg ++ lit ")"), s1)
      | .ok rowsAffected =>
        if rowsAffected = 0 then
          .returned ((w.WriteHeader 404).Write (lit "Product not found."), s1)
        else
          .returned ((w.WriteHeader 200).Write (lit "Product deleted successfully."), s1)

/-- The response of the `default` case of the route closures in `main`. -/
def methodNotAllowed (w : ResponseWriter) : ResponseWriter :=
  (w.WriteHeader 405).Write (lit "Unsupported request method.")

/-- The closure that `main` of service 2 registers for `/products`. -/
def productsRoute (timed : Bool) (db : ProductDb) : Handler Sys := fun w r s =>
  if r.Method = lit "GET" then getProducts timed db w r s
  else if r.Method = lit "POST" then createProduct timed db w r s
  else .returned (methodNotAllowed w, s)

/-- The closure that `main` of service 2 registers for `/products/`. -/
def productRoute (timed : Bool) (db : ProductDb) : Handler Sys := fun w r s =>
  if r.Method = lit "GET" then getProduct timed db w r s
  else if r.Method = lit "PUT" then updateProduct timed db w r s
  else if r.Method = lit "DELETE" then deleteProduct timed db w r s
  else .returned (methodNotAllowed w, s)

/-! ## Database-backed user service (`6_monitoring/services/service1/main.go` and
`5_kafka/services/service1/main.go`) -/

/-- Go `http.Error(w, error, code)`: a plain-text response with the message and a
newline. -/
def httpError (w : ResponseWriter) (error : Bytes) (code : Nat) : ResponseWriter :=
  (((w.setHeader "Content-Type" "text/plain; charset=utf-8").setHeader
    "X-Content-Type-Options" "nosniff").WriteHeader code).Write (error ++ [0x0A])

/-- The JSON object that `encoding/json` writes for a `User`. -/
def User.json (u : User) : Bytes :=
  lit "\x7b\"id\":" ++ formatInt u.ID ++ lit ",\"username\":" ++ appendString u.Username
    ++ lit ",\"email\":" ++ appendString u.Email ++ lit ",\"last_ordered_product\":"
    ++ formatInt u.LastOrderedProduct ++ lit "\x7d"

/-- The collaborators of service 1 during one request, besides those of `Backend`:
the JSON decoder on the request body (`none` for an error of `Decode`), the answers
of the database to the statements other than the lookup by id, and how long a
statement takes. -/
structure UserDb where
  decodeUser : Bytes → Option User
  selectAll : RowsResult User
  insert : Bytes → Bytes → Int → RowScan Int
  update : Bytes → Bytes → Int → ExecResult
  delete : Int → ExecResult
  elapsed : Statement → Nat

/-- The function `getUsers(db, w, r)` of `6_monitoring`: errors are answered with
`http.Error`, and the slice `users` is nil as long as no row was appended. -/
def getUsers (db : UserDb) : Handler Sys := fun w _ s =>
  -- rows, err := db.Query("SELECT * FROM users")
  let s1 := s.afterStatement true db.elapsed ("SELECT * FROM users", [])
  match db.selectAll with
  | .queryErr _ => .returned (httpError w (lit "Failed to query users") 500, s1)
  | .rows _ (some _) => .returned (httpError w (lit "Failed to scan user") 500, s1)
  | .rows users none =>
    .returned (encodeJSON (w.setHeader "Content-Type" "application/json")
      (if users = [] then lit "null" else jsonArray (users.map User.json)), s1)

/-- The function `getUsers(db, w, r)` of `5_kafka`: no timer, the errors are written
with their text, and `users` starts as an empty slice. -/
def Kafka.getUsers (db : UserDb) : Handler Sys := fun w _ s =>
  let s1 := s.afterStatement false db.elapsed ("SELECT * FROM users", [])
  match db.selectAll with
  | .queryErr msg =>
    .returned ((w.WriteHeader 500).Write
      (lit "Failed to get users from the database: " ++ msg), s1)
  | .rows _ (some msg) =>
    .returned ((w.WriteHeader 500).Write
      (lit "Failed to scan users from the database: " ++ msg), s1)
  | .rows users none =>
    .returned (encodeJSON (w.setHeader "Content-Type" "application/json")
      (jsonArray (users.map User.json)), s1)

/-- The function `getUser(db, w, r)` of service 1; `timed` is true for
`6_monitoring` and false for `5_kafka`. The lookup is the one of `Backend`. -/
def getUser (timed : Bool) (env : Backend) : Handler Sys := fun w r s =>
  -- idStr := r.URL.Path[len("/users/"):]
  if r.Path.length < (lit "/users/").length then .panicked (w, s)
  else
    match Atoi (r.Path.drop (lit "/users/").length) with
    | none => .returned ((w.WriteHeader 400).Write (lit "Invalid user ID."), s)
    | some id =>
      -- row := db.QueryRow("SELECT * FROM users WHERE id = $1", id)
      let s1 := s.afterQuery timed env id
      match env.queryUser id with
      | .errNoRows => .returned ((w.WriteHeader 404).Write (lit "User not found."), s1)
      | .err msg =>
        .returned ((w.WriteHeader 500).Write
          (lit "Failed to get user from the database: " ++ msg), s1)
      | .ok user =>
        .returned (encodeJSON (w.setHeader "Content-Type" "application/json") user.json, s1)

/-- The function `createUser(db, w, r)` of service 1. -/
def createUser (timed : Bool) (db : UserDb) : Handler Sys := fun w r s =>
  match db.decodeUser r.Body with
  | none => .returned ((w.WriteHeader 400).Write (lit "Invalid user data."), s)
  | some user =>
    if user.Username = [] ∨ user.Email = [] then
      .returned ((w.WriteHeader 400).Write (lit "Invalid user data."), s)
    else
      -- db.QueryRow("INSERT ... RETURNING id", ...).Scan(&user.ID)
      let s1 := s.afterStatement timed db.elapsed
        ("INSERT INTO users (username, email, last_ordered_product) VALUES ($1, $2, $3) RETURNING id",
          [.text user.Username, .text user.Email, .int user.LastOrderedProduct])
      match db.insert user.Username user.Email user.LastOrderedProduct with
      | .ok id =>
        .returned (encodeJSON (w.setHeader "Content-Type" "application/json")
          ({ user with ID := id } : User).json, s1)
      | res =>
        .returned ((w.WriteHeader 500).Write
          (lit "Failed to create user in the database: " ++ res.errorText), s1)

/-- The function `updateUser(db, w, r)` of service 1. -/
def updateUser (timed : Bool) (db : UserDb) : Handler Sys := fun w r s =>
  if r.Path.length < (lit "/users/").length then .panicked (w, s)
  else
    match Atoi (r.Path.drop (lit "/users/").length) with
    | none => .returned ((w.WriteHeader 400).Write (lit "Invalid user ID."), s)
    | some id =>
      match db.decodeUser r.Body with
      | none => .returned ((w.WriteHeader 400).Write (lit "Invalid user data."), s)
      | some user =>
        if user.Username = [] ∨ user.Email = [] then
          .returned ((w.WriteHeader 400).Write (lit "Invalid user data."), s)
        else
          -- result, err := db.Exec("UPDATE ...", user.Username, user.Email, id)
          let s1 := s.afterStatement timed db.elapsed
            ("UPDATE users SET username = $1, email = $2 WHERE id = $3",
              [.text user.Username, .text user.Email, .int id])
          match db.update user.Username user.Email id with
          | .err msg =>
            .returned ((w.WriteHeader 500).Write
              (lit "Failed to update user in the database: " ++ msg), s1)
          | .ok rowsAffected =>
            if rowsAffected = 0 then
              .returned ((w.WriteHeader 404).Write (lit "User not found."), s1)
            else .returned ((w.WriteHeader 200).Write (lit "User updated successfully."), s1)

/-- The function `deleteUser(db, w, r)` of service 1. -/
def deleteUser (timed : Bool) (db : UserDb) : Handler Sys := fun w r s =>
  if r.Path.length < (lit "/users/").length then .panicked (w, s)
  else
    match Atoi (r.Path.drop (lit "/users/").length) with
    | none => .returned ((w.WriteHeader 400).Write (lit "Invalid user ID."), s)
    | some id =>
      -- result, err := db.Exec("DELETE FROM users WHERE id = $1", id)
      let s1 := s.afterStatement timed db.elapsed ("DELETE FROM users WHERE id = $1", [.int id])
      match db.delete id with
      | .err msg =>
        .returned ((w.WriteHeader 500).Write
          (lit "Failed to delete user from the database: " ++ msg), s1)
      | .ok rowsAffected =>
        if rowsAffected = 0 then
          .returned ((w.WriteHeader 404).Write (lit "User not found."), s1)
        else .returned ((w.WriteHeader 200).Write (lit "User deleted successfully."), s1)

/-- The closure that `main` of service 1 (`6_monitoring`) registers for `/users`. -/
def usersRoute (db : UserDb) : Handler Sys := fun w r s =>
  if r.Method = lit "GET" then getUsers db w r s
  else if r.Method = lit "POST" then createUser true db w r s
  else .returned (methodNotAllowed w, s)

/-- The closure that `main` of service 1 (`5_kafka`) registers for `/users`. -/
def Kafka.usersRoute (db : UserDb) : Handler Sys := fun w r s =>
  if r.Method = lit "GET" then Kafka.getUsers db w r s
  else if r.Method = lit "POST" then createUser false db w r s
  else .returned (methodNotAllowed w, s)

/-- The closure that `main` of service 1 registers for `/users/`. -/
def userRoute (timed : Bool) (env : Backend) (db : UserDb) : Handler Sys := fun w r s =>
  if r.Method = lit "GET" then getUser timed env w r s
  else if r.Method = lit "PUT" then updateUser timed db w r s
  else if r.Method = lit "DELETE" then deleteUser timed db w r s
  else .returned (methodNotAllowed w, s)

/-- The closure that `main` of service 1 registers for `/users/product/`. -/
def userProductRoute (timed : Bool) (env : Backend) : Handler Sys := fun w r s =>
  if r.Method = lit "GET" then getLastOrderedProduct timed env w r s
  else .returned (methodNotAllowed w, s)

/-- A handler observes each statement it issues: on every path it either issues no
statement and adds no observation to `db_query_duration_seconds`, or issues exactly
one statement and adds exactly one observation. -/
def ObservesStatements (h : Handler Sys) : Prop :=
  ∀ w r s,
    ((h w r s).state.2.statements = s.statements
      ∧ (h w r s).state.2.dbQueryDuration = s.dbQueryDuration)
    ∨ ∃ st d, (h w r s).state.2.statements = s.statements ++ [st]
      ∧ (h w r s).state.2.dbQueryDuration = s.dbQueryDuration ++ [d]

/-- A handler that always reaches the database: on every path, whatever the database
answers, it issues exactly one statement and adds exactly one observation. -/
def ObservesOneStatement (h : Handler Sys) : Prop :=
  ∀ w r s, ∃ st d, (h w r s).state.2.statements = s.statements ++ [st]
    ∧ (h w r s).state.2.dbQueryDuration = s.dbQueryDuration ++ [d]

/-- A handler whose rejections come before the database: whenever it answers a fresh
response writer with status 400, it has issued no statement and added no
observation. -/
def RejectsBeforeDatabase (h : Handler Sys) : Prop :=
  ∀ w r s, w.status = none → (h w r s).state.1.statusCode = 400 →
    (h w r s).state.2.statements = s.statements
      ∧ (h w r s).state.2.dbQueryDuration = s.dbQueryDuration

/-- A database of service 2 for the examples: the body "bad" does not decode, any
other body decodes to a product named by the body with price 4; the insert fails. -/
def sampleProductDb : ProductDb :=
  { decodeProduct := fun body =>
      if body = lit "bad" then none else some { ID := 0, Name := body, Price := 4 }
    selectAll := .rows [] none
    selectById := fun _ => .errNoRows
    insert := fun _ _ => .err (lit "connection reset")
    update := fun _ _ _ => .ok 1
    delete := fun _ => .ok 0
    elapsed := fun _ => 7 }

/-- A database of service 1 for the examples. -/
def sampleUserDb : UserDb :=
  { decodeUser := fun _ => none
    selectAll := .queryErr (lit "connection reset")
    insert := fun _ _ _ => .errNoRows
    update := fun _ _ _ => .ok 1
    delete := fun _ => .ok 0
    elapsed := fun _ => 7 }

/-! ## The `main` functions of the instrumented services and their routes -/

/-- The process-wide state of an instrumented service: the gauge `db_connections`,
the state of `logRequests`, the Kafka writer, and the state the handlers act on. -/
structure Service where
  dbConnections : Int
  telemetry : Telemetry
  kafka : KafkaWriter
  sys : Sys
deriving DecidableEq, Repr

/-- The state of a process before `main` runs. -/
def Service.init : Service :=
  { dbConnections := 0, telemetry := Telemetry.init, kafka := KafkaWriter.init, sys := Sys.init }

/-- What the collaborators of a service answer during one request: the database and
the peer, the outcome of the broker send, and the text that `promhttp` renders for
the registry. -/
structure Surroundings where
  backend : Backend
  users : UserDb
  products : ProductDb
  sendErr : Option Bytes
  exposition : Bytes

/-- A handler registered with `http.Handle` or `http.HandleFunc`. -/
abbrev Route := Surroundings → ResponseWriter → Request → Service →
  Outcome (ResponseWriter × Service)

/-- The handler `logRequests(serviceLogWriter, inner)` of `6_monitoring` as a route:
the wrapped handler and the goroutine it starts, on the state of the service. -/
def instrument (inner : Surroundings → Handler Sys) : Route := fun env w r sv =>
  let res := serve jsonMarshal env.sendErr Sys.now (inner env) w r sv.telemetry sv.kafka sv.sys
  match res.1 with
  | .returned out =>
    .returned (out.1, { sv with telemetry := out.2.1, kafka := res.2, sys := out.2.2 })
  | .panicked out =>
    .panicked (out.1, { sv with telemetry := out.2.1, kafka := res.2, sys := out.2.2 })

/-- The handler `promhttp.Handler()`: it writes the exposition of the registry and
changes none of the four metrics of the service. -/
def metricsRoute : Route := fun env w _ sv =>
  .returned ((w.setHeader "Content-Type" "text/plain; version=0.0.4; charset=utf-8").Write
    env.exposition, sv)

/-- The environment of `main`: the variables read with `os.Getenv`, and `sql.Open`
(the error it returns for a data source name, `none` for `nil`). -/
structure MainEnv where
  DB_HOST : Bytes
  DB_PORT : Bytes
  DB_USER : Bytes
  DB_PASSWORD : Bytes
  DB_NAME : Bytes
  KAFKA_HOST : Bytes
  KAFKA_TOPIC : Bytes
  sqlOpen : Bytes → Option Bytes

/-- The steps of `main` that the properties speak about, in the order they happen. -/
inductive MainEvent where
  | println (text : Bytes)
  | gaugeInc
  | gaugeDec
  | dbClose
  | newKafkaWriter (brokers : List Bytes) (topic : Bytes)
  | handle (pattern : String)
  | logPrintln (text : Bytes)
  | listenAndServe (addr : String)
  | fatalInvalidPort
  | fatal (err : Bytes)
deriving DecidableEq, Repr

/-- A running service process: its state, the routes registered so far, the calls
`main` has deferred (newest first), what `main` has done, the responses given, and
the exit code once the process is gone. -/
structure Proc where
  service : Service
  routes : List (String × Route)
  deferred : List (List MainEvent)
  trace : List MainEvent
  responses : List (Outcome ResponseWriter)
  exitCode : Option Nat

/-- The process at the start of `main`. -/
def Proc.start : Proc :=
  { service := Service.init, routes := [], deferred := [], trace := [], responses := [],
    exitCode := none }

/-- Go `log.Fatal(...)`: the message is printed and `os.Exit(1)` ends the process at
once; deferred calls do not run. -/
def Proc.logFatal (p : Proc) (e : MainEvent) : Proc :=
  { p with trace := p.trace ++ [e], exitCode := some 1 }

/-- One step of `main` recorded in the trace. -/
def Proc.emit (p : Proc) (e : MainEvent) : Proc := { p with trace := p.trace ++ [e] }

/-- Go `http.Handle(pattern, handler)` / `http.HandleFunc(pattern, handler)`. -/
def Proc.handle (p : Proc) (pattern : String) (route : Route) : Proc :=
  { p with routes := p.routes ++ [(pattern, route)], trace := p.trace ++ [.handle pattern] }

/-- What one deferred step does to the process. -/
def Proc.apply (p : Proc) (e : MainEvent) : Proc :=
  match e with
  | .gaugeDec =>
    { p with service := { p.service with dbConnections := p.service.dbConnections - 1 },
             trace := p.trace ++ [.gaugeDec] }
  | e => p.emit e

/-- What a return of `main` (or a panic in it) would do: the deferred calls run,
newest first. No path of the `main` functions modelled here reaches it. -/
def Proc.runDeferred (p : Proc) : Proc :=
  { (p.deferred.flatten.foldl Proc.apply p) with deferred := [] }

/-- The data source name `fmt.Sprintf("host=%s port=%d user=%s password=%s dbname=%s
sslmode=disable", ...)`. -/
def dbInfo (env : MainEnv) (user password : Bytes) (port : Int) : Bytes :=
  lit "host=" ++ env.DB_HOST ++ lit " port=" ++ formatInt port ++ lit " user=" ++ user
    ++ lit " password=" ++ password ++ lit " dbname=" ++ env.DB_NAME ++ lit " sslmode=disable"

/-- The first part of `main` in both services of `6_monitoring`: the environment is
read, the port is parsed, the database is opened, and then the gauge is incremented
and its decrement deferred together with `db.Close()`. -/
def Monitoring.connect (env : MainEnv) : Proc :=
  -- port, err := strconv.Atoi(portStr)
  match Atoi env.DB_PORT with
  | none => Proc.start.logFatal .fatalInvalidPort
  | some port =>
    let info := dbInfo env env.DB_USER env.DB_PASSWORD port
    -- fmt.Println(dbInfo)
    let p1 := Proc.start.emit (.println info)
    -- db, err := sql.Open("postgres", dbInfo)
    match env.sqlOpen info with
    | some err => p1.logFatal (.fatal err)
    | none =>
      -- dbConnections.Inc()
      let p2 : Proc := { p1 with
        service := { p1.service with dbConnections := p1.service.dbConnections + 1 },
        trace := p1.trace ++ [MainEvent.gaugeInc] }
      -- defer func() { dbConnections.Dec(); db.Close() }()
      { p2 with deferred := [.gaugeDec, .dbClose] :: p2.deferred }

/-- The part of `main` of service 2 (`6_monitoring`) up to the call of
`http.ListenAndServe`. -/
def Monitoring.Service2.setup (env : MainEnv) : Proc :=
  let p := Monitoring.connect env
  if p.exitCode.isSome then p
  else
    -- serviceLogWriter := initKafkaWriter()
    let p := p.emit (.newKafkaWriter [env.KAFKA_HOST] env.KAFKA_TOPIC)
    let p := p.handle "/metrics" metricsRoute
    let p := p.handle "/products" (instrument fun e => productsRoute true e.products)
    let p := p.handle "/products/" (instrument fun e => productRoute true e.products)
    p.emit (.logPrintln (lit "Server listening on :8080"))

/-- The part of `main` of service 1 (`6_monitoring`) up to the call of
`http.ListenAndServe`. The function `logRequests` of that file names its writer
`kafkaWriter` in the body and `serviceLogWriter` in the parameter list; the routes
are taken here with the handler of service 2, whose text is the same with the
parameter under the name the body uses. Nothing is proved about what a request to
these routes publishes. -/
def Monitoring.Service1.setup (env : MainEnv) : Proc :=
  let p := Monitoring.connect env
  if p.exitCode.isSome then p
  else
    -- serviceLogWriter := initKafkaWriter()
    let p := p.emit (.newKafkaWriter [lit "localhost:9092"] (lit "service-log"))
    let p := p.handle "/metrics" metricsRoute
    let p := p.handle "/users" (instrument fun e => usersRoute e.users)
    let p := p.handle "/users/" (instrument fun e => userRoute true e.backend e.users)
    p.handle "/users/product/" (instrument fun e => userProductRoute true e.backend)

/-- One request that the server hands to the route registered under `pattern` (the
choice of the route is the multiplexer's): the route runs on a fresh response writer.
A pattern that is not registered leaves the service as it is. -/
def Proc.serveRequest (p : Proc) (hit : String × Surroundings × Request) : Proc :=
  match p.routes.lookup hit.1 with
  | none => p
  | some route =>
    let out := route hit.2.1 ResponseWriter.fresh hit.2.2 p.service
    { p with service := out.state.2, responses := p.responses ++ [out.response] }

/-- Go `log.Fatal(http.ListenAndServe(addr, nil))`: the server serves the requests
`hits` and then `ListenAndServe` returns the error `err`, which `log.Fatal` prints
before it exits. -/
def Proc.listenAndServe (p : Proc) (addr : String) (hits : List (String × Surroundings × Request))
    (err : Bytes) : Proc :=
  if p.exitCode.isSome then p
  else ((hits.foldl Proc.serveRequest (p.emit (.listenAndServe addr))).logFatal (.fatal err))

/-- The function `main` of service 2 (`6_monitoring`). -/
def Monitoring.Service2.main (env : MainEnv) (hits : List (String × Surroundings × Request))
    (err : Bytes) : Proc :=
  (Monitoring.Service2.setup env).listenAndServe ":8080" hits err

/-- The function `main` of service 1 (`6_monitoring`). -/
def Monitoring.Service1.main (env : MainEnv) (hits : List (String × Surroundings × Request))
    (err : Bytes) : Proc :=
  (Monitoring.Service1.setup env).listenAndServe ":8000" hits err

/-- Whether `s` is a decimal integer: an optional sign followed by at least one
decimal digit and nothing else. -/
def isDecimalInteger (s : Bytes) : Bool :=
  match s with
  | [] => false
  | c :: t =>
    let digits := if c = 0x2D ∨ c = 0x2B then t else s
    !digits.isEmpty && digits.all fun ch => 0x30 ≤ ch && ch ≤ 0x39

/-- An environment for the examples, with the port text and the answer of
`sql.Open` left open. -/
def sampleMainEnv (port : Bytes) (openErr : Option Bytes) : MainEnv :=
  { DB_HOST := lit "db", DB_PORT := port, DB_USER := lit "app", DB_PASSWORD := lit "secret",
    DB_NAME := lit "shop", KAFKA_HOST := lit "kafka:9092", KAFKA_TOPIC := lit "service-log",
    sqlOpen := fun _ => openErr }

/-- Surroundings for the examples. -/
def sampleSurroundings : Surroundings :=
  { backend := sampleBackend (.response 200 (.ok widgetBody)), users := sampleUserDb,
    products := sampleProductDb, sendErr := none, exposition := lit "# metrics\n" }

/-- Whether the startup of a service of `6_monitoring` gets past `sql.Open`. -/
def MainEnv.opens (env : MainEnv) : Bool :=
  match Atoi env.DB_PORT with
  | none => false
  | some port => (env.sqlOpen (dbInfo env env.DB_USER env.DB_PASSWORD port)).isNone

/-- The request `GET /metrics` of a Prometheus scrape. -/
def metricsRequest : Request :=
  { Method := lit "GET", Path := lit "/metrics", RemoteAddr := lit "10.0.0.9:4242", Body := [] }

/-- The request `GET /users`. -/
def usersRequest : Request :=
  { Method := lit "GET", Path := lit "/users", RemoteAddr := lit "10.0.0.5:5555", Body := [] }

/-- A route that leaves the gauge alone and does not decrease the request counter. -/
def Route.KeepsMetrics (route : Route) : Prop :=
  ∀ e w r sv, (route e w r sv).state.2.dbConnections = sv.dbConnections ∧
    sv.telemetry.httpRequestsTotal ≤ (route e w r sv).state.2.telemetry.httpRequestsTotal

/-- The statement of the handler returned by `logRequests` (`6_monitoring`) that a
request-handling task executes next; `finished` and `panicked` are the two ways the
call ends. -/
inductive Pc where
  | spawn
  | inc
  | newTimer
  | call
  | observe
  | finished
  | panicked
deriving DecidableEq, Repr

/-- Whether the task has executed `httpRequestsTotal.Inc()`. -/
def Pc.pastInc : Pc → Bool
  | .spawn => false
  | .inc => false
  | _ => true

/-- One request-handling task (the goroutine `net/http` runs for a request): its
request, its response writer, where it stands, and the start time held by its timer. -/
structure Task where
  request : Request
  writer : ResponseWriter
  pc : Pc
  timerStart : Nat
deriving DecidableEq, Repr

/-- A task that is about to enter the handler. -/
def Task.init (w : ResponseWriter) (r : Request) : Task :=
  { request := r, writer := w, pc := .spawn, timerStart := 0 }

/-- One statement of the handler returned by `logRequests`, executed by task `t` on
the shared metrics and ambient state. `httpRequestsTotal.Inc()` is one indivisible
step, as in the Prometheus client (an atomic add); the call of `next` is one step as
well, since no handler touches the request metrics. -/
def Task.step {σ : Type} (clock : σ → Nat) (next : Handler σ) (t : Task)
    (sh : Telemetry × σ) : Task × (Telemetry × σ) :=
  match t.pc with
  | .spawn =>
    -- go func() { ... }()
    ({ t with pc := .inc }, ({ sh.1 with goroutines := sh.1.goroutines ++ [t.request] }, sh.2))
  | .inc =>
    -- httpRequestsTotal.Inc()
    ({ t with pc := .newTimer },
      ({ sh.1 with httpRequestsTotal := sh.1.httpRequestsTotal + 1 }, sh.2))
  | .newTimer =>
    -- timer := prometheus.NewTimer(httpRequestDuration)
    ({ t with pc := .call, timerStart := clock sh.2 }, sh)
  | .call =>
    -- next(w, r)
    match next t.writer t.request sh.2 with
    | .returned ws => ({ t with pc := .observe, writer := ws.1 }, (sh.1, ws.2))
    | .panicked ws => ({ t with pc := .panicked, writer := ws.1 }, (sh.1, ws.2))
  | .observe =>
    -- timer.ObserveDuration()
    ({ t with pc := .finished },
      ({ sh.1 with httpRequestDuration := sh.1.httpRequestDuration ++ [clock sh.2 - t.timerStart] },
        sh.2))
  | .finished => (t, sh)
  | .panicked => (t, sh)

/-- The scheduler lets task number `i` execute its next statement; an index outside
the pool does nothing. -/
def stepAt {σ : Type} (clock : σ → Nat) (next : Handler σ) :
    Nat → List Task → Telemetry × σ → List Task × (Telemetry × σ)
  | _, [], sh => ([], sh)
  | 0, t :: ts, sh => ((t.step clock next sh).1 :: ts, (t.step clock next sh).2)
  | i + 1, t :: ts, sh =>
    (t :: (stepAt clock next i ts sh).1, (stepAt clock next i ts sh).2)

/-- The tasks run in parallel under the interleaving `schedule`: at each step the
scheduler picks one task. -/
def runParallel {σ : Type} (clock : σ → Nat) (next : Handler σ) (schedule : List Nat)
    (pool : List Task × (Telemetry × σ)) : List Task × (Telemetry × σ) :=
  schedule.foldl (fun acc i => stepAt clock next i acc.1 acc.2) pool

/-- The number of tasks of the pool that have executed `httpRequestsTotal.Inc()`. -/
def incCalls (tasks : List Task) : Nat := (tasks.filter fun t => t.pc.pastInc).length

/-- How a task that has ended left the handler. -/
def Task.outcome {σ : Type} (p : Task × (Telemetry × σ)) :
    Outcome (ResponseWriter × Telemetry × σ) :=
  if p.1.pc = .panicked then .panicked (p.1.writer, p.2.1, p.2.2)
  else .returned (p.1.writer, p.2.1, p.2.2)

/-- Five statements of one task, with no other task in between. -/
def Task.runAlone {σ : Type} (clock : σ → Nat) (next : Handler σ) (t : Task)
    (sh : Telemetry × σ) : Task × (Telemetry × σ) :=
  let p1 := t.step clock next sh
  let p2 := p1.1.step clock next p1.2
  let p3 := p2.1.step clock next p2.2
  let p4 := p3.1.step clock next p3.2
  p4.1.step clock next p4.2

/-- A handler that reaches the database unless it rejects the request: whenever it
returns having answered a fresh response writer with a status other than 400, it has
issued exactly one statement and added exactly one observation. -/
def ReachesDatabaseOtherwise (h : Handler Sys) : Prop :=
  ∀ w r s, w.status = none → (∃ x, h w r s = .returned x) →
    (h w r s).state.1.statusCode ≠ 400 →
    ∃ st d, (h w r s).state.2.statements = s.statements ++ [st]
      ∧ (h w r s).state.2.dbQueryDuration = s.dbQueryDuration ++ [d]

/-! ## Database-backed user service of `3_helm` (`3_helm/services/service1/main.go`) -/

/-- The `User` record of service 1 in `3_helm`. -/
structure Helm.User where
  ID : Int
  Username : Bytes
  Email : Bytes
deriving DecidableEq, Repr

/-- The JSON object that `encoding/json` writes for a `User` of `3_helm`. -/
def Helm.User.json (u : Helm.User) : Bytes :=
  lit "\x7b\"id\":" ++ formatInt u.ID ++ lit ",\"username\":" ++ appendString u.Username
    ++ lit ",\"email\":" ++ appendString u.Email ++ lit "\x7d"

/-- The collaborators of service 1 (`3_helm`) during one request: the JSON decoder on
the request body (`none` for an error of `Decode`), the answers of the database to
the five statements, and how long a statement takes. -/
structure Helm.UserDb where
  decodeUser : Bytes → Option Helm.User
  selectAll : RowsResult Helm.User
  selectById : Int → RowScan Helm.User
  insert : Bytes → Bytes → RowScan Int
  update : Bytes → Bytes → Int → ExecResult
  delete : Int → ExecResult
  elapsed : Statement → Nat

/-- The function `getUsers(db, w, r)` of `3_helm`. -/
def Helm.getUsers (db : Helm.UserDb) : Handler Sys := fun w _ s =>
  -- rows, err := db.Query("SELECT * FROM users")
  let s1 := s.afterStatement false db.elapsed ("SELECT * FROM users", [])
  match db.selectAll with
  | .queryErr msg =>
    .returned ((w.WriteHeader 500).Write
      (lit "Failed to get users from the database: " ++ msg), s1)
  | .rows _ (some msg) =>
    .returned ((w.WriteHeader 500).Write
      (lit "Failed to scan users from the database: " ++ msg), s1)
  | .rows users none =>
    -- users := make([]User, 0) ...; json.NewEncoder(w).Encode(users)
    .returned (encodeJSON (w.setHeader "Content-Type" "application/json")
      (jsonArray (users.map Helm.User.json)), s1)

/-- The function `getUser(db, w, r)` of `3_helm`. -/
def Helm.getUser (db : Helm.UserDb) : Handler Sys := fun w r s =>
  -- idStr := r.URL.Path[len("/users/"):]
  if r.Path.length < (lit "/users/").length then .panicked (w, s)
  else
    match Atoi (r.Path.drop (lit "/users/").length) with
    | none => .returned ((w.WriteHeader 400).Write (lit "Invalid user ID."), s)
    | some id =>
      -- row := db.QueryRow("SELECT * FROM users WHERE id = $1", id)
      let s1 := s.afterStatement false db.elapsed
        ("SELECT * FROM users WHERE id = $1", [.int id])
      match db.selectById id with
      | .errNoRows => .returned ((w.WriteHeader 404).Write (lit "User not found."), s1)
      | .err msg =>
        .returned ((w.WriteHeader 500).Write
          (lit "Failed to get user from the database: " ++ msg), s1)
      | .ok user =>
        .returned (encodeJSON (w.setHeader "Content-Type" "application/json") user.json, s1)

/-- The function `createUser(db, w, r)` of `3_helm`. -/
def Helm.createUser (db : Helm.UserDb) : Handler Sys := fun w r s =>
  -- json.NewDecoder(r.Body).Decode(&user)
  match db.decodeUser r.Body with
  | none => .returned ((w.WriteHeader 400).Write (lit "Invalid user data."), s)
  | some user =>
    if user.Username = [] ∨ user.Email = [] then
      .returned ((w.WriteHeader 400).Write (lit "Invalid user data."), s)
    else
      -- db.QueryRow("INSERT ... RETURNING id", user.Username, user.Email).Scan(&user.ID)
      let s1 := s.afterStatement false db.elapsed
        ("INSERT INTO users (username, email) VALUES ($1, $2) RETURNING id",
          [.text user.Username, .text user.Email])
      match db.insert user.Username user.Email with
      | .ok id =>
        .returned (encodeJSON (w.setHeader "Content-Type" "application/json")
          ({ user with ID := id } : Helm.User).json, s1)
      | res =>
        .returned ((w.WriteHeader 500).Write
          (lit "Failed to create user in the database: " ++ res.errorText), s1)

/-- The function `updateUser(db, w, r)` of `3_helm`. -/
def Helm.updateUser (db : Helm.UserDb) : Handler Sys := fun w r s =>
  if r.Path.length < (lit "/users/").length then .panicked (w, s)
  else
    match Atoi (r.Path.drop (lit "/users/").length) with
    | none => .returned ((w.WriteHeader 400).Write (lit "Invalid user ID."), s)
    | some id =>
      match db.decodeUser r.Body with
      | none => .returned ((w.WriteHeader 400).Write (lit "Invalid user data."), s)
      | some user =>
        if user.Username = [] ∨ user.Email = [] then
          .returned ((w.WriteHeader 400).Write (lit "Invalid user data."), s)
        else
          -- result, err := db.Exec("UPDATE ...", user.Username, user.Email, id)
          let s1 := s.afterStatement false db.elapsed
            ("UPDATE users SET username = $1, email = $2 WHERE id = $3",
              [.text user.Username, .text user.Email, .int id])
          match db.update user.Username user.Email id with
          | .err msg =>
            .returned ((w.WriteHeader 500).Write
              (lit "Failed to update user in the database: " ++ msg), s1)
          | .ok rowsAffected =>
            if rowsAffected = 0 then
              .returned ((w.WriteHeader 404).Write (lit "User not found."), s1)
            else .returned ((w.WriteHeader 200).Write (lit "User updated successfully."), s1)

/-- The function `deleteUser(db, w, r)` of `3_helm`. -/
def Helm.deleteUser (db : Helm.UserDb) : Handler Sys := fun w r s =>
  if r.Path.length < (lit "/users/").length then .panicked (w, s)
  else
    match Atoi (r.Path.drop (lit "/users/").length) with
    | none => .returned ((w.WriteHeader 400).Write (lit "Invalid user ID."), s)
    | some id =>
      -- result, err := db.Exec("DELETE FROM users WHERE id = $1", id)
      let s1 := s.afterStatement false db.elapsed ("DELETE FROM users WHERE id = $1", [.int id])
      match db.delete id with
      | .err msg =>
        .returned ((w.WriteHeader 500).Write
          (lit "Failed to delete user from the database: " ++ msg), s1)
      | .ok rowsAffected =>
        if rowsAffected = 0 then
          .returned ((w.WriteHeader 404).Write (lit "User not found."), s1)
        else .returned ((w.WriteHeader 200).Write (lit "User deleted successfully."), s1)

/-- The closure that `main` of service 1 (`3_helm`) registers for `/users`. -/
def Helm.usersRoute (db : Helm.UserDb) : Handler Sys := fun w r s =>
  if r.Method = lit "GET" then Helm.getUsers db w r s
  else if r.Method = lit "POST" then Helm.createUser db w r s
  else .returned (methodNotAllowed w, s)

/-- The closure that `main` of service 1 (`3_helm`) registers for `/users/`. -/
def Helm.userRoute (db : Helm.UserDb) : Handler Sys := fun w r s =>
  if r.Method = lit "GET" then Helm.getUser db w r s
  else if r.Method = lit "PUT" then Helm.updateUser db w r s
  else if r.Method = lit "DELETE" then Helm.deleteUser db w r s
  else .returned (methodNotAllowed w, s)

/-- A dispatcher with the method table `table`: a request whose method is in the
table gets the outcome of that method's handler, called once on the dispatcher's own
arguments, and a request with any other method is answered by the `default` case
with the state left as it was. -/
def Dispatches (route : Handler Sys) (table : List (Bytes × Handler Sys)) : Prop :=
  ∀ w r s, route w r s =
    match table.lookup r.Method with
    | some handler => handler w r s
    | none => .returned (methodNotAllowed w, s)

/-- A database of service 1 (`3_helm`) for the examples. -/
def Helm.sampleUserDb : Helm.UserDb :=
  { decodeUser := fun _ => none
    selectAll := .rows [{ ID := 1, Username := lit "ann", Email := lit "ann@example.org" }] none
    selectById := fun _ => .errNoRows
    insert := fun _ _ => .errNoRows
    update := fun _ _ _ => .ok 1
    delete := fun _ => .ok 0
    elapsed := fun _ => 7 }

/-- The request body carries no valid product: `Decode` returns an error, or the
decoded name is empty, or the decoded price is not positive. -/
def ProductDb.InvalidData (db : ProductDb) (body : Bytes) : Prop :=
  db.decodeProduct body = none ∨
    ∃ p, db.decodeProduct body = some p ∧ (p.Name = [] ∨ p.Price ≤ 0)

/-- The call ended with the rejection `400 Invalid product data.` as its response. -/
def RejectedAsInvalidData (out : Outcome (ResponseWriter × Sys)) : Prop :=
  out.state.1.statusCode = 400 ∧ out.state.1.body = lit "Invalid product data."

/-- A database of service 2 for the examples whose decoder yields a product without
a price. -/
def freeProductDb : ProductDb :=
  { sampleProductDb with
    decodeProduct := fun body => some { ID := 0, Name := body, Price := 0 } }

/-- The backend `env` with the status of every peer response replaced by `f` of it;
everything else, the bodies included, is as in `env`. -/
def Backend.withPeerStatus (env : Backend) (f : Nat → Nat) : Backend :=
  { env with
    httpGet := fun url =>
      match env.httpGet url with
      | .err msg => .err msg
      | .response status body => .response (f status) body }

/-! ## Theorems -/

/-! ### UTF-8 and JSON string literals -/

/-- The table `first` by ranges of the lead byte. -/
theorem first_cases (p0 : Nat) :
    (p0 < 0x80 ∧ first p0 = 0xF0) ∨ (0x80 ≤ p0 ∧ first p0 = 0xF1)
    ∨ (0xC2 ≤ p0 ∧ p0 < 0xE0 ∧ first p0 = 0x02)
    ∨ (p0 = 0xE0 ∧ first p0 = 0x13)
    ∨ (0xE1 ≤ p0 ∧ p0 < 0xF0 ∧ p0 ≠ 0xED ∧ first p0 = 0x03)
    ∨ (p0 = 0xED ∧ first p0 = 0x23)
    ∨ (p0 = 0xF0 ∧ first p0 = 0x34)
    ∨ (0xF1 ≤ p0 ∧ p0 < 0xF4 ∧ first p0 = 0x04)
    ∨ (p0 = 0xF4 ∧ first p0 = 0x44) := by
  by_cases c1 : p0 < 0x80
  · exact Or.inl ⟨c1, by simp [first, c1]⟩
  by_cases c2 : p0 < 0xC2
  · exact Or.inr (Or.inl ⟨by omega, by simp [first, c1, c2]⟩)
  by_cases c3 : p0 < 0xE0
  · exact Or.inr (Or.inr (Or.inl ⟨by omega, c3, by simp [first, c1, c2, c3]⟩))
  by_cases c4 : p0 = 0xE0
  · exact Or.inr (Or.inr (Or.inr (Or.inl ⟨c4, by simp [first, c4]⟩)))
  by_cases c5 : p0 < 0xED
  · exact Or.inr (Or.inr (Or.inr (Or.inr (Or.inl
      ⟨by omega, by omega, by omega, by simp [first, c1, c2, c3, c4, c5]⟩))))
  by_cases c6 : p0 = 0xED
  · exact Or.inr (Or.inr (Or.inr (Or.inr (Or.inr (Or.inl ⟨c6, by simp [first, c6]⟩)))))
  by_cases c7 : p0 < 0xF0
  · exact Or.inr (Or.inr (Or.inr (Or.inr (Or.inl
      ⟨by omega, by omega, by omega, by simp [first, c1, c2, c3, c4, c5, c6, c7]⟩))))
  by_cases c8 : p0 = 0xF0
  · exact Or.inr (Or.inr (Or.inr (Or.inr (Or.inr (Or.inr (Or.inl ⟨c8, by simp [first, c8]⟩))))))
  by_cases c9 : p0 < 0xF4
  · exact Or.inr (Or.inr (Or.inr (Or.inr (Or.inr (Or.inr (Or.inr (Or.inl
      ⟨by omega, c9, by simp [first, c1, c2, c3, c4, c5, c6, c7, c8, c9]⟩)))))))
  by_cases c10 : p0 = 0xF4
  · exact Or.inr (Or.inr (Or.inr (Or.inr (Or.inr (Or.inr (Or.inr (Or.inr
      ⟨c10, by simp [first, c10]⟩)))))))
  · exact Or.inr (Or.inl ⟨by omega, by simp [first, c1, c2, c3, c4, c5, c6, c7, c8, c9, c10]⟩)

/-- A decoding that evaluates to `(v, pre.length)` on every input starting with `pre`
is a successful one when `v` encodes to `pre`. -/
theorem DecodeOk_of_eval (pre rest : Bytes) (v : Nat)
    (hv : ∀ q, DecodeRune (pre ++ q) = (v, pre.length)) (hpos : 1 ≤ pre.length)
    (henc : EncodeRune v = pre) (hhigh : ∀ x ∈ pre.tail, 0x80 ≤ x) :
    DecodeOk (pre ++ rest) := by
  unfold DecodeOk
  rw [hv rest]
  simp only [List.take_left, List.length_append]
  exact ⟨hpos, by omega, by simp [henc], hv, hhigh⟩

/-- Evaluation of `DecodeRune` on a two-byte lead. -/
theorem DecodeRune_two (p0 b1 : Nat) (q : Bytes) (hx : first p0 = 0x02) :
    DecodeRune (p0 :: b1 :: q)
      = if b1 < 0x80 ∨ 0xBF < b1 then (RuneError, 1) else (p0 % 32 * 64 + b1 % 64, 2) := by
  have : ¬ (q.length + 1 + 1 < 2) := by omega
  simp [DecodeRune, hx, acceptRanges, this]

/-- Evaluation of `DecodeRune` on a three-byte lead. -/
theorem DecodeRune_three (p0 b1 b2 x lo hi : Nat) (q : Bytes) (hx : first p0 = x)
    (hx3 : x = 0x13 ∨ x = 0x03 ∨ x = 0x23) (hacc : acceptRanges (x / 16) = (lo, hi)) :
    DecodeRune (p0 :: b1 :: b2 :: q)
      = if b1 < lo ∨ hi < b1 then (RuneError, 1)
        else if b2 < 0x80 ∨ 0xBF < b2 then (RuneError, 1)
        else (p0 % 16 * 4096 + b1 % 64 * 64 + b2 % 64, 3) := by
  have : ¬ (q.length + 1 + 1 + 1 < 3) := by omega
  rcases hx3 with rfl | rfl | rfl <;> simp [DecodeRune, hx, this] <;> simp [hacc]

/-- Evaluation of `DecodeRune` on a four-byte lead. -/
theorem DecodeRune_four (p0 b1 b2 b3 x lo hi : Nat) (q : Bytes) (hx : first p0 = x)
    (hx4 : x = 0x34 ∨ x = 0x04 ∨ x = 0x44) (hacc : acceptRanges (x / 16) = (lo, hi)) :
    DecodeRune (p0 :: b1 :: b2 :: b3 :: q)
      = if b1 < lo ∨ hi < b1 then (RuneError, 1)
        else if b2 < 0x80 ∨ 0xBF < b2 then (RuneError, 1)
        else if b3 < 0x80 ∨ 0xBF < b3 then (RuneError, 1)
        else (p0 % 8 * 262144 + b1 % 64 * 4096 + b2 % 64 * 64 + b3 % 64, 4) := by
  have : ¬ (q.length + 1 + 1 + 1 + 1 < 4) := by omega
  rcases hx4 with rfl | rfl | rfl <;> simp [DecodeRune, hx, this] <;> simp [hacc]

/-- Function `DecodeRune` fails on an input shorter than its lead byte announces. -/
theorem DecodeRune_short (p0 x : Nat) (t : Bytes) (hx : first p0 = x) (hlt : x < 0xF0)
    (hlen : t.length + 1 < x % 8) : DecodeRune (p0 :: t) = (RuneError, 1) := by
  have : ¬ (0xF0 ≤ x) := by omega
  simp [DecodeRune, hx, this, hlen]

/-- Two-byte sequences: a decoding that is not the error is successful. -/
theorem DecodeOk_two (p0 : Nat) (t : Bytes) (hx : first p0 = 0x02) (h0 : 0xC2 ≤ p0)
    (h1 : p0 < 0xE0)
    (h : ¬ ((DecodeRune (p0 :: t)).1 = RuneError ∧ (DecodeRune (p0 :: t)).2 = 1)) :
    DecodeOk (p0 :: t) := by
  rcases t with _ | ⟨b1, t1⟩
  · exact absurd (by rw [DecodeRune_short p0 2 [] hx (by omega) (by simp)]; exact ⟨rfl, rfl⟩) h
  · by_cases hb : b1 < 0x80 ∨ 0xBF < b1
    · exact absurd (by rw [DecodeRune_two p0 b1 t1 hx, if_pos hb]; exact ⟨rfl, rfl⟩) h
    · refine DecodeOk_of_eval [p0, b1] t1 (p0 % 32 * 64 + b1 % 64) ?_ (by simp) ?_ ?_
      · intro q
        show DecodeRune (p0 :: b1 :: q) = _
        rw [DecodeRune_two p0 b1 q hx, if_neg hb]; rfl
      · unfold EncodeRune
        rw [if_neg (by omega), if_pos (by omega)]
        simp only [List.cons.injEq, and_true]
        omega
      · intro x hx1
        simp only [List.tail_cons, List.mem_singleton] at hx1
        omega

/-- Three-byte sequences: a decoding that is not the error is successful. -/
theorem DecodeOk_three (p0 x lo hi : Nat) (t : Bytes) (hx : first p0 = x)
    (hx3 : x = 0x13 ∨ x = 0x03 ∨ x = 0x23) (hacc : acceptRanges (x / 16) = (lo, hi))
    (h0 : 0xE0 ≤ p0) (h1 : p0 < 0xF0) (hlo : 0x80 ≤ lo) (hhi : hi ≤ 0xBF)
    (hE0 : p0 = 0xE0 → 0xA0 ≤ lo) (hED : p0 = 0xED → hi ≤ 0x9F)
    (h : ¬ ((DecodeRune (p0 :: t)).1 = RuneError ∧ (DecodeRune (p0 :: t)).2 = 1)) :
    DecodeOk (p0 :: t) := by
  have hsz : x % 8 = 3 ∧ x < 0xF0 := by omega
  rcases t with _ | ⟨b1, _ | ⟨b2, t2⟩⟩
  · exact absurd (by rw [DecodeRune_short p0 x [] hx hsz.2 (by simp; omega)]; exact ⟨rfl, rfl⟩) h
  · exact absurd (by rw [DecodeRune_short p0 x [b1] hx hsz.2 (by simp; omega)]; exact ⟨rfl, rfl⟩) h
  · have e := fun q => DecodeRune_three p0 b1 b2 x lo hi q hx hx3 hacc
    by_cases hb1 : b1 < lo ∨ hi < b1
    · exact absurd (by rw [e, if_pos hb1]; exact ⟨rfl, rfl⟩) h
    · by_cases hb2 : b2 < 0x80 ∨ 0xBF < b2
      · exact absurd (by rw [e, if_neg hb1, if_pos hb2]; exact ⟨rfl, rfl⟩) h
      · refine DecodeOk_of_eval [p0, b1, b2] t2 (p0 % 16 * 4096 + b1 % 64 * 64 + b2 % 64)
          ?_ (by simp) ?_ ?_
        · intro q
          show DecodeRune (p0 :: b1 :: b2 :: q) = _
          rw [e, if_neg hb1, if_neg hb2]; rfl
        · unfold EncodeRune
          rw [if_neg (by omega), if_neg (by omega), if_neg (by omega), if_pos (by omega)]
          simp only [List.cons.injEq, and_true]
          omega
        · intro x hx1
          simp only [List.tail_cons, List.mem_cons, List.mem_singleton, List.not_mem_nil,
            or_false] at hx1
          omega

/-- Four-byte sequences: a decoding that is not the error is successful. -/
theorem DecodeOk_four (p0 x lo hi : Nat) (t : Bytes) (hx : first p0 = x)
    (hx4 : x = 0x34 ∨ x = 0x04 ∨ x = 0x44) (hacc : acceptRanges (x / 16) = (lo, hi))
    (h0 : 0xF0 ≤ p0) (h1 : p0 ≤ 0xF4) (hlo : 0x80 ≤ lo) (hhi : hi ≤ 0xBF)
    (hF0 : p0 = 0xF0 → 0x90 ≤ lo) (hF4 : p0 = 0xF4 → hi ≤ 0x8F)
    (h : ¬ ((DecodeRune (p0 :: t)).1 = RuneError ∧ (DecodeRune (p0 :: t)).2 = 1)) :
    DecodeOk (p0 :: t) := by
  have hsz : x % 8 = 4 ∧ x < 0xF0 := by omega
  rcases t with _ | ⟨b1, _ | ⟨b2, _ | ⟨b3, t3⟩⟩⟩
  · exact absurd (by rw [DecodeRune_short p0 x [] hx hsz.2 (by simp; omega)]; exact ⟨rfl, rfl⟩) h
  · exact absurd (by rw [DecodeRune_short p0 x [b1] hx hsz.2 (by simp; omega)]; exact ⟨rfl, rfl⟩) h
  · exact absurd (by rw [DecodeRune_short p0 x [b1, b2] hx hsz.2 (by simp; omega)]; exact ⟨rfl, rfl⟩) h
  · have e := fun q => DecodeRune_four p0 b1 b2 b3 x lo hi q hx hx4 hacc
    by_cases hb1 : b1 < lo ∨ hi < b1
    · exact absurd (by rw [e, if_pos hb1]; exact ⟨rfl, rfl⟩) h
    · by_cases hb2 : b2 < 0x80 ∨ 0xBF < b2
      · exact absurd (by rw [e, if_neg hb1, if_pos hb2]; exact ⟨rfl, rfl⟩) h
      · by_cases hb3 : b3 < 0x80 ∨ 0xBF < b3
        · exact absurd (by rw [e, if_neg hb1, if_neg hb2, if_pos hb3]; exact ⟨rfl, rfl⟩) h
        · refine DecodeOk_of_eval [p0, b1, b2, b3] t3
            (p0 % 8 * 262144 + b1 % 64 * 4096 + b2 % 64 * 64 + b3 % 64) ?_ (by simp) ?_ ?_
          · intro q
            show DecodeRune (p0 :: b1 :: b2 :: b3 :: q) = _
            rw [e, if_neg hb1, if_neg hb2, if_neg hb3]; rfl
          · unfold EncodeRune
            rw [if_neg (by omega), if_neg (by omega), if_neg (by omega), if_neg (by omega)]
            simp only [List.cons.injEq, and_true]
            omega
          · intro x hx1
            simp only [List.tail_cons, List.mem_cons, List.mem_singleton, List.not_mem_nil,
              or_false] at hx1
            omega

/-- A decoding that is not the error `(RuneError, 1)` consumed a well-formed
sequence: re-encoding the rune gives back the bytes consumed, and the result does
not depend on what follows them. -/
theorem DecodeRune_ok (p0 : Nat) (t : Bytes)
    (h : ¬ ((DecodeRune (p0 :: t)).1 = RuneError ∧ (DecodeRune (p0 :: t)).2 = 1)) :
    DecodeOk (p0 :: t) := by
  rcases first_cases p0 with ⟨h0, hx⟩ | ⟨h0, hx⟩ | ⟨h0, h1, hx⟩ | ⟨h0, hx⟩ | ⟨h0, h1, h2, hx⟩ |
      ⟨h0, hx⟩ | ⟨h0, hx⟩ | ⟨h0, h1, hx⟩ | ⟨h0, hx⟩
  · refine DecodeOk_of_eval [p0] t p0 ?_ (by simp) ?_ (by simp)
    · intro q; simp [DecodeRune, hx]
    · unfold EncodeRune; rw [if_pos (by omega)]
  · exact absurd (by simp [DecodeRune, hx]) h
  · exact DecodeOk_two p0 t hx h0 h1 h
  · exact DecodeOk_three p0 0x13 0xA0 0xBF t hx (by simp) rfl (by omega) (by omega)
      (by omega) (by omega) (by omega) (by omega) h
  · exact DecodeOk_three p0 0x03 0x80 0xBF t hx (by simp) rfl (by omega) (by omega)
      (by omega) (by omega) (by omega) (by omega) h
  · exact DecodeOk_three p0 0x23 0x80 0x9F t hx (by simp) rfl (by omega) (by omega)
      (by omega) (by omega) (by omega) (by omega) h
  · exact DecodeOk_four p0 0x34 0x90 0xBF t hx (by simp) rfl (by omega) (by omega)
      (by omega) (by omega) (by omega) (by omega) h
  · exact DecodeOk_four p0 0x04 0x80 0xBF t hx (by simp) rfl (by omega) (by omega)
      (by omega) (by omega) (by omega) (by omega) h
  · exact DecodeOk_four p0 0x44 0x80 0x8F t hx (by simp) rfl (by omega) (by omega)
      (by omega) (by omega) (by omega) (by omega) h

/-- On a non-empty input `DecodeRune` consumes at least one byte. -/
theorem DecodeRune_size_pos (c : Nat) (t : Bytes) : 1 ≤ (DecodeRune (c :: t)).2 := by
  by_cases h : (DecodeRune (c :: t)).1 = RuneError ∧ (DecodeRune (c :: t)).2 = 1
  · omega
  · exact (DecodeRune_ok c t h).1

/-- An encoder iteration consumes at least the byte it looks at. -/
theorem appendStringStep_length (b : Nat) (t : Bytes) :
    (appendStringStep b t).2.length ≤ t.length := by
  have hp := DecodeRune_size_pos b t
  have hdrop : ((b :: t).drop (DecodeRune (b :: t)).2).length ≤ t.length := by
    simp only [List.length_drop, List.length_cons]; omega
  unfold appendStringStep
  dsimp only
  repeat' split
  all_goals first | exact le_refl _ | exact hdrop

/-- A decoder iteration consumes at least the byte it looks at. -/
theorem unquoteStep_length (c : Nat) (t : Bytes) (st : Bytes × Bytes)
    (h : unquoteStep c t = some st) : st.2.length ≤ t.length := by
  have hp := DecodeRune_size_pos c t
  unfold unquoteStep at h
  dsimp only at h
  repeat' split at h
  all_goals first
    | (cases h; done)
    | (cases h
       first
         | exact le_refl _
         | (simp only [List.length_drop, List.length_cons]; omega))

/-- A scan iteration steps over at least one byte. -/
theorem unquoteScanStep_pos (c : Nat) (t : Bytes) (n : Nat)
    (h : unquoteScanStep c t = some n) : 1 ≤ n := by
  have := DecodeRune_size_pos c t
  unfold unquoteScanStep at h
  split_ifs at h <;> simp at h <;> omega

/-- Base case shared by the fuel lemmas. -/
theorem length_zero_of_le {s : Bytes} (h : s.length ≤ 0) : s = [] :=
  List.length_eq_zero.mp (by omega)

/-- The encoder loop does not depend on the fuel once it covers the input. -/
theorem appendStringLoop_fuel (f1 : Nat) : ∀ (f2 : Nat) (s : Bytes),
    s.length ≤ f1 → s.length ≤ f2 → appendStringLoop f1 s = appendStringLoop f2 s := by
  induction f1 with
  | zero =>
    intro f2 s h1 _
    rw [length_zero_of_le h1]
    cases f2 <;> rfl
  | succ f ih =>
    intro f2 s h1 h2
    rcases s with _ | ⟨c, t⟩
    · cases f2 <;> rfl
    · rcases f2 with _ | g
      · simp at h2
      · simp only [List.length_cons] at h1 h2
        have hd := appendStringStep_length c t
        simp only [appendStringLoop]
        rw [ih g (appendStringStep c t).2 (by omega) (by omega)]

/-- The validity loop does not depend on the fuel once it covers the input. -/
theorem validLoop_fuel (f1 : Nat) : ∀ (f2 : Nat) (s : Bytes),
    s.length ≤ f1 → s.length ≤ f2 → validLoop f1 s = validLoop f2 s := by
  induction f1 with
  | zero =>
    intro f2 s h1 _
    rw [length_zero_of_le h1]
    cases f2 <;> rfl
  | succ f ih =>
    intro f2 s h1 h2
    rcases s with _ | ⟨c, t⟩
    · cases f2 <;> rfl
    · rcases f2 with _ | g
      · simp at h2
      · simp only [List.length_cons] at h1 h2
        have hd := DecodeRune_size_pos c t
        have e2 := ih g ((c :: t).drop (DecodeRune (c :: t)).2)
          (by simp only [List.length_drop, List.length_cons]; omega)
          (by simp only [List.length_drop, List.length_cons]; omega)
        simp only [validLoop, e2]

/-- The scan loop does not depend on the fuel once it covers the input. -/
theorem unquoteScan_fuel (f1 : Nat) : ∀ (f2 : Nat) (s : Bytes),
    s.length ≤ f1 → s.length ≤ f2 → unquoteScan f1 s = unquoteScan f2 s := by
  induction f1 with
  | zero =>
    intro f2 s h1 _
    rw [length_zero_of_le h1]
    cases f2 <;> rfl
  | succ f ih =>
    intro f2 s h1 h2
    rcases s with _ | ⟨c, t⟩
    · cases f2 <;> rfl
    · rcases f2 with _ | g
      · simp at h2
      · simp only [List.length_cons] at h1 h2
        simp only [unquoteScan]
        cases hs : unquoteScanStep c t with
        | none => rfl
        | some n =>
          have := unquoteScanStep_pos c t n hs
          simp only
          rw [ih g _ (by simp only [List.length_drop, List.length_cons]; omega)
            (by simp only [List.length_drop, List.length_cons]; omega)]

/-- The decoder loop does not depend on the fuel once it covers the input. -/
theorem unquoteLoop_fuel (f1 : Nat) : ∀ (f2 : Nat) (s : Bytes),
    s.length ≤ f1 → s.length ≤ f2 → unquoteLoop f1 s = unquoteLoop f2 s := by
  induction f1 with
  | zero =>
    intro f2 s h1 _
    rw [length_zero_of_le h1]
    cases f2 <;> rfl
  | succ f ih =>
    intro f2 s h1 h2
    rcases s with _ | ⟨c, t⟩
    · cases f2 <;> rfl
    · rcases f2 with _ | g
      · simp at h2
      · simp only [List.length_cons] at h1 h2
        simp only [unquoteLoop]
        cases hs : unquoteStep c t with
        | none => rfl
        | some st =>
          have := unquoteStep_length c t st hs
          simp only
          rw [ih g _ (by omega) (by omega)]

/-- The digit written for a value below 16 is read back as that value. -/
theorem hexVal_hex (a : Nat) (h : a < 16) : hexVal (hex a) = some a := by
  unfold hexVal hex
  split_ifs <;> first | omega | (simp only [Option.some.injEq]; omega)

/-- Reading back a `\uXXXX` escape written with the digits of `hex`. -/
theorem getu4_hex (a b c d : Nat) (X : Bytes) (ha : a < 16) (hb : b < 16) (hc : c < 16)
    (hd : d < 16) :
    getu4 (0x5C :: 0x75 :: hex a :: hex b :: hex c :: hex d :: X)
      = some (((a * 16 + b) * 16 + c) * 16 + d) := by
  simp [getu4, hexVal_hex, ha, hb, hc, hd]

/-- An ASCII byte decodes to itself. -/
theorem DecodeRune_ascii (c : Nat) (t : Bytes) (h : c < 0x80) : DecodeRune (c :: t) = (c, 1) := by
  have hx : first c = 0xF0 := by simp [first, h]
  simp [DecodeRune, hx]

/-- One encoder iteration on a well-formed head is undone by one decoder iteration. -/
theorem unquoteStep_appendStringStep (c : Nat) (t : Bytes)
    (hv : ¬ ((DecodeRune (c :: t)).1 = RuneError ∧ (DecodeRune (c :: t)).2 = 1)) :
    (appendStringStep c t).2 = (c :: t).drop (DecodeRune (c :: t)).2
    ∧ ∃ c1 out, (appendStringStep c t).1 = c1 :: out
        ∧ ∀ X, unquoteStep c1 (out ++ X) = some ((c :: t).take (DecodeRune (c :: t)).2, X) := by
  by_cases hc : c < 0x80
  · rw [DecodeRune_ascii c t hc]
    simp only [List.drop_succ_cons, List.drop_zero, List.take_succ_cons, List.take_zero]
    unfold appendStringStep
    rw [if_pos hc]
    by_cases h1 : htmlSafeSet c = true
    · rw [if_pos h1]
      refine ⟨rfl, c, [], rfl, fun X => ?_⟩
      simp only [htmlSafeSet, Bool.and_eq_true, decide_eq_true_eq, bne_iff_ne, ne_eq] at h1
      simp only [List.nil_append, List.cons_append]
      unfold unquoteStep
      rw [if_neg (by omega), if_neg (by omega), if_pos hc]
    rw [if_neg h1]
    by_cases h2 : c = 0x5C ∨ c = 0x22
    · rw [if_pos h2]
      refine ⟨rfl, 0x5C, [c], rfl, fun X => ?_⟩
      simp only [List.nil_append, List.cons_append]
      unfold unquoteStep
      rw [if_pos rfl]
      simp only
      rw [if_pos (by omega)]
    rw [if_neg h2]
    by_cases h3 : c = 0x08
    · subst h3; exact ⟨rfl, 0x5C, [0x62], rfl, fun X => rfl⟩
    rw [if_neg h3]
    by_cases h4 : c = 0x0C
    · subst h4; exact ⟨rfl, 0x5C, [0x66], rfl, fun X => rfl⟩
    rw [if_neg h4]
    by_cases h5 : c = 0x0A
    · subst h5; exact ⟨rfl, 0x5C, [0x6E], rfl, fun X => rfl⟩
    rw [if_neg h5]
    by_cases h6 : c = 0x0D
    · subst h6; exact ⟨rfl, 0x5C, [0x72], rfl, fun X => rfl⟩
    rw [if_neg h6]
    by_cases h7 : c = 0x09
    · subst h7; exact ⟨rfl, 0x5C, [0x74], rfl, fun X => rfl⟩
    rw [if_neg h7]
    refine ⟨rfl, 0x5C, [0x75, 0x30, 0x30, hex (c / 16), hex (c % 16)], rfl, fun X => ?_⟩
    have hg := getu4_hex 0 0 (c / 16) (c % 16) X (by omega) (by omega) (by omega) (by omega)
    have hh : hex 0 = 0x30 := rfl
    rw [hh] at hg
    have hval : ((0 * 16 + 0) * 16 + c / 16) * 16 + c % 16 = c := by omega
    rw [hval] at hg
    simp only [List.nil_append, List.cons_append]
    unfold unquoteStep
    rw [if_pos rfl]
    simp only
    rw [if_neg (by decide), if_neg (by decide), if_neg (by decide), if_neg (by decide),
      if_neg (by decide), if_neg (by decide), if_pos True.intro, hg]
    simp only
    rw [if_neg (by omega)]
    unfold EncodeRune
    rw [if_pos (by omega)]
    rfl
  · have hok := DecodeRune_ok c t hv
    obtain ⟨hpos, hlen, henc, hdec, _⟩ := hok
    unfold appendStringStep
    rw [if_neg hc]
    simp only
    rw [if_neg hv]
    by_cases hls : (DecodeRune (c :: t)).1 = 0x2028 ∨ (DecodeRune (c :: t)).1 = 0x2029
    · rw [if_pos hls]
      refine ⟨rfl, 0x5C, [0x75, 0x32, 0x30, 0x32, hex ((DecodeRune (c :: t)).1 % 16)], rfl,
        fun X => ?_⟩
      have hg := getu4_hex 2 0 2 ((DecodeRune (c :: t)).1 % 16) X (by omega) (by omega)
        (by omega) (by omega)
      have h0 : hex 0 = 0x30 := rfl
      have h2 : hex 2 = 0x32 := rfl
      rw [h0, h2] at hg
      have hval : ((2 * 16 + 0) * 16 + 2) * 16 + (DecodeRune (c :: t)).1 % 16
          = (DecodeRune (c :: t)).1 := by omega
      rw [hval] at hg
      simp only [List.nil_append, List.cons_append]
      unfold unquoteStep
      rw [if_pos rfl]
      simp only
      rw [if_neg (by decide), if_neg (by decide), if_neg (by decide), if_neg (by decide),
        if_neg (by decide), if_neg (by decide), if_pos True.intro, hg]
      simp only
      rw [if_neg (by omega), henc]
      rfl
    · rw [if_neg hls]
      obtain ⟨k, hk⟩ : ∃ k, (DecodeRune (c :: t)).2 = k + 1 := ⟨_, (Nat.sub_add_cancel hpos).symm⟩
      refine ⟨rfl, c, t.take k, by rw [hk]; rfl, fun X => ?_⟩
      have hd := hdec X
      rw [hk] at hd
      simp only [List.take_succ_cons, List.cons_append] at hd
      unfold unquoteStep
      rw [if_neg (by omega), if_neg (by omega), if_neg hc]
      simp only
      rw [hd, henc, hk]
      simp only [List.take_succ_cons, List.drop_succ_cons, Option.some.injEq, Prod.mk.injEq,
        true_and]
      rw [List.drop_append_of_le_length (by rw [List.length_take]; simp at hlen; omega)]
      rw [List.drop_eq_nil_of_le (by rw [List.length_take]; omega)]
      rfl

/-- Decoding the output of the encoder loop gives back a well-formed input. -/
theorem unquoteLoop_appendStringLoop (n : Nat) : ∀ (s : Bytes), s.length ≤ n →
    validLoop s.length s = true → ∀ f g, s.length ≤ f → (appendStringLoop f s).length ≤ g →
    unquoteLoop g (appendStringLoop f s) = some s := by
  induction n with
  | zero =>
    intro s h _ f g _ _
    rw [length_zero_of_le h]
    cases f <;> cases g <;> rfl
  | succ n ih =>
    intro s hn hvalid f g hf hg
    rcases s with _ | ⟨c, t⟩
    · cases f <;> cases g <;> rfl
    · rcases f with _ | f
      · simp at hf
      · simp only [List.length_cons] at hn hf hvalid
        simp only [validLoop] at hvalid
        have hv : ¬ ((DecodeRune (c :: t)).1 = RuneError ∧ (DecodeRune (c :: t)).2 = 1) := by
          intro h; rw [if_pos h] at hvalid; exact absurd hvalid (by simp)
        rw [if_neg hv] at hvalid
        obtain ⟨hrest, c1, out, hout, hun⟩ := unquoteStep_appendStringStep c t hv
        have hl := appendStringStep_length c t
        simp only [appendStringLoop, hout, List.cons_append, List.length_cons,
          List.length_append] at hg ⊢
        rcases g with _ | g
        · simp at hg
        · simp only [unquoteLoop, hun]
          have hvalid2 : validLoop (appendStringStep c t).2.length (appendStringStep c t).2
              = true := by
            rw [hrest]
            rw [← hvalid]
            apply validLoop_fuel
            · exact le_refl _
            · rw [← hrest]; exact hl
          rw [ih _ (by omega) hvalid2 f g (by omega) (by omega)]
          simp only [Option.map_some', hrest, List.take_append_drop]

/-- The fast path of `unquoteBytes` agrees with its general loop: stepping over the
clean leading bytes and unquoting the rest is unquoting everything. -/
theorem unquoteLoop_unquoteScan (n : Nat) : ∀ (s : Bytes), s.length ≤ n →
    ∀ f g h, s.length ≤ f → s.length ≤ g → s.length ≤ h →
    (unquoteLoop g (s.drop (unquoteScan f s))).map (s.take (unquoteScan f s) ++ ·)
      = unquoteLoop h s := by
  induction n with
  | zero =>
    intro s hs f g h _ _ _
    rw [length_zero_of_le hs]
    cases f <;> cases g <;> cases h <;> rfl
  | succ n ih =>
    intro s hn f g h hf hg hh
    rcases s with _ | ⟨c, t⟩
    · cases f <;> cases g <;> cases h <;> rfl
    · rcases f with _ | f
      · simp at hf
      rcases h with _ | h
      · simp at hh
      simp only [List.length_cons] at hn hf hg hh
      simp only [unquoteScan]
      cases hs : unquoteScanStep c t with
      | none =>
        simp only [List.drop_zero, List.take_zero, List.nil_append, Option.map_id']
        exact unquoteLoop_fuel g (h + 1) (c :: t) (by simpa using hg) (by simpa using hh)
      | some k =>
        have hk := unquoteScanStep_pos c t k hs
        have hstep : unquoteStep c t = some ((c :: t).take k, (c :: t).drop k) := by
          unfold unquoteScanStep at hs
          by_cases h1 : c = 0x5C ∨ c = 0x22 ∨ c < 0x20
          · rw [if_pos h1] at hs; exact absurd hs (by simp)
          rw [if_neg h1] at hs
          by_cases h2 : c < 0x80
          · rw [if_pos h2] at hs
            cases hs
            unfold unquoteStep
            rw [if_neg (by omega), if_neg (by omega), if_pos h2]
            rfl
          · rw [if_neg h2] at hs
            simp only at hs
            by_cases h3 : (DecodeRune (c :: t)).1 = RuneError ∧ (DecodeRune (c :: t)).2 = 1
            · rw [if_pos h3] at hs; exact absurd hs (by simp)
            · rw [if_neg h3] at hs
              cases hs
              unfold unquoteStep
              rw [if_neg (by omega), if_neg (by omega), if_neg h2]
              simp only
              rw [(DecodeRune_ok c t h3).2.2.1]
        simp only [unquoteLoop, hstep]
        have hdl : ((c :: t).drop k).length ≤ t.length := by
          simp only [List.length_drop, List.length_cons]; omega
        rw [← ih ((c :: t).drop k) (by omega) f g h (by omega)
          (by simp only [List.length_drop, List.length_cons] at hdl ⊢; omega) (by omega)]
        simp only [Option.map_map]
        rw [List.drop_drop, Nat.add_comm]
        congr 1
        funext x
        simp only [Function.comp]
        rw [← List.append_assoc]
        congr 1
        rw [Nat.add_comm, List.take_add]

/-- The content of a literal is what `drop 1` and `dropLast` leave. -/
theorem strip_quotes (x : Bytes) : (([0x22] ++ x ++ [0x22]).drop 1).dropLast = x := by
  simp

/-- Function `json.unquoteBytes` on a quoted content runs the general loop on the content. -/
theorem unquoteBytes_quoted (x : Bytes) :
    unquoteBytes ([0x22] ++ x ++ [0x22]) = unquoteLoop x.length x := by
  unfold unquoteBytes
  have h1 : ¬ (([0x22] ++ x ++ [0x22]).length < 2 ∨ ([0x22] ++ x ++ [0x22]).head? ≠ some 0x22
      ∨ ([0x22] ++ x ++ [0x22]).getLast? ≠ some 0x22) := by
    have hl : ([0x22] ++ x ++ [0x22]).getLast? = some 0x22 := List.getLast?_concat _
    rw [hl]
    simp
  rw [if_neg h1]
  simp only [strip_quotes]
  have key := unquoteLoop_unquoteScan x.length x (le_refl _) x.length x.length x.length
    (le_refl _) (le_refl _) (le_refl _)
  by_cases hr : unquoteScan x.length x = x.length
  · rw [if_pos hr]
    rw [hr] at key
    rw [← key]
    have hnil : unquoteLoop x.length [] = some [] := by cases x.length <;> rfl
    simp [hnil]
  · rw [if_neg hr]
    exact key

/-- Roundtrip of JSON string literals: unquoting the literal that `appendString`
writes for a valid UTF-8 string gives the string back. -/
theorem unquoteBytes_appendString (s : Bytes) (h : utf8Valid s = true) :
    unquoteBytes (appendString s) = some s := by
  unfold appendString
  rw [unquoteBytes_quoted]
  exact unquoteLoop_appendStringLoop s.length s (le_refl _) h s.length _ (le_refl _) (le_refl _)

/-! ### Broker notification -/

/-- Nothing to pass over. -/
theorem scanThrough_nil : ScanThrough [] := by
  intro Y; simp

/-- Passing over `a` and then over `b` is passing over `a ++ b`. -/
theorem scanThrough_append (a b : Bytes) (ha : ScanThrough a) (hb : ScanThrough b) :
    ScanThrough (a ++ b) := by
  intro Y
  rw [List.append_assoc, ha (b ++ Y), hb Y]
  cases scanLiteral Y <;> simp

/-- The scanner passes over a byte that is no control character, quote or backslash. -/
theorem scanThrough_plain (c : Nat) (h1 : 0x20 ≤ c) (h2 : c ≠ 0x22) (h3 : c ≠ 0x5C) :
    ScanThrough [c] := by
  intro Y
  show scanLiteral (c :: Y) = _
  rw [scanLiteral.eq_def]
  simp only
  rw [if_neg h2, if_neg h3, if_neg (by omega)]
  rfl

/-- The scanner passes over bytes outside ASCII. -/
theorem scanThrough_high (l : Bytes) (h : ∀ x ∈ l, 0x80 ≤ x) : ScanThrough l := by
  induction l with
  | nil => exact scanThrough_nil
  | cons c t ih =>
    have hc := h c (List.mem_cons_self _ _)
    exact scanThrough_append [c] t (scanThrough_plain c (by omega) (by omega) (by omega))
      (ih fun x hx => h x (List.mem_cons_of_mem _ hx))

/-- The scanner passes over a two-byte escape. -/
theorem scanThrough_esc (e : Nat)
    (h : e = 0x22 ∨ e = 0x5C ∨ e = 0x2F ∨ e = 0x62 ∨ e = 0x66 ∨ e = 0x6E ∨ e = 0x72 ∨ e = 0x74) :
    ScanThrough [0x5C, e] := by
  intro Y
  show scanLiteral (0x5C :: e :: Y) = _
  rw [scanLiteral.eq_def]
  simp [h]

/-- The scanner passes over a `u` escape with four hexadecimal digits. -/
theorem scanThrough_u (h1 h2 h3 h4 : Nat) (k1 : (hexVal h1).isSome) (k2 : (hexVal h2).isSome)
    (k3 : (hexVal h3).isSome) (k4 : (hexVal h4).isSome) :
    ScanThrough [0x5C, 0x75, h1, h2, h3, h4] := by
  intro Y
  show scanLiteral (0x5C :: 0x75 :: h1 :: h2 :: h3 :: h4 :: Y) = _
  rw [scanLiteral.eq_def]
  simp [k1, k2, k3, k4]

/-- The digits of `hex` are hexadecimal digits. -/
theorem hexVal_hex_isSome (a : Nat) (h : a < 16) : (hexVal (hex a)).isSome := by
  rw [hexVal_hex a h]; rfl

/-- The scanner passes over what one encoder iteration writes. -/
theorem scanThrough_step (c : Nat) (t : Bytes) : ScanThrough (appendStringStep c t).1 := by
  unfold appendStringStep
  by_cases hc : c < 0x80
  · rw [if_pos hc]
    by_cases h1 : htmlSafeSet c = true
    · rw [if_pos h1]
      simp only [htmlSafeSet, Bool.and_eq_true, decide_eq_true_eq, bne_iff_ne, ne_eq] at h1
      exact scanThrough_plain c (by omega) (by omega) (by omega)
    rw [if_neg h1]
    by_cases h2 : c = 0x5C ∨ c = 0x22
    · rw [if_pos h2]; exact scanThrough_esc c (by omega)
    rw [if_neg h2]
    by_cases h3 : c = 0x08
    · rw [if_pos h3]; exact scanThrough_esc _ (by decide)
    rw [if_neg h3]
    by_cases h4 : c = 0x0C
    · rw [if_pos h4]; exact scanThrough_esc _ (by decide)
    rw [if_neg h4]
    by_cases h5 : c = 0x0A
    · rw [if_pos h5]; exact scanThrough_esc _ (by decide)
    rw [if_neg h5]
    by_cases h6 : c = 0x0D
    · rw [if_pos h6]; exact scanThrough_esc _ (by decide)
    rw [if_neg h6]
    by_cases h7 : c = 0x09
    · rw [if_pos h7]; exact scanThrough_esc _ (by decide)
    rw [if_neg h7]
    exact scanThrough_u _ _ _ _ (by decide) (by decide)
      (hexVal_hex_isSome _ (by omega)) (hexVal_hex_isSome _ (by omega))
  · rw [if_neg hc]
    simp only
    by_cases hv : (DecodeRune (c :: t)).1 = RuneError ∧ (DecodeRune (c :: t)).2 = 1
    · rw [if_pos hv]
      exact scanThrough_u _ _ _ _ (by decide) (by decide) (by decide) (by decide)
    rw [if_neg hv]
    by_cases hls : (DecodeRune (c :: t)).1 = 0x2028 ∨ (DecodeRune (c :: t)).1 = 0x2029
    · rw [if_pos hls]
      exact scanThrough_u _ _ _ _ (by decide) (by decide) (by decide)
        (hexVal_hex_isSome _ (by omega))
    · rw [if_neg hls]
      obtain ⟨hpos, _, _, _, hhigh⟩ := DecodeRune_ok c t hv
      apply scanThrough_high
      intro x hx
      obtain ⟨k, hk⟩ : ∃ k, (DecodeRune (c :: t)).2 = k + 1 :=
        ⟨_, (Nat.sub_add_cancel hpos).symm⟩
      rw [hk] at hx hhigh
      simp only [List.take_succ_cons, List.mem_cons, List.tail_cons] at hx hhigh
      rcases hx with rfl | hx
      · omega
      · exact hhigh x hx

/-- The scanner passes over the output of the encoder loop. -/
theorem scanThrough_loop (f : Nat) : ∀ s : Bytes, ScanThrough (appendStringLoop f s) := by
  induction f with
  | zero => intro s; cases s <;> exact scanThrough_nil
  | succ f ih =>
    intro s
    rcases s with _ | ⟨c, t⟩
    · exact scanThrough_nil
    · simp only [appendStringLoop]
      exact scanThrough_append _ _ (scanThrough_step c t) (ih _)

/-- A literal written by `appendString` is read back in front of any input. -/
theorem decodeLiteral_appendString (v rest : Bytes) (h : utf8Valid v = true) :
    decodeLiteral (appendString v ++ rest) = some (v, rest) := by
  have hs := scanThrough_loop v.length v (0x22 :: rest)
  have h0 : scanLiteral (0x22 :: rest) = some ([], rest) := by
    rw [scanLiteral.eq_def]
    simp
  rw [h0] at hs
  simp only [Option.map_some', List.append_nil] at hs
  have hu := unquoteBytes_appendString v h
  unfold appendString at hu ⊢
  simp only [List.singleton_append, List.cons_append, List.append_assoc, decodeLiteral,
    ne_eq, not_true_eq_false, if_false, List.nil_append] at hu ⊢
  rw [hs]
  simp only
  rw [hu]
  rfl

/-- A member followed by a comma is decoded and the decoding goes on. -/
theorem decodeMembers_comma (f : Nat) (k v rest : Bytes) (hk : utf8Valid k = true)
    (hv : utf8Valid v = true) :
    decodeMembers (f + 1) (appendString k ++ [0x3A] ++ appendString v ++ [0x2C] ++ rest)
      = (decodeMembers f rest).map ((k, v) :: ·) := by
  have e1 : appendString k ++ [0x3A] ++ appendString v ++ [0x2C] ++ rest
      = appendString k ++ (0x3A :: (appendString v ++ (0x2C :: rest))) := by simp
  rw [e1, decodeMembers, decodeLiteral_appendString k _ hk]
  simp only [ne_eq, not_true_eq_false, if_false]
  rw [decodeLiteral_appendString v _ hv]
  simp

/-- The last member, followed by the closing brace, ends the decoding. -/
theorem decodeMembers_last (f : Nat) (k v : Bytes) (hk : utf8Valid k = true)
    (hv : utf8Valid v = true) :
    decodeMembers (f + 1) (appendString k ++ [0x3A] ++ appendString v ++ [0x7D])
      = some [(k, v)] := by
  have e1 : appendString k ++ [0x3A] ++ appendString v ++ [0x7D]
      = appendString k ++ (0x3A :: (appendString v ++ [0x7D])) := by simp
  rw [e1, decodeMembers, decodeLiteral_appendString k _ hk]
  simp only [ne_eq, not_true_eq_false, if_false]
  rw [decodeLiteral_appendString v _ hv]
  simp

/-- The payload for `logData`: the keys come out in the order `ip`, `method`, `path`. -/
theorem marshalMap_logData (r : Request) :
    marshalMap (logData r)
      = 0x7B :: (appendString (lit "ip") ++ [0x3A] ++ appendString r.RemoteAddr ++ [0x2C]
          ++ (appendString (lit "method") ++ [0x3A] ++ appendString r.Method ++ [0x2C]
          ++ (appendString (lit "path") ++ [0x3A] ++ appendString r.Path ++ [0x7D]))) := by
  have hs : (logData r).insertionSort (fun a b => bytesLe a.1 b.1 = true)
      = [(lit "ip", r.RemoteAddr), (lit "method", r.Method), (lit "path", r.Path)] := by
    rfl
  unfold marshalMap
  rw [hs]
  simp [List.intercalate]

/-- Decoding the payload that `json.Marshal` writes for `logData` gives the three
members back when the three strings are valid UTF-8. -/
theorem decodeObject_marshalMap_logData (r : Request) (hm : utf8Valid r.Method = true)
    (hp : utf8Valid r.Path = true) (ha : utf8Valid r.RemoteAddr = true) :
    decodeObject (marshalMap (logData r))
      = some [(lit "ip", r.RemoteAddr), (lit "method", r.Method), (lit "path", r.Path)] := by
  rw [marshalMap_logData]
  unfold decodeObject
  simp only [ne_eq, not_true_eq_false, if_false]
  have hne : ¬ (appendString (lit "ip") ++ [0x3A] ++ appendString r.RemoteAddr ++ [0x2C]
          ++ (appendString (lit "method") ++ [0x3A] ++ appendString r.Method ++ [0x2C]
          ++ (appendString (lit "path") ++ [0x3A] ++ appendString r.Path ++ [0x7D])))
        = [0x7D] := by
    intro h
    have := congrArg List.length h
    simp [appendString] at this
  rw [if_neg hne]
  obtain ⟨n, hn⟩ : ∃ n, (appendString (lit "ip") ++ [0x3A] ++ appendString r.RemoteAddr ++ [0x2C]
          ++ (appendString (lit "method") ++ [0x3A] ++ appendString r.Method ++ [0x2C]
          ++ (appendString (lit "path") ++ [0x3A] ++ appendString r.Path ++ [0x7D]))).length
        = n + 3 := by
    refine ⟨_, (Nat.sub_add_cancel ?_).symm⟩
    simp [appendString]
    omega
  rw [hn, decodeMembers_comma _ _ _ _ (by decide) ha, decodeMembers_comma _ _ _ _ (by decide) hm,
    decodeMembers_last _ _ _ (by decide) hp]
  rfl

/-- The goroutine that a call of the wrapped handler starts is the one for its
request: the writer after `serve` is the writer after that goroutine's body. -/
theorem serve_writer {σ : Type} (marshal : List (Bytes × Bytes) → Option Bytes)
    (sendErr : Option Bytes) (clock : σ → Nat) (next : Handler σ) (w : ResponseWriter)
    (r : Request) (t : Telemetry) (kw : KafkaWriter) (s : σ) :
    (serve marshal sendErr clock next w r t kw s).2 = notifyBroker marshal sendErr r kw := by
  have hg : (logRequests clock next w r (t, s)).state.2.1.goroutines = t.goroutines ++ [r] := by
    simp only [logRequests]
    cases next w r s <;> rfl
  simp only [serve, hg, List.drop_left, List.foldl_cons, List.foldl_nil]

/-- C5 (as stated, refuted): for the request `GET /products/%ff`, whose path ends in
the byte 0xFF, the one message handed to the writer carries the path with U+FFFD in
place of that byte; decoding the payload does not give back the path. -/
theorem telemetry_path_not_recovered :
    (serve jsonMarshal none id panicHandler ResponseWriter.fresh invalidPathRequest
        Telemetry.init KafkaWriter.init 0).2.calls
      = [[{ Value := lit "\x7b\"ip\":\"10.0.0.5:5555\",\"method\":\"GET\",\"path\":\"/products/\\ufffd\"\x7d" }]]
    ∧ decodeObject
        (lit "\x7b\"ip\":\"10.0.0.5:5555\",\"method\":\"GET\",\"path\":\"/products/\\ufffd\"\x7d")
      = some [(lit "ip", lit "10.0.0.5:5555"), (lit "method", lit "GET"),
          (lit "path", lit "/products/" ++ [0xEF, 0xBF, 0xBD])]
    ∧ lit "/products/" ++ [0xEF, 0xBF, 0xBD] ≠ invalidPathRequest.Path := by
  decide

/-- C5 (amended): for every request and whatever the outcome of the send, one call
of the handler returned by `logRequests` starts one goroutine, which hands the
writer exactly one message in exactly one `WriteMessages` call; the message's value
is the JSON object with the three members `ip`, `method` and `path`, in this order,
whose values are the string literals for `r.RemoteAddr`, `r.Method` and
`r.URL.Path`; when these three strings are valid UTF-8, decoding the payload gives
exactly them. -/
theorem logRequests_publishes_event {σ : Type} (sendErr : Option Bytes) (clock : σ → Nat)
    (next : Handler σ) (w : ResponseWriter) (r : Request) (t : Telemetry) (kw : KafkaWriter)
    (s : σ) :
    (serve jsonMarshal sendErr clock next w r t kw s).2.calls
      = kw.calls ++ [[{ Value := marshalMap (logData r) }]]
    ∧ marshalMap (logData r)
      = lit "\x7b\"ip\":" ++ appendString r.RemoteAddr ++ lit ",\"method\":"
          ++ appendString r.Method ++ lit ",\"path\":" ++ appendString r.Path ++ lit "\x7d"
    ∧ (utf8Valid r.Method = true → utf8Valid r.Path = true → utf8Valid r.RemoteAddr = true →
        decodeObject (marshalMap (logData r))
          = some [(lit "ip", r.RemoteAddr), (lit "method", r.Method), (lit "path", r.Path)]) := by
  refine ⟨?_, ?_, decodeObject_marshalMap_logData r⟩
  · rw [serve_writer]
    rfl
  · rw [marshalMap_logData]
    have h1 : lit "\x7b\"ip\":" = 0x7B :: (appendString (lit "ip") ++ [0x3A]) := by decide
    have h2 : lit ",\"method\":" = 0x2C :: (appendString (lit "method") ++ [0x3A]) := by decide
    have h3 : lit ",\"path\":" = 0x2C :: (appendString (lit "path") ++ [0x3A]) := by decide
    have h4 : lit "\x7d" = [0x7D] := by decide
    rw [h1, h2, h3, h4]
    simp

/-- C5 (amended) at the request of the end-to-end scenario, with a failing send. -/
theorem logRequests_publishes_event_witness :
    (serve jsonMarshal (some (lit "broker unreachable")) id errorHandler ResponseWriter.fresh
        scenarioRequest Telemetry.init KafkaWriter.init 0).2.calls
      = [[{ Value := lit "\x7b\"ip\":\"10.0.0.5:5555\",\"method\":\"GET\",\"path\":\"/users/1\"\x7d" }]]
    ∧ decodeObject (lit "\x7b\"ip\":\"10.0.0.5:5555\",\"method\":\"GET\",\"path\":\"/users/1\"\x7d")
      = some [(lit "ip", lit "10.0.0.5:5555"), (lit "method", lit "GET"),
          (lit "path", lit "/users/1")] := by
  have h := logRequests_publishes_event (some (lit "broker unreachable")) id errorHandler
    ResponseWriter.fresh scenarioRequest Telemetry.init KafkaWriter.init 0
  have hv : marshalMap (logData scenarioRequest)
      = lit "\x7b\"ip\":\"10.0.0.5:5555\",\"method\":\"GET\",\"path\":\"/users/1\"\x7d" := by decide
  rw [hv] at h
  exact ⟨h.1, h.2.2 (by decide) (by decide) (by decide)⟩

/-- C6: for every request and wrapped handler, the outcome of the handler returned
by `logRequests` (the response written, the metrics, and whether it returned) is the
same whatever the outcomes of serialization and of the broker send are, and the
response is the one the wrapped handler alone writes for the request. -/
theorem telemetry_failure_invisible {σ : Type}
    (marshal1 marshal2 : List (Bytes × Bytes) → Option Bytes) (send1 send2 : Option Bytes)
    (clock : σ → Nat) (next : Handler σ) (w : ResponseWriter) (r : Request) (t : Telemetry)
    (kw : KafkaWriter) (s : σ) :
    (serve marshal1 send1 clock next w r t kw s).1 = (serve marshal2 send2 clock next w r t kw s).1
    ∧ (serve marshal1 send1 clock next w r t kw s).1.response = (next w r s).response := by
  refine ⟨rfl, ?_⟩
  simp only [serve, logRequests]
  cases next w r s <;> rfl

/-! ### Request middleware -/

/-- C1 (as stated, refuted): with a wrapped handler that panics, one call of the
handler returned by `logRequests` increments the counter and panics without adding
an observation to `http_request_duration_seconds`; the claimed "exactly one new
observation" fails there. -/
theorem logRequests_panic_no_observation :
    logRequests id panicHandler ResponseWriter.fresh sampleRequest (Telemetry.init, 0)
      = .panicked (ResponseWriter.fresh,
          { httpRequestsTotal := 1, httpRequestDuration := [], goroutines := [sampleRequest] }, 0)
    ∧ ¬ ((logRequests id panicHandler ResponseWriter.fresh sampleRequest
            (Telemetry.init, 0)).state.2.1.httpRequestDuration.length
          = Telemetry.init.httpRequestDuration.length + 1) := by
  constructor
  · rfl
  · simp [logRequests, panicHandler, Outcome.state, Telemetry.init]

/-- C1 (amended): for every request and every wrapped handler, one call of the
handler returned by `logRequests` increases `http_requests_total` by exactly 1; when
the wrapped handler returns (whatever response it wrote) the call returns too and
exactly one observation, the time elapsed during the wrapped handler, is appended to
`http_request_duration_seconds`; when the wrapped handler panics the call panics. -/
theorem logRequests_metrics {σ : Type} (clock : σ → Nat) (next : Handler σ)
    (w : ResponseWriter) (r : Request) (t : Telemetry) (s : σ) :
    (logRequests clock next w r (t, s)).state.2.1.httpRequestsTotal = t.httpRequestsTotal + 1
    ∧ (∀ w1 s1, next w r s = .returned (w1, s1) →
        ∃ t1, logRequests clock next w r (t, s) = .returned (w1, t1, s1)
          ∧ t1.httpRequestDuration = t.httpRequestDuration ++ [clock s1 - clock s])
    ∧ (∀ w1 s1, next w r s = .panicked (w1, s1) →
        ∃ t1, logRequests clock next w r (t, s) = .panicked (w1, t1, s1)) := by
  refine ⟨?_, ?_, ?_⟩
  · simp only [logRequests]
    cases next w r s <;> rfl
  · intro w1 s1 h
    simp only [logRequests, h]
    exact ⟨_, rfl, rfl⟩
  · intro w1 s1 h
    simp only [logRequests, h]
    exact ⟨_, rfl⟩

/-- C1 (amended), at a concrete input: a handler that writes a 500 response. -/
theorem logRequests_metrics_witness :
    (logRequests id errorHandler ResponseWriter.fresh sampleRequest
        (Telemetry.init, 0)).state.2.1.httpRequestsTotal = 1
    ∧ (logRequests id errorHandler ResponseWriter.fresh sampleRequest
        (Telemetry.init, 0)).state.2.1.httpRequestDuration = [5] := by
  have h := logRequests_metrics id errorHandler ResponseWriter.fresh sampleRequest
    Telemetry.init 0
  obtain ⟨t1, h1, h2⟩ := h.2.1 _ _ rfl
  refine ⟨h.1, ?_⟩
  rw [h1]
  simpa [Outcome.state, Telemetry.init] using h2

/-! ### Enrichment handler -/

/-- Under the route `/users/product/`, the handler reads the rest of the path as the
user id. -/
theorem route_drop (r : Request) (idStr : Bytes) (h : r.Path = lit "/users/product/" ++ idStr) :
    ¬ r.Path.length < (lit "/users/product/").length
    ∧ r.Path.drop (lit "/users/product/").length = idStr := by
  rw [h]
  constructor
  · simp
  · exact List.drop_left _ _

/-- C2 (as stated, refuted): a peer body that is not valid UTF-8, here the single
byte 0xFF, is read successfully, but the caller receives the literal `"\ufffd"`,
whose JSON decoding is the three bytes EF BF BD and not the peer body. -/
theorem relayed_body_not_byte_identical :
    (getLastOrderedProduct true (sampleBackend (.response 200 (.ok [0xFF])))
        ResponseWriter.fresh (productRequest (lit "1")) Sys.init).state.1.body
      = lit "\"\\ufffd\"\n"
    ∧ unquoteBytes (lit "\"\\ufffd\"") = some [0xEF, 0xBF, 0xBD]
    ∧ unquoteBytes (appendString [0xFF]) ≠ some [0xFF] := by
  decide

/-- C2 (amended): for every peer response body `b` that is valid UTF-8 and that
`getLastOrderedProduct` reads successfully (whatever the peer status), the caller
receives status 200, content type `application/json` and as body one JSON string
literal followed by a newline, and unquoting that literal gives exactly `b`. -/
theorem getLastOrderedProduct_relays_body (timed : Bool) (env : Backend) (r : Request) (s : Sys)
    (idStr : Bytes) (id : Int) (user : User) (status : Nat) (b : Bytes)
    (hpath : r.Path = lit "/users/product/" ++ idStr) (hid : Atoi idStr = some id)
    (huser : env.queryUser id = .ok user)
    (hget : env.httpGet (productURL env.helperService user.LastOrderedProduct)
      = .response status (.ok b))
    (hvalid : utf8Valid b = true) :
    ∃ w1 s1, getLastOrderedProduct timed env ResponseWriter.fresh r s = .returned (w1, s1)
      ∧ w1.statusCode = 200
      ∧ w1.sentHeader = [("Content-Type", "application/json")]
      ∧ w1.body = appendString b ++ [0x0A]
      ∧ unquoteBytes (appendString b) = some b := by
  obtain ⟨hlen, hdrop⟩ := route_drop r idStr hpath
  refine ⟨encodeString (ResponseWriter.fresh.setHeader "Content-Type" "application/json") b,
    (s.afterQuery timed env id).afterGet env
      (productURL env.helperService user.LastOrderedProduct),
    ?_, rfl, rfl, ?_, unquoteBytes_appendString b hvalid⟩
  · simp only [getLastOrderedProduct, if_neg hlen, hdrop, hid, huser, hget]
  · simp [encodeString, ResponseWriter.Write, ResponseWriter.setHeader,
      ResponseWriter.WriteHeader, ResponseWriter.fresh]

/-- C2 (amended) at the body of the end-to-end scenario: the caller receives the
quoted body followed by a newline. -/
theorem getLastOrderedProduct_relays_body_witness :
    (∃ w1 s1, getLastOrderedProduct true (sampleBackend (.response 200 (.ok widgetBody)))
        ResponseWriter.fresh (productRequest (lit "1")) Sys.init = .returned (w1, s1)
      ∧ w1.statusCode = 200
      ∧ w1.sentHeader = [("Content-Type", "application/json")]
      ∧ w1.body = appendString widgetBody ++ [0x0A]
      ∧ unquoteBytes (appendString widgetBody) = some widgetBody)
    ∧ appendString widgetBody ++ [0x0A]
      = lit "\"\x7b\\\"id\\\":7,\\\"name\\\":\\\"Widget\\\",\\\"price\\\":10\x7d\"\n" :=
  ⟨getLastOrderedProduct_relays_body true (sampleBackend (.response 200 (.ok widgetBody)))
      (productRequest (lit "1")) Sys.init (lit "1") 1 sampleUser 200 widgetBody
      rfl (by decide) rfl rfl (by decide),
    by decide⟩

/-- C3 (as stated, refuted): the peer answers 404 with an empty body; the caller
receives status 200 and the body `""` followed by a newline, not a failed response. -/
theorem peer_error_status_relayed_as_success :
    (getLastOrderedProduct true (sampleBackend (.response 404 (.ok [])))
        ResponseWriter.fresh (productRequest (lit "1")) Sys.init).state.1.statusCode = 200
    ∧ (getLastOrderedProduct true (sampleBackend (.response 404 (.ok [])))
        ResponseWriter.fresh (productRequest (lit "1")) Sys.init).state.1.body = lit "\"\"\n" := by
  decide

theorem getLastOrderedProduct_withPeerStatus (timed : Bool) (env : Backend) (f : Nat → Nat)
    (w : ResponseWriter) (r : Request) (s : Sys) :
    getLastOrderedProduct timed (env.withPeerStatus f) w r s
      = getLastOrderedProduct timed env w r s := by
  unfold getLastOrderedProduct
  by_cases hlen : r.Path.length < (lit "/users/product/").length
  · simp [hlen]
  · simp only [hlen, if_false]
    cases hid : Atoi (r.Path.drop (lit "/users/product/").length) with
    | none => rfl
    | some id =>
      have hq : (env.withPeerStatus f).queryUser id = env.queryUser id := rfl
      simp only [hq]
      cases hu : env.queryUser id with
      | errNoRows => rfl
      | err msg => rfl
      | ok user =>
        have hh : (env.withPeerStatus f).helperService = env.helperService := rfl
        have hg : (env.withPeerStatus f).httpGet
            (productURL env.helperService user.LastOrderedProduct)
            = match env.httpGet (productURL env.helperService user.LastOrderedProduct) with
              | .err msg => .err msg
              | .response status body => .response (f status) body := rfl
        simp only [hh, hg]
        cases hget : env.httpGet (productURL env.helperService user.LastOrderedProduct) with
        | err msg => rfl
        | response status body => cases body <;> rfl

theorem getLastOrderedProduct_status (timed : Bool) (env : Backend) (r : Request) (s : Sys)
    (idStr : Bytes) (hpath : r.Path = lit "/users/product/" ++ idStr) :
    (Atoi idStr = none ∧
      (getLastOrderedProduct timed env ResponseWriter.fresh r s).state.1.statusCode = 400)
    ∨ (∃ id, Atoi idStr = some id ∧ env.queryUser id = .errNoRows ∧
      (getLastOrderedProduct timed env ResponseWriter.fresh r s).state.1.statusCode = 404)
    ∨ (∃ id msg, Atoi idStr = some id ∧ env.queryUser id = .err msg ∧
      (getLastOrderedProduct timed env ResponseWriter.fresh r s).state.1.statusCode = 500)
    ∨ (∃ id user msg, Atoi idStr = some id ∧ env.queryUser id = .ok user ∧
      env.httpGet (productURL env.helperService user.LastOrderedProduct) = .err msg ∧
      (getLastOrderedProduct timed env ResponseWriter.fresh r s).state.1.statusCode = 500)
    ∨ (∃ id user status body, Atoi idStr = some id ∧ env.queryUser id = .ok user ∧
      env.httpGet (productURL env.helperService user.LastOrderedProduct)
        = .response status body ∧
      (getLastOrderedProduct timed env ResponseWriter.fresh r s).state.1.statusCode = 200) := by
  obtain ⟨hlen, hdrop⟩ := route_drop r idStr hpath
  simp only [getLastOrderedProduct, if_neg hlen, hdrop]
  cases hid : Atoi idStr with
  | none => exact Or.inl ⟨rfl, rfl⟩
  | some id =>
    cases hu : env.queryUser id with
    | errNoRows => exact Or.inr (Or.inl ⟨id, rfl, hu, by simp only [hu]; rfl⟩)
    | err msg => exact Or.inr (Or.inr (Or.inl ⟨id, msg, rfl, hu, by simp only [hu]; rfl⟩))
    | ok user =>
      cases hget : env.httpGet (productURL env.helperService user.LastOrderedProduct) with
      | err msg =>
        exact Or.inr (Or.inr (Or.inr (Or.inl ⟨id, user, msg, rfl, hu, hget, by
          simp only [hu, hget]; rfl⟩)))
      | response status body =>
        refine Or.inr (Or.inr (Or.inr (Or.inr ⟨id, user, status, body, rfl, hu, hget, ?_⟩)))
        simp only [hu, hget]
        cases body <;> rfl

/-- C3 (amended): `getLastOrderedProduct` never reads the peer's status. For every
peer response, of any status, whose body is empty and read successfully, the caller
receives status 200 and the body `""` followed by a newline, the JSON encoding of the
empty body; replacing the status of the peer's responses by any other leaves the
outcome of the handler unchanged. The status the caller receives is 400 exactly when
the id in the path does not parse, 404 exactly when the user is not found, 500
exactly when the database lookup fails with another error or the GET itself returns
an error, and 200 exactly when the peer answered, with whatever status. -/
theorem getLastOrderedProduct_ignores_peer_status (timed : Bool) (env : Backend) (r : Request)
    (s : Sys) (idStr : Bytes) (hpath : r.Path = lit "/users/product/" ++ idStr) :
    (∀ id user status, Atoi idStr = some id → env.queryUser id = .ok user →
      env.httpGet (productURL env.helperService user.LastOrderedProduct)
        = .response status (.ok []) →
      ∃ w1 s1, getLastOrderedProduct timed env ResponseWriter.fresh r s = .returned (w1, s1)
        ∧ w1.statusCode = 200 ∧ w1.body = lit "\"\"\n")
    ∧ (∀ f : Nat → Nat,
        getLastOrderedProduct timed (env.withPeerStatus f) ResponseWriter.fresh r s
          = getLastOrderedProduct timed env ResponseWriter.fresh r s)
    ∧ ((getLastOrderedProduct timed env ResponseWriter.fresh r s).state.1.statusCode = 400
        ↔ Atoi idStr = none)
    ∧ ((getLastOrderedProduct timed env ResponseWriter.fresh r s).state.1.statusCode = 404
        ↔ ∃ id, Atoi idStr = some id ∧ env.queryUser id = .errNoRows)
    ∧ ((getLastOrderedProduct timed env ResponseWriter.fresh r s).state.1.statusCode = 500
        ↔ ∃ id, Atoi idStr = some id ∧
            ((∃ msg, env.queryUser id = .err msg) ∨
              ∃ user msg, env.queryUser id = .ok user ∧
                env.httpGet (productURL env.helperService user.LastOrderedProduct)
                  = .err msg))
    ∧ ((getLastOrderedProduct timed env ResponseWriter.fresh r s).state.1.statusCode = 200
        ↔ ∃ id user status body, Atoi idStr = some id ∧ env.queryUser id = .ok user ∧
            env.httpGet (productURL env.helperService user.LastOrderedProduct)
              = .response status body) := by
  refine ⟨?_, fun f => getLastOrderedProduct_withPeerStatus timed env f _ r s, ?_⟩
  · intro id user status hid huser hget
    obtain ⟨hlen, hdrop⟩ := route_drop r idStr hpath
    refine ⟨encodeString (ResponseWriter.fresh.setHeader "Content-Type" "application/json") [],
      (s.afterQuery timed env id).afterGet env
        (productURL env.helperService user.LastOrderedProduct),
      ?_, rfl, rfl⟩
    simp only [getLastOrderedProduct, if_neg hlen, hdrop, hid, huser, hget]
  · rcases getLastOrderedProduct_status timed env r s idStr hpath with
      ⟨ha, hs⟩ | ⟨id, ha, hq, hs⟩ | ⟨id, msg, ha, hq, hs⟩ | ⟨id, user, msg, ha, hq, hg, hs⟩ |
      ⟨id, user, status, body, ha, hq, hg, hs⟩
    · rw [hs]; simp [ha]
    · rw [hs]; simp [ha, hq]
    · rw [hs]; simp [ha, hq]
    · rw [hs]; simp [ha, hq, hg]
    · rw [hs]; simp [ha, hq, hg]

/-- C3 (amended) at a peer that answers 503 with an empty body, and at a database
that fails before any GET: the first gives status 200, the second status 500. -/
theorem getLastOrderedProduct_ignores_peer_status_witness :
    (∃ w1 s1, getLastOrderedProduct true (sampleBackend (.response 503 (.ok [])))
        ResponseWriter.fresh (productRequest (lit "1")) Sys.init = .returned (w1, s1)
      ∧ w1.statusCode = 200 ∧ w1.body = lit "\"\"\n")
    ∧ (getLastOrderedProduct true
        { sampleBackend (.response 200 (.ok [])) with
          queryUser := fun _ => .err (lit "connection reset") }
        ResponseWriter.fresh (productRequest (lit "1")) Sys.init).state.1.statusCode = 500
    ∧ (getLastOrderedProduct true
        { sampleBackend (.response 200 (.ok [])) with
          queryUser := fun _ => .err (lit "connection reset") }
        ResponseWriter.fresh (productRequest (lit "1")) Sys.init).state.2.outbound = [] :=
  ⟨(getLastOrderedProduct_ignores_peer_status true (sampleBackend (.response 503 (.ok [])))
      (productRequest (lit "1")) Sys.init (lit "1") rfl).1 1 sampleUser 503 (by decide) rfl rfl,
    (getLastOrderedProduct_ignores_peer_status true
      { sampleBackend (.response 200 (.ok [])) with
        queryUser := fun _ => .err (lit "connection reset") }
      (productRequest (lit "1")) Sys.init (lit "1") rfl).2.2.2.2.1.mpr
      ⟨1, by decide, Or.inl ⟨_, rfl⟩⟩,
    by decide⟩

/-- C7 (code evaluated at the failing input): when reading the peer's body fails, the
handler returns without touching the response writer, so the caller receives status
200 with an empty body; when the GET itself fails the caller receives status 500 with
a message. -/
theorem read_error_leaves_response_empty :
    getLastOrderedProduct true (sampleBackend (.response 200 (.err (lit "unexpected EOF"))))
        ResponseWriter.fresh (productRequest (lit "1")) Sys.init
      = .returned (ResponseWriter.fresh,
          (Sys.init.afterQuery true (sampleBackend (.response 200 (.err (lit "unexpected EOF")))) 1
            ).afterGet (sampleBackend (.response 200 (.err (lit "unexpected EOF"))))
              (lit "http://service2:8080/products/7"))
    ∧ ResponseWriter.fresh.statusCode = 200
    ∧ ResponseWriter.fresh.body = []
    ∧ (getLastOrderedProduct true (sampleBackend (.err (lit "connection refused")))
        ResponseWriter.fresh (productRequest (lit "1")) Sys.init).state.1.statusCode = 500
    ∧ (getLastOrderedProduct true (sampleBackend (.err (lit "connection refused")))
        ResponseWriter.fresh (productRequest (lit "1")) Sys.init).state.1.body
      = lit "Failed to delete user from the database: connection refused" := by
  refine ⟨?_, rfl, rfl, ?_, ?_⟩ <;> decide

/-- C8: when the path carries a user id that parses and the user lookup succeeds with
`last_ordered_product = n`, `getLastOrderedProduct` issues exactly one outbound GET,
to `"http://" ++ h ++ "/products/" ++ decimal(n)` for the peer host `h`; when the id
does not parse, or the lookup fails, it issues none. -/
theorem getLastOrderedProduct_outbound (timed : Bool) (env : Backend) (w : ResponseWriter)
    (r : Request) (s : Sys) (idStr : Bytes)
    (hpath : r.Path = lit "/users/product/" ++ idStr) :
    (∀ id user, Atoi idStr = some id → env.queryUser id = .ok user →
      (getLastOrderedProduct timed env w r s).state.2.outbound
        = s.outbound ++ [lit "http://" ++ env.helperService ++ lit "/products/"
            ++ formatInt user.LastOrderedProduct])
    ∧ (Atoi idStr = none →
      (getLastOrderedProduct timed env w r s).state.2.outbound = s.outbound)
    ∧ (∀ id, Atoi idStr = some id → (∀ user, env.queryUser id ≠ .ok user) →
      (getLastOrderedProduct timed env w r s).state.2.outbound = s.outbound) := by
  obtain ⟨hlen, hdrop⟩ := route_drop r idStr hpath
  refine ⟨?_, ?_, ?_⟩
  · intro id user hid huser
    simp only [getLastOrderedProduct, if_neg hlen, hdrop, hid, huser]
    cases hg : env.httpGet (productURL env.helperService user.LastOrderedProduct) with
    | err msg => rfl
    | response st body => cases body <;> rfl
  · intro hid
    simp only [getLastOrderedProduct, if_neg hlen, hdrop, hid]
    rfl
  · intro id hid hno
    simp only [getLastOrderedProduct, if_neg hlen, hdrop, hid]
    cases hu : env.queryUser id with
    | ok user => exact absurd hu (hno user)
    | errNoRows => rfl
    | err msg => rfl

/-- C8 at concrete inputs: user 1 (last ordered product 7) leads to one GET of
`http://service2:8080/products/7`; the path id `x1` and the unknown user 2 lead to
none. -/
theorem getLastOrderedProduct_outbound_witness :
    (getLastOrderedProduct true (sampleBackend (.response 200 (.ok widgetBody)))
        ResponseWriter.fresh (productRequest (lit "1")) Sys.init).state.2.outbound
      = [lit "http://service2:8080/products/7"]
    ∧ (getLastOrderedProduct true (sampleBackend (.response 200 (.ok widgetBody)))
        ResponseWriter.fresh (productRequest (lit "x1")) Sys.init).state.2.outbound = []
    ∧ (getLastOrderedProduct true (sampleBackend (.response 200 (.ok widgetBody)))
        ResponseWriter.fresh (productRequest (lit "2")) Sys.init).state.2.outbound = [] :=
  ⟨(getLastOrderedProduct_outbound true (sampleBackend (.response 200 (.ok widgetBody)))
      ResponseWriter.fresh (productRequest (lit "1")) Sys.init (lit "1") rfl).1 1 sampleUser
      (by decide) rfl,
   (getLastOrderedProduct_outbound true (sampleBackend (.response 200 (.ok widgetBody)))
      ResponseWriter.fresh (productRequest (lit "x1")) Sys.init (lit "x1") rfl).2.1 (by decide),
   (getLastOrderedProduct_outbound true (sampleBackend (.response 200 (.ok widgetBody)))
      ResponseWriter.fresh (productRequest (lit "2")) Sys.init (lit "2") rfl).2.2 2 (by decide)
      (by intro user; simp [sampleBackend])⟩

/-! ### Consumer -/

/-- A running subscription stays running whatever the reads return, and performs one
read per iteration. -/
theorem Subscription.run_running (topic : Nat) (results : List ReadResult) :
    ∀ s : Subscription, s.phase = .running →
      (s.run topic results).phase = .running
      ∧ (s.run topic results).reads = s.reads + results.length
      ∧ (s.run topic results).log.length = s.log.length + results.length := by
  induction results with
  | nil => intro s h; simp [Subscription.run, h]
  | cons res rest ih =>
    intro s h
    have hstep : (s.step topic res).phase = .running
        ∧ (s.step topic res).reads = s.reads + 1
        ∧ (s.step topic res).log.length = s.log.length + 1 := by
      cases res <;> simp [Subscription.step, loopBody, h]
    have := ih (s.step topic res) hstep.1
    simp only [Subscription.run, List.foldl_cons, List.length_cons] at this ⊢
    refine ⟨this.1, ?_, ?_⟩
    · rw [this.2.1, hstep.2.1]; omega
    · rw [this.2.2, hstep.2.2]; omega

/-- C4 (code evaluated at the failing input): after any reads `before`, let
`ReadMessage` return `context.Canceled` `n` times in a row. The subscription is
still running, the deferred `Close` has not run, and each of the `n` reads was made
and logged as an error: the loop spins instead of terminating. -/
theorem cancelled_receive_loop_never_closes (topic : Nat) (before : List ReadResult) (n : Nat) :
    (Subscription.init.run topic
        (before ++ List.replicate n (.error contextCanceled))).phase = .running
    ∧ (Subscription.init.run topic
        (before ++ List.replicate n (.error contextCanceled))).reads = before.length + n
    ∧ (Subscription.init.run topic (List.replicate 3 (.error contextCanceled))).log
        = List.replicate 3 (.readError topic contextCanceled) := by
  have h := Subscription.run_running topic
    (before ++ List.replicate n (.error contextCanceled)) Subscription.init rfl
  refine ⟨h.1, ?_, ?_⟩
  · rw [h.2.1]; simp [Subscription.init]
  · rfl

/-- C9: in the receive loop of any topic, when a read of a running subscription
returns an error, the error is logged, the subscription stays running (its reader is
not closed), no message is handled in that iteration, and the next iteration
performs another read. -/
theorem transient_error_keeps_running (topic : Nat) (err : Bytes) (s : Subscription)
    (next : ReadResult) (h : s.phase = .running) :
    (s.step topic (.error err)).phase = .running
    ∧ (s.step topic (.error err)).handled = s.handled
    ∧ (s.step topic (.error err)).log = s.log ++ [.readError topic err]
    ∧ (s.step topic (.error err)).reads = s.reads + 1
    ∧ ((s.step topic (.error err)).step topic next).reads = s.reads + 2 := by
  have h1 : s.step topic (.error err)
      = { s with reads := s.reads + 1, log := s.log ++ [.readError topic err] } := by
    simp [Subscription.step, loopBody, h]
  rw [h1]
  refine ⟨h, rfl, rfl, rfl, ?_⟩
  cases next <;> simp [Subscription.step, loopBody, h]

/-- C9 at a concrete input: a fresh subscription of topic 1 whose first read fails
with a broker error and whose second read delivers a message. -/
theorem transient_error_keeps_running_witness :
    (Subscription.init.step 1 (.error (lit "EOF"))).phase = .running
    ∧ (Subscription.init.step 1 (.error (lit "EOF"))).handled = []
    ∧ (Subscription.init.step 1 (.error (lit "EOF"))).log = [.readError 1 (lit "EOF")]
    ∧ (Subscription.init.step 1 (.error (lit "EOF"))).reads = 1
    ∧ ((Subscription.init.step 1 (.error (lit "EOF"))).step 1 (.message (lit "m"))).reads = 2 :=
  transient_error_keeps_running 1 (lit "EOF") Subscription.init (.message (lit "m")) rfl

/-- Invariant of the consumer process: `main` has exited only after cancellation,
and both subscriptions are running. -/
theorem Consumer.run_invariant (es : List Event) :
    ∀ c : Consumer, ((c.mainExited = true → c.cancelled = true)
        ∧ c.topic1.phase = .running ∧ c.topic2.phase = .running) →
      (((c.run es).mainExited = true → (c.run es).cancelled = true)
        ∧ (c.run es).topic1.phase = .running ∧ (c.run es).topic2.phase = .running) := by
  induction es with
  | nil => intro c h; simpa [Consumer.run] using h
  | cons e rest ih =>
    intro c h
    have hs : (((c.step e).mainExited = true → (c.step e).cancelled = true)
        ∧ (c.step e).topic1.phase = .running ∧ (c.step e).topic2.phase = .running) := by
      obtain ⟨h0, h1, h2⟩ := h
      have s1 : ∀ res, (c.topic1.step 1 res).phase = .running := fun res =>
        (Subscription.run_running 1 [res] c.topic1 h1).1
      have s2 : ∀ res, (c.topic2.step 2 res).phase = .running := fun res =>
        (Subscription.run_running 2 [res] c.topic2 h2).1
      cases hx : c.mainExited
      · cases e with
        | signal => simp [Consumer.step, hx, h1, h2]
        | signalGoroutine =>
          by_cases hg : (c.signalPending && !c.signalGoroutineDone) = true
          · simp [Consumer.step, hx, h1, h2, hg]
          · simp [Consumer.step, hx, h1, h2, hg]
        | topic1 res => simp [Consumer.step, hx, h2, s1]
        | topic2 res => simp [Consumer.step, hx, h1, s2]
        | mainGoroutine =>
          by_cases hc : c.cancelled = true
          · simp [Consumer.step, hx, h1, h2, hc]
          · simp [Consumer.step, hx, h1, h2, hc]
      · simp [Consumer.step, hx, h1, h2, h0 hx]
    exact ih (c.step e) hs

/-- C10 (code evaluated at the failing input): under every schedule `main` exits only
after cancellation, but no subscription is ever closed; and under the schedule
"signal arrives, signal goroutine cancels, main runs" `main` has exited while both
subscriptions are still running with their readers open. -/
theorem main_exits_without_waiting (es : List Event) :
    (((Consumer.init.run es).mainExited = true → (Consumer.init.run es).cancelled = true)
      ∧ (Consumer.init.run es).topic1.phase = .running
      ∧ (Consumer.init.run es).topic2.phase = .running)
    ∧ (Consumer.init.run [.signal, .signalGoroutine, .mainGoroutine]).mainExited = true
    ∧ (Consumer.init.run [.signal, .signalGoroutine, .mainGoroutine]).topic1.phase = .running
    ∧ (Consumer.init.run [.signal, .signalGoroutine, .mainGoroutine]).topic2.phase = .running :=
  ⟨Consumer.run_invariant es Consumer.init ⟨by simp [Consumer.init], rfl, rfl⟩, rfl, rfl, rfl⟩

/-! ### Consumer: logging and signals -/

/-- One iteration of a running subscription logs exactly the line of the read's
outcome and counts the read. -/
theorem Subscription.step_log (topic : Nat) (res : ReadResult) (s : Subscription)
    (h : s.phase = .running) :
    (s.step topic res).phase = .running
    ∧ (s.step topic res).log = s.log ++ [lineOf topic res]
    ∧ (s.step topic res).handled = s.handled ++ messagesOf [res] := by
  cases res <;> simp [Subscription.step, loopBody, h, lineOf, messagesOf]

/-- The log of a running subscription grows by one line per read, in order, and the
messages handled are the values read without error. -/
theorem Subscription.run_log (topic : Nat) (results : List ReadResult) :
    ∀ s : Subscription, s.phase = .running →
      (s.run topic results).log = s.log ++ results.map (lineOf topic)
      ∧ (s.run topic results).handled = s.handled ++ messagesOf results := by
  induction results with
  | nil => intro s _; simp [Subscription.run, messagesOf]
  | cons res rest ih =>
    intro s h
    obtain ⟨h1, h2, h3⟩ := Subscription.step_log topic res s h
    have := ih (s.step topic res) h1
    simp only [Subscription.run, List.foldl_cons] at this ⊢
    rw [this.1, this.2, h2, h3]
    cases res <;> simp [messagesOf]

/-- C13: for every message that a running receive loop reads without error, the
loop logs exactly one line, whose text is the topic tag followed by the message's
value bytes unchanged and a newline, and over any sequence of reads the lines logged
are, in order, exactly one per read. -/
theorem received_message_logged_once (topic : Nat) (value : Bytes) (s : Subscription)
    (results : List ReadResult) (h : s.phase = .running) :
    (s.step topic (.message value)).log = s.log ++ [.received topic value]
    ∧ (LogLine.received topic value).text
        = lit "[Topic " ++ formatInt topic ++ lit "] Received message: " ++ value ++ [0x0A]
    ∧ (s.run topic results).log = s.log ++ results.map (lineOf topic)
    ∧ ((s.run topic results).log.filterMap fun l =>
          match l with
          | .received _ v => some v
          | _ => none)
        = (s.log.filterMap fun l =>
          match l with
          | .received _ v => some v
          | _ => none) ++ messagesOf results := by
  refine ⟨(Subscription.step_log topic (.message value) s h).2.1, rfl,
    (Subscription.run_log topic results s h).1, ?_⟩
  rw [(Subscription.run_log topic results s h).1, List.filterMap_append]
  congr 1
  induction results with
  | nil => rfl
  | cons res rest ih => cases res <;> simp [lineOf, messagesOf, ih]

/-- C13 at the event of the end-to-end scenario, read from topic 1 after a failed
read. -/
theorem received_message_logged_once_witness :
    (Subscription.init.step 1 (.message (marshalMap (logData scenarioRequest)))).log
      = [.received 1 (marshalMap (logData scenarioRequest))]
    ∧ (LogLine.received 1 (marshalMap (logData scenarioRequest))).text
      = lit "[Topic 1] Received message: \x7b\"ip\":\"10.0.0.5:5555\",\"method\":\"GET\",\"path\":\"/users/1\"\x7d\n"
    ∧ (Subscription.init.run 1 [.error (lit "EOF"),
          .message (marshalMap (logData scenarioRequest))]).log
      = [.readError 1 (lit "EOF"), .received 1 (marshalMap (logData scenarioRequest))] := by
  have h := received_message_logged_once 1 (marshalMap (logData scenarioRequest))
    Subscription.init [.error (lit "EOF"), .message (marshalMap (logData scenarioRequest))] rfl
  refine ⟨h.1, ?_, h.2.2.1⟩
  decide

theorem CancelInv.step (c : Consumer) (e : Event) (h : CancelInv c) : CancelInv (c.step e) := by
  obtain ⟨h1, h2, h3⟩ := h
  unfold CancelInv Consumer.cancelCalls at *
  cases hx : c.mainExited
  · cases e with
    | signal => simp [Consumer.step, hx, h1, h3]
    | signalGoroutine =>
      cases hp : c.signalPending <;> cases hd : c.signalGoroutineDone <;>
        simp_all [Consumer.step]
    | topic1 res => simp [Consumer.step, hx, h1, h3]; exact h2
    | topic2 res => simp [Consumer.step, hx, h1, h3]; exact h2
    | mainGoroutine =>
      cases hc : c.cancelled <;> cases hd : c.signalGoroutineDone <;>
        simp_all [Consumer.step]
  · simp [Consumer.step, hx, h1, h3]; exact h2

theorem CancelInv.run (es : List Event) : ∀ c : Consumer, CancelInv c → CancelInv (c.run es) := by
  induction es with
  | nil => intro c h; exact h
  | cons e rest ih => intro c h; exact ih _ (CancelInv.step c e h)

/-- Without a relayed signal the signal goroutine stays blocked. -/
theorem Consumer.run_no_signal (es : List Event) : ∀ c : Consumer,
    (∀ e ∈ es, e ≠ Event.signal) → c.signalPending = false →
    (c.run es).signalPending = false := by
  induction es with
  | nil => intro c _ h; exact h
  | cons e rest ih =>
    intro c hes h
    refine ih (c.step e) (fun x hx => hes x (List.mem_cons_of_mem _ hx)) ?_
    have he := hes e (List.mem_cons_self _ _)
    cases hx : c.mainExited
    · cases e with
      | signal => exact absurd rfl he
      | signalGoroutine => simp [Consumer.step, hx, h]
      | topic1 res => simp [Consumer.step, hx, h]
      | topic2 res => simp [Consumer.step, hx, h]
      | mainGoroutine => cases hc : c.cancelled <;> simp [Consumer.step, hx, h, hc]
    · simp [Consumer.step, hx, h]

/-- C14: the consumer treats an interrupt and a termination signal alike: either one
is relayed to the signal goroutine, which then cancels the shared context; a signal
of another kind changes nothing, and under a schedule without a relayed signal the
context is never cancelled; under every schedule `cancel()` is called at most once,
and only after a signal was relayed. -/
theorem signals_cancel_alike (c : Consumer) (es : List Event)
    (hrun : c.mainExited = false) (hfirst : c.signalGoroutineDone = false) :
    c.receive .interrupt = c.receive .terminate
    ∧ ((c.receive .interrupt).step .signalGoroutine).cancelled = true
    ∧ ((c.receive .terminate).step .signalGoroutine).cancelled = true
    ∧ c.receive .other = c
    ∧ ((∀ e ∈ es, e ≠ Event.signal) → (Consumer.init.run es).cancelled = false)
    ∧ (Consumer.init.run es).cancelCalls ≤ 1
    ∧ ((Consumer.init.run es).cancelled = true → Event.signal ∈ es) := by
  have hinit : CancelInv Consumer.init := by
    simp [CancelInv, Consumer.init, Consumer.cancelCalls]
  obtain ⟨i1, i2, i3⟩ := CancelInv.run es Consumer.init hinit
  have hno : (∀ e ∈ es, e ≠ Event.signal) → (Consumer.init.run es).cancelled = false := by
    intro hes
    have hp := Consumer.run_no_signal es Consumer.init hes rfl
    rw [i1]
    cases hd : (Consumer.init.run es).signalGoroutineDone
    · rfl
    · rw [i2 hd] at hp; exact absurd hp (by simp)
  refine ⟨rfl, ?_, ?_, rfl, hno, ?_, ?_⟩
  · simp [Consumer.receive, Consumer.step, hrun, hfirst]
  · simp [Consumer.receive, Consumer.step, hrun, hfirst]
  · rw [i3]; split <;> omega
  · intro hc
    by_contra hmem
    have := hno (fun e he heq => hmem (heq ▸ he))
    rw [this] at hc
    exact absurd hc (by simp)

/-- C14 at a schedule with an interrupt followed by a termination signal: the context
is cancelled, by exactly one call of `cancel()`. -/
theorem signals_cancel_alike_witness :
    Consumer.init.receive .interrupt = Consumer.init.receive .terminate
    ∧ ((Consumer.init.receive .terminate).step .signalGoroutine).cancelled = true
    ∧ (Consumer.init.run [.signal, .signalGoroutine, .signal, .signalGoroutine]).cancelled = true
    ∧ (Consumer.init.run [.signal, .signalGoroutine, .signal, .signalGoroutine]).cancelCalls = 1
    ∧ (Consumer.init.run [.topic1 (.error (lit "EOF")), .signalGoroutine, .mainGoroutine]).cancelled
        = false := by
  have h := signals_cancel_alike Consumer.init
    [.topic1 (.error (lit "EOF")), .signalGoroutine, .mainGoroutine] rfl rfl
  exact ⟨h.1, h.2.2.1, by decide, by decide, h.2.2.2.2.1 (by decide)⟩

/-! ### In-memory product service -/

/-- The delete loop, started after the products `done` that do not have the id:
either it finds a first product with the id further on and removes exactly that one,
or there is none and the slice is unchanged. -/
theorem Storage.deleteLoop_spec (id : Bytes) : ∀ (rest done : List MemProduct),
    (∀ p ∈ done, p.ID ≠ id) →
    (∃ pre x post, done ++ rest = pre ++ x :: post ∧ x.ID = id ∧ (∀ p ∈ pre, p.ID ≠ id)
        ∧ Storage.deleteLoop id (done ++ rest) done.length rest = pre ++ post)
    ∨ ((∀ p ∈ done ++ rest, p.ID ≠ id)
        ∧ Storage.deleteLoop id (done ++ rest) done.length rest = done ++ rest) := by
  intro rest
  induction rest with
  | nil => intro done h; right; exact ⟨by simpa using h, rfl⟩
  | cons x rest ih =>
    intro done h
    by_cases hx : x.ID = id
    · left
      refine ⟨done, x, rest, rfl, hx, h, ?_⟩
      simp [Storage.deleteLoop, hx, removeAt]
    · have h2 : ∀ p ∈ done ++ [x], p.ID ≠ id := by
        intro p hp
        rcases List.mem_append.mp hp with hp | hp
        · exact h p hp
        · rw [List.mem_singleton.mp hp]; exact hx
      have e : done ++ x :: rest = (done ++ [x]) ++ rest := by simp
      have := ih (done ++ [x]) h2
      simp only [Storage.deleteLoop, hx, if_false]
      rw [e]
      simpa using this

/-- The update loop, started after the products `done` that do not have the id. -/
theorem Storage.updateLoop_spec (decode : Bytes → MemProduct) (id body : Bytes) :
    ∀ (rest done : List MemProduct), (∀ p ∈ done, p.ID ≠ id) →
    (∃ pre x post, done ++ rest = pre ++ x :: post ∧ x.ID = id ∧ (∀ p ∈ pre, p.ID ≠ id)
        ∧ Storage.updateLoop decode id body (done ++ rest) done.length rest
          = some (pre ++ post ++ [{ decode body with ID := id }], { decode body with ID := id }))
    ∨ ((∀ p ∈ done ++ rest, p.ID ≠ id)
        ∧ Storage.updateLoop decode id body (done ++ rest) done.length rest = none) := by
  intro rest
  induction rest with
  | nil => intro done h; right; exact ⟨by simpa using h, rfl⟩
  | cons x rest ih =>
    intro done h
    by_cases hx : x.ID = id
    · left
      refine ⟨done, x, rest, rfl, hx, h, ?_⟩
      simp [Storage.updateLoop, hx, removeAt]
    · have h2 : ∀ p ∈ done ++ [x], p.ID ≠ id := by
        intro p hp
        rcases List.mem_append.mp hp with hp | hp
        · exact h p hp
        · rw [List.mem_singleton.mp hp]; exact hx
      have e : done ++ x :: rest = (done ++ [x]) ++ rest := by simp
      have := ih (done ++ [x]) h2
      simp only [Storage.updateLoop, hx, if_false]
      rw [e]
      simpa using this

theorem body_write (w : ResponseWriter) (b : Bytes) : (w.Write b).body = w.body ++ b := by
  unfold ResponseWriter.Write ResponseWriter.WriteHeader
  cases w.status <;> rfl

theorem statusCode_write (w : ResponseWriter) (b : Bytes) (h : w.status = none) :
    (w.Write b).statusCode = 200 := by
  simp [ResponseWriter.Write, ResponseWriter.WriteHeader, ResponseWriter.statusCode, h]

/-- C19: for every product list and every id, the in-memory `deleteProduct` removes
exactly the first product with that id and keeps all the others, later ones with
the same id included, in their order, so the length drops by one; when no product
has the id the list is unchanged. The response is the resulting list: the body
written is the JSON array of its products, each an object with the members `id`,
`name` and `price` in this order, in the order of the list, followed by a newline,
and on a fresh response the status is 200 (for the nil slice the body is `null` and a
newline). -/
theorem deleteProduct_removes_first (id : Bytes) (w : ResponseWriter) (r : Request)
    (l : List MemProduct) :
    (∃ l1, Storage.deleteProduct id w r (some l)
        = .returned (encodeJSON w (MemProduct.jsonSlice (some l1)), some l1)
      ∧ (Storage.deleteProduct id w r (some l)).state.2 = some l1
      ∧ (Storage.deleteProduct id w r (some l)).state.1.body
          = w.body ++ (lit "[" ++ List.intercalate (lit ",")
              (l1.map fun p => lit "\x7b\"id\":" ++ appendString p.ID ++ lit ",\"name\":"
                ++ appendString p.Name ++ lit ",\"price\":" ++ formatInt p.Price ++ lit "\x7d")
              ++ lit "]" ++ [0x0A])
      ∧ (w.status = none → (Storage.deleteProduct id w r (some l)).state.1.statusCode = 200)
      ∧ ((∃ pre x post, l = pre ++ x :: post ∧ x.ID = id ∧ (∀ p ∈ pre, p.ID ≠ id)
            ∧ l1 = pre ++ post ∧ l1.length + 1 = l.length)
          ∨ ((∀ p ∈ l, p.ID ≠ id) ∧ l1 = l)))
    ∧ Storage.deleteProduct id w r none = .returned (encodeJSON w (lit "null"), none)
    ∧ (Storage.deleteProduct id w r none).state.1.body = w.body ++ lit "null\n" := by
  refine ⟨⟨Storage.deleteLoop id l 0 l, rfl, rfl, ?_, ?_, ?_⟩, rfl, ?_⟩
  · simp only [Storage.deleteProduct, Option.map_some', Outcome.state, encodeJSON, body_write,
      MemProduct.jsonSlice]
    rfl
  · intro hw
    exact statusCode_write w _ hw
  · rcases Storage.deleteLoop_spec id l [] (by simp) with
      ⟨pre, x, post, h1, h2, h3, h4⟩ | ⟨h1, h2⟩
    · left
      simp only [List.nil_append, List.length_nil] at h1 h4
      refine ⟨pre, x, post, h1, h2, h3, h4, ?_⟩
      rw [h4, h1]
      simp only [List.length_append, List.length_cons]
      omega
    · right
      simp only [List.nil_append, List.length_nil] at h1 h2
      exact ⟨h1, h2⟩
  · simp only [Storage.deleteProduct, Option.map_none', Outcome.state, encodeJSON, body_write]
    rfl

/-- C19 at three products of which the second and the third have the id "a": the
second goes, the response is the array of the first and the third; with the id "zz"
the response is the array of all three. -/
theorem deleteProduct_removes_first_witness :
    (Storage.deleteProduct (lit "a") ResponseWriter.fresh sampleRequest
        (some sampleProducts)).state.2
      = some [{ ID := lit "b", Name := lit "pen", Price := 2 },
          { ID := lit "a", Name := lit "cap", Price := 1 }]
    ∧ (Storage.deleteProduct (lit "a") ResponseWriter.fresh sampleRequest
        (some sampleProducts)).state.1.body
      = lit "[\x7b\"id\":\"b\",\"name\":\"pen\",\"price\":2\x7d,\x7b\"id\":\"a\",\"name\":\"cap\",\"price\":1\x7d]\n"
    ∧ (Storage.deleteProduct (lit "a") ResponseWriter.fresh sampleRequest
        (some sampleProducts)).state.1.statusCode = 200
    ∧ (Storage.deleteProduct (lit "zz") ResponseWriter.fresh sampleRequest
        (some sampleProducts)).state.1.body
      = lit "[\x7b\"id\":\"b\",\"name\":\"pen\",\"price\":2\x7d,\x7b\"id\":\"a\",\"name\":\"ink\",\"price\":3\x7d,\x7b\"id\":\"a\",\"name\":\"cap\",\"price\":1\x7d]\n" := by
  obtain ⟨⟨l1, _, hs, hb, hst, _⟩, _, _⟩ :=
    deleteProduct_removes_first (lit "a") ResponseWriter.fresh sampleRequest sampleProducts
  have h2 : (Storage.deleteProduct (lit "a") ResponseWriter.fresh sampleRequest
      (some sampleProducts)).state.2
      = some [{ ID := lit "b", Name := lit "pen", Price := 2 },
          { ID := lit "a", Name := lit "cap", Price := 1 }] := by decide
  have hl : l1 = [{ ID := lit "b", Name := lit "pen", Price := 2 },
      { ID := lit "a", Name := lit "cap", Price := 1 }] :=
    Option.some.inj (hs.symm.trans h2)
  subst hl
  refine ⟨h2, ?_, hst rfl, ?_⟩
  · rw [hb]
    decide
  · decide

/-- C20: for every product list, id and body, the in-memory `updateProduct`, when
some product has the id, removes the first such product and appends the decoded
product with its ID set to the id (whatever id the body carries), so the length is
kept, and responds with that product; when no product has the id the list is
unchanged and the response is `null` and a newline. -/
theorem updateProduct_replaces_first (decode : Bytes → MemProduct) (id : Bytes)
    (w : ResponseWriter) (r : Request) (l : List MemProduct) :
    ((∃ p ∈ l, p.ID = id) →
      ∃ pre x post, l = pre ++ x :: post ∧ x.ID = id ∧ (∀ p ∈ pre, p.ID ≠ id)
        ∧ Storage.updateProduct decode id w r (some l)
          = .returned (encodeJSON w ({ decode r.Body with ID := id } : MemProduct).json,
              some (pre ++ post ++ [{ decode r.Body with ID := id }]))
        ∧ (pre ++ post ++ [({ decode r.Body with ID := id } : MemProduct)]).length = l.length)
    ∧ ((∀ p ∈ l, p.ID ≠ id) →
        Storage.updateProduct decode id w r (some l) = .returned (encodeJSON w (lit "null"), some l))
    ∧ Storage.updateProduct decode id w r none = .returned (encodeJSON w (lit "null"), none)
    ∧ (encodeJSON ResponseWriter.fresh (lit "null")).body = lit "null\n" := by
  have hspec := Storage.updateLoop_spec decode id r.Body l [] (by simp)
  simp only [List.nil_append, List.length_nil] at hspec
  refine ⟨?_, ?_, rfl, rfl⟩
  · rintro ⟨p, hp, hpid⟩
    rcases hspec with ⟨pre, x, post, h1, h2, h3, h4⟩ | ⟨h1, _⟩
    · refine ⟨pre, x, post, h1, h2, h3, ?_, ?_⟩
      · simp only [Storage.updateProduct, Option.getD_some, h4]
      · rw [h1]; simp
    · exact absurd hpid (h1 p hp)
  · intro hno
    rcases hspec with ⟨pre, x, post, h1, h2, _, _⟩ | ⟨_, h2⟩
    · exact absurd h2 (hno x (by rw [h1]; simp))
    · simp only [Storage.updateProduct, Option.getD_some, h2]

/-- C20 at three products of which two have the id "a": the first of them goes, the
decoded product is appended under the id "a" although the body says "body-id"; with
the id "zz" nothing changes and the response is `null`. -/
theorem updateProduct_replaces_first_witness :
    (Storage.updateProduct sampleDecode (lit "a") ResponseWriter.fresh
        { sampleRequest with Body := lit "nib" } (some sampleProducts)).state.2
      = some [{ ID := lit "b", Name := lit "pen", Price := 2 },
          { ID := lit "a", Name := lit "cap", Price := 1 },
          { ID := lit "a", Name := lit "nib", Price := 5 }]
    ∧ Storage.updateProduct sampleDecode (lit "zz") ResponseWriter.fresh
        { sampleRequest with Body := lit "nib" } (some sampleProducts)
      = .returned (encodeJSON ResponseWriter.fresh (lit "null"), some sampleProducts) := by
  have h := updateProduct_replaces_first sampleDecode (lit "zz") ResponseWriter.fresh
    { sampleRequest with Body := lit "nib" } sampleProducts
  exact ⟨by decide, h.2.1 (by decide)⟩

/-! ### Greeting service -/

/-- A format without a percent sign is written as it is. -/
theorem doPrintf_plain (fuel : Nat) : ∀ format : Bytes, format.length ≤ fuel →
    (∀ c ∈ format, c ≠ 0x25) → doPrintf fuel format = format := by
  induction fuel with
  | zero =>
    intro format h _
    rw [length_zero_of_le h]
    rfl
  | succ fuel ih =>
    intro format h hp
    rcases format with _ | ⟨c, t⟩
    · rfl
    · have hc := hp c (List.mem_cons_self _ _)
      simp only [doPrintf, hc, ne_eq, not_false_eq_true, if_true]
      rw [ih t (by simpa using h) (fun x hx => hp x (List.mem_cons_of_mem _ hx))]

/-- The greeting for a name without a percent sign is written as computed: for every
non-empty name that holds no `%` the body is `"Hello, " ++ name ++ "!"`, and for an
absent or empty name it is `"Hello, Guest!"`. -/
theorem greetHandler_plain_name {σ : Type} (query : Values) (r : Request) (s : σ) :
    (Values.Get query (lit "name") = [] →
      (greetHandler query ResponseWriter.fresh r s).state.1.body = lit "Hello, Guest!")
    ∧ (Values.Get query (lit "name") ≠ [] → (∀ c ∈ Values.Get query (lit "name"), c ≠ 0x25) →
      (greetHandler query ResponseWriter.fresh r s).state.1.body
        = lit "Hello, " ++ Values.Get query (lit "name") ++ lit "!") := by
  constructor
  · intro h
    simp only [greetHandler, h, if_true, Outcome.state, Fprintf]
    decide
  · intro h hp
    simp only [greetHandler, h, if_false, Outcome.state, Fprintf]
    rw [doPrintf_plain _ _ (le_refl _)]
    · simp [ResponseWriter.Write, ResponseWriter.WriteHeader, ResponseWriter.fresh]
    · intro c hc
      simp only [List.mem_append] at hc
      rcases hc with (hc | hc) | hc
      · revert c; decide
      · exact hp c hc
      · revert c; decide

/-- C18 (code evaluated at the failing input): `greetHandler` passes the greeting to
`Fprintf` as the format, so a percent sign in the name starts a verb. For the name
`100%` the body is `Hello, 100%!!(MISSING)` and not `Hello, 100%!`; for `%d` it is
`Hello, %!d(MISSING)!`; for `50%%` it is `Hello, 50%!`. Without a name, with the
empty name and with the name `Ann` the body is the greeting itself. -/
theorem greeting_used_as_format :
    (greetHandler [(lit "name", [lit "100%"])] ResponseWriter.fresh sampleRequest ()).state.1.body
      = lit "Hello, 100%!!(MISSING)"
    ∧ (greetHandler [(lit "name", [lit "100%"])] ResponseWriter.fresh sampleRequest ()).state.1.body
      ≠ lit "Hello, " ++ lit "100%" ++ lit "!"
    ∧ (greetHandler [(lit "name", [lit "%d"])] ResponseWriter.fresh sampleRequest ()).state.1.body
      = lit "Hello, %!d(MISSING)!"
    ∧ (greetHandler [(lit "name", [lit "50%%"])] ResponseWriter.fresh sampleRequest ()).state.1.body
      = lit "Hello, 50%!"
    ∧ (greetHandler [] ResponseWriter.fresh sampleRequest ()).state.1.body = lit "Hello, Guest!"
    ∧ (greetHandler [(lit "name", [[]])] ResponseWriter.fresh sampleRequest ()).state.1.body
      = lit "Hello, Guest!"
    ∧ (greetHandler [(lit "name", [lit "Ann"])] ResponseWriter.fresh sampleRequest ()).state.1.body
      = lit "Hello, Ann!" := by
  decide

/-! ### CRUD handlers and the query histogram -/

/-- The handlers of service 2 observe each statement they issue. -/
theorem observesStatements_products (db : ProductDb) :
    ObservesOneStatement (getProducts true db)
    ∧ ObservesStatements (getProduct true db)
    ∧ ObservesStatements (createProduct true db)
    ∧ ObservesStatements (updateProduct true db)
    ∧ ObservesStatements (deleteProduct true db) := by
  refine ⟨?_, ?_, ?_, ?_, ?_⟩
  · intro w r s
    unfold getProducts
    dsimp only
    split <;> exact ⟨_, _, rfl, rfl⟩
  · intro w r s
    unfold getProduct
    dsimp only
    repeat' split
    all_goals first
      | exact Or.inl ⟨rfl, rfl⟩
      | exact Or.inr ⟨_, _, rfl, rfl⟩
  · intro w r s
    unfold createProduct
    dsimp only
    repeat' split
    all_goals first
      | exact Or.inl ⟨rfl, rfl⟩
      | exact Or.inr ⟨_, _, rfl, rfl⟩
  · intro w r s
    unfold updateProduct
    dsimp only
    repeat' split
    all_goals first
      | exact Or.inl ⟨rfl, rfl⟩
      | exact Or.inr ⟨_, _, rfl, rfl⟩
  · intro w r s
    unfold deleteProduct
    dsimp only
    repeat' split
    all_goals first
      | exact Or.inl ⟨rfl, rfl⟩
      | exact Or.inr ⟨_, _, rfl, rfl⟩

/-- The handlers of service 1 observe each statement they issue. -/
theorem observesStatements_users (env : Backend) (db : UserDb) :
    ObservesOneStatement (getUsers db)
    ∧ ObservesStatements (getUser true env)
    ∧ ObservesStatements (createUser true db)
    ∧ ObservesStatements (updateUser true db)
    ∧ ObservesStatements (deleteUser true db)
    ∧ ObservesStatements (getLastOrderedProduct true env) := by
  refine ⟨?_, ?_, ?_, ?_, ?_, ?_⟩
  · intro w r s
    unfold getUsers
    dsimp only
    split <;> exact ⟨_, _, rfl, rfl⟩
  · intro w r s
    unfold getUser
    dsimp only
    repeat' split
    all_goals first
      | exact Or.inl ⟨rfl, rfl⟩
      | exact Or.inr ⟨_, _, rfl, rfl⟩
  · intro w r s
    unfold createUser
    dsimp only
    repeat' split
    all_goals first
      | exact Or.inl ⟨rfl, rfl⟩
      | exact Or.inr ⟨_, _, rfl, rfl⟩
  · intro w r s
    unfold updateUser
    dsimp only
    repeat' split
    all_goals first
      | exact Or.inl ⟨rfl, rfl⟩
      | exact Or.inr ⟨_, _, rfl, rfl⟩
  · intro w r s
    unfold deleteUser
    dsimp only
    repeat' split
    all_goals first
      | exact Or.inl ⟨rfl, rfl⟩
      | exact Or.inr ⟨_, _, rfl, rfl⟩
  · intro w r s
    unfold getLastOrderedProduct
    dsimp only
    repeat' split
    all_goals first
      | exact Or.inl ⟨rfl, rfl⟩
      | exact Or.inr ⟨_, _, rfl, rfl⟩

/-- The status after `WriteHeader` and `Write` on a fresh writer. -/
theorem statusCode_writeHeader_write (w : ResponseWriter) (code : Nat) (b : Bytes)
    (h : w.status = none) : ((w.WriteHeader code).Write b).statusCode = code := by
  simp [ResponseWriter.WriteHeader, ResponseWriter.Write, ResponseWriter.statusCode, h]

/-- The status after a JSON response on a fresh writer. -/
theorem statusCode_encodeJSON (w : ResponseWriter) (k v : String) (b : Bytes)
    (h : w.status = none) : (encodeJSON (w.setHeader k v) b).statusCode = 200 := by
  simp [encodeJSON, ResponseWriter.setHeader, ResponseWriter.WriteHeader, ResponseWriter.Write,
    ResponseWriter.statusCode, h]

/-- The handlers of service 2 reject before they reach the database. -/
theorem rejects_products (db : ProductDb) :
    RejectsBeforeDatabase (getProduct true db)
    ∧ RejectsBeforeDatabase (createProduct true db)
    ∧ RejectsBeforeDatabase (updateProduct true db)
    ∧ RejectsBeforeDatabase (deleteProduct true db) := by
  refine ⟨?_, ?_, ?_, ?_⟩
  · intro w r s hw
    unfold getProduct
    dsimp only
    repeat' split
    all_goals simp [Outcome.state, statusCode_writeHeader_write, statusCode_encodeJSON, hw]
  · intro w r s hw
    unfold createProduct
    dsimp only
    repeat' split
    all_goals simp [Outcome.state, statusCode_writeHeader_write, statusCode_encodeJSON, hw]
  · intro w r s hw
    unfold updateProduct
    dsimp only
    repeat' split
    all_goals simp [Outcome.state, statusCode_writeHeader_write, statusCode_encodeJSON, hw]
  · intro w r s hw
    unfold deleteProduct
    dsimp only
    repeat' split
    all_goals simp [Outcome.state, statusCode_writeHeader_write, statusCode_encodeJSON, hw]

/-- The handlers of service 1 reject before they reach the database. -/
theorem rejects_users (env : Backend) (db : UserDb) :
    RejectsBeforeDatabase (getUser true env)
    ∧ RejectsBeforeDatabase (createUser true db)
    ∧ RejectsBeforeDatabase (updateUser true db)
    ∧ RejectsBeforeDatabase (deleteUser true db)
    ∧ RejectsBeforeDatabase (getLastOrderedProduct true env) := by
  refine ⟨?_, ?_, ?_, ?_, ?_⟩
  · intro w r s hw
    unfold getUser
    dsimp only
    repeat' split
    all_goals simp [Outcome.state, statusCode_writeHeader_write, statusCode_encodeJSON, hw]
  · intro w r s hw
    unfold createUser
    dsimp only
    repeat' split
    all_goals simp [Outcome.state, statusCode_writeHeader_write, statusCode_encodeJSON, hw]
  · intro w r s hw
    unfold updateUser
    dsimp only
    repeat' split
    all_goals simp [Outcome.state, statusCode_writeHeader_write, statusCode_encodeJSON, hw]
  · intro w r s hw
    unfold deleteUser
    dsimp only
    repeat' split
    all_goals simp [Outcome.state, statusCode_writeHeader_write, statusCode_encodeJSON, hw]
  · intro w r s hw
    unfold getLastOrderedProduct
    dsimp only
    repeat' split
    all_goals simp [Outcome.state, statusCode_writeHeader_write, statusCode_encodeJSON, hw,
      encodeString, ResponseWriter.setHeader, ResponseWriter.Write, ResponseWriter.WriteHeader,
      ResponseWriter.statusCode]

/-- The handlers of service 2 issue one statement unless they reject the request. -/
theorem reaches_products (db : ProductDb) :
    ReachesDatabaseOtherwise (getProduct true db)
    ∧ ReachesDatabaseOtherwise (createProduct true db)
    ∧ ReachesDatabaseOtherwise (updateProduct true db)
    ∧ ReachesDatabaseOtherwise (deleteProduct true db) := by
  refine ⟨?_, ?_, ?_, ?_⟩
  · intro w r s hw
    unfold getProduct
    dsimp only
    repeat' split
    all_goals first
      | exact fun _ _ => ⟨_, _, rfl, rfl⟩
      | simp [Outcome.state, statusCode_writeHeader_write, statusCode_encodeJSON, hw]
  · intro w r s hw
    unfold createProduct
    dsimp only
    repeat' split
    all_goals first
      | exact fun _ _ => ⟨_, _, rfl, rfl⟩
      | simp [Outcome.state, statusCode_writeHeader_write, statusCode_encodeJSON, hw]
  · intro w r s hw
    unfold updateProduct
    dsimp only
    repeat' split
    all_goals first
      | exact fun _ _ => ⟨_, _, rfl, rfl⟩
      | simp [Outcome.state, statusCode_writeHeader_write, statusCode_encodeJSON, hw]
  · intro w r s hw
    unfold deleteProduct
    dsimp only
    repeat' split
    all_goals first
      | exact fun _ _ => ⟨_, _, rfl, rfl⟩
      | simp [Outcome.state, statusCode_writeHeader_write, statusCode_encodeJSON, hw]

/-- The handlers of service 1 issue one statement unless they reject the request. -/
theorem reaches_users (env : Backend) (db : UserDb) :
    ReachesDatabaseOtherwise (getUser true env)
    ∧ ReachesDatabaseOtherwise (createUser true db)
    ∧ ReachesDatabaseOtherwise (updateUser true db)
    ∧ ReachesDatabaseOtherwise (deleteUser true db)
    ∧ ReachesDatabaseOtherwise (getLastOrderedProduct true env) := by
  refine ⟨?_, ?_, ?_, ?_, ?_⟩
  · intro w r s hw
    unfold getUser
    dsimp only
    repeat' split
    all_goals first
      | exact fun _ _ => ⟨_, _, rfl, rfl⟩
      | simp [Outcome.state, statusCode_writeHeader_write, statusCode_encodeJSON, hw]
  · intro w r s hw
    unfold createUser
    dsimp only
    repeat' split
    all_goals first
      | exact fun _ _ => ⟨_, _, rfl, rfl⟩
      | simp [Outcome.state, statusCode_writeHeader_write, statusCode_encodeJSON, hw]
  · intro w r s hw
    unfold updateUser
    dsimp only
    repeat' split
    all_goals first
      | exact fun _ _ => ⟨_, _, rfl, rfl⟩
      | simp [Outcome.state, statusCode_writeHeader_write, statusCode_encodeJSON, hw]
  · intro w r s hw
    unfold deleteUser
    dsimp only
    repeat' split
    all_goals first
      | exact fun _ _ => ⟨_, _, rfl, rfl⟩
      | simp [Outcome.state, statusCode_writeHeader_write, statusCode_encodeJSON, hw]
  · intro w r s hw
    unfold getLastOrderedProduct
    dsimp only
    repeat' split
    all_goals first
      | exact fun _ _ => ⟨_, _, rfl, rfl⟩
      | simp [Outcome.state, statusCode_writeHeader_write, statusCode_encodeJSON, hw,
          encodeString, ResponseWriter.setHeader, ResponseWriter.Write,
          ResponseWriter.WriteHeader, ResponseWriter.statusCode]

/-- C12: in the `6_monitoring` services every CRUD handler, on every execution path
and whatever the database answers (rows, no rows, or an error), adds as many
observations to `db_query_duration_seconds` as it issues statements: none or one;
`getProducts` and `getUsers` always issue one; a request rejected with status 400
issued none; and a call that returns with any other status issued exactly one. -/
theorem crud_handlers_observe_statements (env : Backend) (udb : UserDb) (pdb : ProductDb) :
    (ObservesOneStatement (getProducts true pdb)
      ∧ ObservesStatements (getProduct true pdb)
      ∧ ObservesStatements (createProduct true pdb)
      ∧ ObservesStatements (updateProduct true pdb)
      ∧ ObservesStatements (deleteProduct true pdb))
    ∧ (ObservesOneStatement (getUsers udb)
      ∧ ObservesStatements (getUser true env)
      ∧ ObservesStatements (createUser true udb)
      ∧ ObservesStatements (updateUser true udb)
      ∧ ObservesStatements (deleteUser true udb)
      ∧ ObservesStatements (getLastOrderedProduct true env))
    ∧ (RejectsBeforeDatabase (getProduct true pdb)
      ∧ RejectsBeforeDatabase (createProduct true pdb)
      ∧ RejectsBeforeDatabase (updateProduct true pdb)
      ∧ RejectsBeforeDatabase (deleteProduct true pdb))
    ∧ (RejectsBeforeDatabase (getUser true env)
      ∧ RejectsBeforeDatabase (createUser true udb)
      ∧ RejectsBeforeDatabase (updateUser true udb)
      ∧ RejectsBeforeDatabase (deleteUser true udb)
      ∧ RejectsBeforeDatabase (getLastOrderedProduct true env))
    ∧ (ReachesDatabaseOtherwise (getProduct true pdb)
      ∧ ReachesDatabaseOtherwise (createProduct true pdb)
      ∧ ReachesDatabaseOtherwise (updateProduct true pdb)
      ∧ ReachesDatabaseOtherwise (deleteProduct true pdb))
    ∧ (ReachesDatabaseOtherwise (getUser true env)
      ∧ ReachesDatabaseOtherwise (createUser true udb)
      ∧ ReachesDatabaseOtherwise (updateUser true udb)
      ∧ ReachesDatabaseOtherwise (deleteUser true udb)
      ∧ ReachesDatabaseOtherwise (getLastOrderedProduct true env)) :=
  ⟨observesStatements_products pdb, observesStatements_users env udb, rejects_products pdb,
    rejects_users env udb, reaches_products pdb, reaches_users env udb⟩

/-- C12 at concrete requests to `createProduct`: a body that does not decode is
rejected with no statement and no observation; a valid body whose insert fails
leaves one statement and one observation. -/
theorem crud_handlers_observe_statements_witness :
    ((createProduct true sampleProductDb ResponseWriter.fresh
        { sampleRequest with Body := lit "bad" } Sys.init).state.2.statements = []
      ∧ (createProduct true sampleProductDb ResponseWriter.fresh
        { sampleRequest with Body := lit "bad" } Sys.init).state.2.dbQueryDuration = [])
    ∧ (createProduct true sampleProductDb ResponseWriter.fresh
        { sampleRequest with Body := lit "pen" } Sys.init).state.1.statusCode = 500
    ∧ (createProduct true sampleProductDb ResponseWriter.fresh
        { sampleRequest with Body := lit "pen" } Sys.init).state.2.statements.length = 1
    ∧ (createProduct true sampleProductDb ResponseWriter.fresh
        { sampleRequest with Body := lit "pen" } Sys.init).state.2.dbQueryDuration = [7] :=
  ⟨(crud_handlers_observe_statements (sampleBackend (.err [])) sampleUserDb
      sampleProductDb).2.2.1.2.1 ResponseWriter.fresh { sampleRequest with Body := lit "bad" }
      Sys.init rfl (by decide),
    by decide, by decide, by decide⟩

/-! ### Fatal startup errors -/

theorem parseDigits_foldl_none (l : Bytes) :
    l.foldl (fun acc ch => acc.bind fun n =>
      if 0x30 ≤ ch ∧ ch ≤ 0x39 then some (n * 10 + (ch - 0x30)) else none) (none : Option Nat)
      = none := by
  induction l with
  | nil => rfl
  | cons a l ih => simpa using ih

theorem parseDigits_foldl_not_all (l : Bytes) (acc : Option Nat)
    (h : (l.all fun ch => decide (0x30 ≤ ch) && decide (ch ≤ 0x39)) = false) :
    l.foldl (fun acc ch => acc.bind fun n =>
      if 0x30 ≤ ch ∧ ch ≤ 0x39 then some (n * 10 + (ch - 0x30)) else none) acc = none := by
  induction l generalizing acc with
  | nil => simp at h
  | cons a l ih =>
    rw [List.foldl_cons]
    by_cases ha : 0x30 ≤ a ∧ a ≤ 0x39
    · apply ih
      simp only [List.all_cons, Bool.and_eq_false_iff] at h
      rcases h with h | h
      · simp [ha.1, ha.2] at h
      · exact h
    · cases acc with
      | none => exact parseDigits_foldl_none l
      | some n =>
        simp only [Option.bind, ha, if_false]
        exact parseDigits_foldl_none l

theorem parseDigits_not_all (l : Bytes)
    (h : (l.all fun ch => decide (0x30 ≤ ch) && decide (ch ≤ 0x39)) = false) :
    parseDigits l = none := parseDigits_foldl_not_all l (some 0) h

theorem Atoi_none_of_not_decimal (s : Bytes) (h : isDecimalInteger s = false) :
    Atoi s = none := by
  cases s with
  | nil => rfl
  | cons c t =>
    simp only [isDecimalInteger, Bool.and_eq_false_iff, Bool.not_eq_false_eq_eq_true,
      List.isEmpty_iff] at h
    simp only [Atoi]
    rcases h with h | h
    · simp [h]
    · by_cases hc : c = 45 ∨ c = 43
      · simp only [hc, if_true] at h ⊢
        rw [parseDigits_not_all _ h]
        simp
      · simp only [hc, if_false] at h ⊢
        rw [parseDigits_not_all _ h]
        simp

theorem Proc.listenAndServe_exited (p : Proc) (addr : String)
    (hits : List (String × Surroundings × Request)) (err : Bytes) (h : p.exitCode = some 1) :
    p.listenAndServe addr hits err = p := by
  simp [Proc.listenAndServe, h]

theorem connect_invalid_port (env : MainEnv) (h : Atoi env.DB_PORT = none) :
    Monitoring.connect env = Proc.start.logFatal .fatalInvalidPort := by
  simp [Monitoring.connect, h]

theorem connect_open_failed (env : MainEnv) (port : Int) (e : Bytes)
    (h1 : Atoi env.DB_PORT = some port)
    (h2 : env.sqlOpen (dbInfo env env.DB_USER env.DB_PASSWORD port) = some e) :
    Monitoring.connect env =
      (Proc.start.emit (.println (dbInfo env env.DB_USER env.DB_PASSWORD port))).logFatal
        (.fatal e) := by
  simp [Monitoring.connect, h1, h2]

theorem mains_of_connect_exited (env : MainEnv) (hits : List (String × Surroundings × Request))
    (err : Bytes) (h : (Monitoring.connect env).exitCode = some 1) :
    Monitoring.Service1.main env hits err = Monitoring.connect env ∧
    Monitoring.Service2.main env hits err = Monitoring.connect env := by
  have h1 : Monitoring.Service1.setup env = Monitoring.connect env := by
    simp [Monitoring.Service1.setup, h]
  have h2 : Monitoring.Service2.setup env = Monitoring.connect env := by
    simp [Monitoring.Service2.setup, h]
  simp only [Monitoring.Service1.main, Monitoring.Service2.main, h1, h2]
  exact ⟨Proc.listenAndServe_exited _ _ _ _ h, Proc.listenAndServe_exited _ _ _ _ h⟩

/-- C16: when `DB_PORT` is not a decimal integer (or `strconv.Atoi` rejects it for
another reason), or `sql.Open` returns an error, `main` of both services of
`6_monitoring` ends the process with exit code 1 with the service state untouched
(the gauge `db_connections` still 0), no route registered and nothing served; all it
has done is, at most, print the data source name before the fatal message: no
increment of the gauge, no Kafka writer, no `http.Handle`, no `ListenAndServe`. -/
theorem startup_aborts_before_resources (env : MainEnv)
    (hits : List (String × Surroundings × Request)) (err : Bytes)
    (h : isDecimalInteger env.DB_PORT = false ∨ Atoi env.DB_PORT = none ∨
      ∃ port e, Atoi env.DB_PORT = some port ∧
        env.sqlOpen (dbInfo env env.DB_USER env.DB_PASSWORD port) = some e) :
    ∀ p ∈ [Monitoring.Service1.main env hits err, Monitoring.Service2.main env hits err],
      p.exitCode = some 1 ∧ p.service = Service.init ∧ p.routes = [] ∧ p.responses = [] ∧
      (p.trace = [.fatalInvalidPort] ∨
        ∃ port e, p.trace = [.println (dbInfo env env.DB_USER env.DB_PASSWORD port), .fatal e]) ∧
      ∀ e ∈ p.trace, e ≠ .gaugeInc ∧ (∀ b t, e ≠ .newKafkaWriter b t) ∧
        (∀ pat, e ≠ .handle pat) ∧ ∀ a, e ≠ .listenAndServe a := by
  have key : (Monitoring.connect env = Proc.start.logFatal .fatalInvalidPort) ∨
      ∃ port e, Monitoring.connect env =
        (Proc.start.emit (.println (dbInfo env env.DB_USER env.DB_PASSWORD port))).logFatal
          (.fatal e) := by
    rcases h with h | h | ⟨port, e, h1, h2⟩
    · exact Or.inl (connect_invalid_port env (Atoi_none_of_not_decimal _ h))
    · exact Or.inl (connect_invalid_port env h)
    · exact Or.inr ⟨port, e, connect_open_failed env port e h1 h2⟩
  have hex : (Monitoring.connect env).exitCode = some 1 := by
    rcases key with k | ⟨port, e, k⟩ <;> rw [k] <;> rfl
  obtain ⟨m1, m2⟩ := mains_of_connect_exited env hits err hex
  intro p hp
  have hp2 : p = Monitoring.connect env := by
    simp only [List.mem_cons, List.mem_singleton, List.not_mem_nil, or_false] at hp
    rcases hp with hp | hp
    · rw [hp, m1]
    · rw [hp, m2]
  subst hp2
  rcases key with k | ⟨port, e, k⟩
  · rw [k]
    refine ⟨rfl, rfl, rfl, rfl, Or.inl rfl, ?_⟩
    intro e he
    simp only [Proc.logFatal, Proc.start, List.nil_append, List.mem_singleton] at he
    subst he
    simp
  · rw [k]
    refine ⟨rfl, rfl, rfl, rfl, Or.inr ⟨port, e, rfl⟩, ?_⟩
    intro e he
    simp only [Proc.logFatal, Proc.emit, Proc.start, List.nil_append, List.cons_append,
      List.mem_cons, List.mem_singleton, List.not_mem_nil, or_false] at he
    rcases he with he | he <;> subst he <;> simp

theorem startup_aborts_before_resources_witness :
    isDecimalInteger (lit "54x2") = false ∧
    (Monitoring.Service2.main (sampleMainEnv (lit "54x2") none)
      [("/products", sampleSurroundings, sampleRequest)] (lit "closed")).exitCode = some 1 ∧
    (Monitoring.Service2.main (sampleMainEnv (lit "54x2") none)
      [("/products", sampleSurroundings, sampleRequest)] (lit "closed")).service
      = Service.init :=
  have h := startup_aborts_before_resources (sampleMainEnv (lit "54x2") none)
    [("/products", sampleSurroundings, sampleRequest)] (lit "closed") (Or.inl (by decide))
    _ (List.mem_cons_of_mem _ (List.mem_singleton.mpr rfl))
  ⟨by decide, h.1, h.2.1⟩

/-! ### Routes registered by main and the connection gauge -/

theorem notify_calls (e : Option Bytes) (r : Request) (kw : KafkaWriter) :
    (notifyBroker jsonMarshal e r kw).calls
      = kw.calls ++ [[{ Value := (jsonMarshal (logData r)).getD [] }]] := by
  simp [notifyBroker, KafkaWriter.WriteMessages]

theorem instrument_effect (inner : Surroundings → Handler Sys) (e : Surroundings)
    (w : ResponseWriter) (r : Request) (sv : Service) :
    (instrument inner e w r sv).state.2.dbConnections = sv.dbConnections ∧
    (instrument inner e w r sv).state.2.telemetry.httpRequestsTotal
      = sv.telemetry.httpRequestsTotal + 1 ∧
    (instrument inner e w r sv).state.2.kafka.calls
      = sv.kafka.calls ++ [[{ Value := (jsonMarshal (logData r)).getD [] }]] ∧
    ((∃ x, instrument inner e w r sv = .returned x) →
      (instrument inner e w r sv).state.2.telemetry.httpRequestDuration.length
        = sv.telemetry.httpRequestDuration.length + 1) ∧
    ((∃ x, instrument inner e w r sv = .panicked x) →
      (instrument inner e w r sv).state.2.telemetry.httpRequestDuration
        = sv.telemetry.httpRequestDuration) := by
  simp only [instrument, serve, logRequests]
  cases hn : inner e w r sv.sys <;>
    simp [Outcome.state, notify_calls]

theorem metricsRoute_effect (e : Surroundings) (w : ResponseWriter) (r : Request)
    (sv : Service) : (metricsRoute e w r sv).state.2 = sv := rfl

theorem instrument_keeps (inner : Surroundings → Handler Sys) :
    Route.KeepsMetrics (instrument inner) := fun e w r sv =>
  ⟨(instrument_effect inner e w r sv).1, by rw [(instrument_effect inner e w r sv).2.1]; omega⟩

theorem metricsRoute_keeps : Route.KeepsMetrics metricsRoute := fun _ _ _ _ =>
  ⟨rfl, Nat.le_refl _⟩

theorem opens_iff (env : MainEnv) :
    env.opens = true ↔ ∃ port, Atoi env.DB_PORT = some port ∧
      env.sqlOpen (dbInfo env env.DB_USER env.DB_PASSWORD port) = none := by
  unfold MainEnv.opens
  cases h : Atoi env.DB_PORT with
  | none => simp
  | some port => simp [Option.isNone_iff_eq_none]

theorem connect_opened (env : MainEnv) (port : Int) (h1 : Atoi env.DB_PORT = some port)
    (h2 : env.sqlOpen (dbInfo env env.DB_USER env.DB_PASSWORD port) = none) :
    Monitoring.connect env =
      { service := { Service.init with dbConnections := 1 }, routes := [],
        deferred := [[.gaugeDec, .dbClose]],
        trace := [.println (dbInfo env env.DB_USER env.DB_PASSWORD port), .gaugeInc],
        responses := [], exitCode := none } := by
  simp [Monitoring.connect, h1, h2, Proc.start, Proc.emit, Service.init]

theorem connect_not_opened (env : MainEnv) (h : env.opens = false) :
    (Monitoring.connect env).exitCode = some 1 ∧
    (Monitoring.connect env).service = Service.init ∧
    (Monitoring.connect env).deferred = [] ∧
    MainEvent.gaugeInc ∉ (Monitoring.connect env).trace ∧
    MainEvent.gaugeDec ∉ (Monitoring.connect env).trace := by
  unfold MainEnv.opens at h
  cases h1 : Atoi env.DB_PORT with
  | none => simp [Monitoring.connect, h1, Proc.logFatal, Proc.start]
  | some port =>
    rw [h1] at h
    cases h2 : env.sqlOpen (dbInfo env env.DB_USER env.DB_PASSWORD port) with
    | none => simp [h2] at h
    | some e => simp [Monitoring.connect, h1, h2, Proc.logFatal, Proc.start, Proc.emit]

theorem serveRequest_fields (p : Proc) (hit : String × Surroundings × Request) :
    (p.serveRequest hit).routes = p.routes ∧ (p.serveRequest hit).trace = p.trace ∧
    (p.serveRequest hit).deferred = p.deferred ∧ (p.serveRequest hit).exitCode = p.exitCode := by
  unfold Proc.serveRequest
  split <;> simp

theorem lookup_mem {α : Type} (l : List (String × α)) (k : String) (v : α)
    (h : l.lookup k = some v) : (k, v) ∈ l := by
  induction l with
  | nil => simp at h
  | cons a l ih =>
    obtain ⟨k2, v2⟩ := a
    rw [List.lookup_cons] at h
    by_cases hk : k = k2
    · subst hk
      simp at h
      subst h
      exact List.mem_cons_self _ _
    · have : (k == k2) = false := by simpa using hk
      rw [this] at h
      exact List.mem_cons_of_mem _ (ih h)

theorem serveRequest_keeps (p : Proc) (hit : String × Surroundings × Request)
    (h : ∀ pr ∈ p.routes, Route.KeepsMetrics pr.2) :
    (p.serveRequest hit).service.dbConnections = p.service.dbConnections ∧
    p.service.telemetry.httpRequestsTotal
      ≤ (p.serveRequest hit).service.telemetry.httpRequestsTotal := by
  unfold Proc.serveRequest
  split
  · exact ⟨rfl, Nat.le_refl _⟩
  · next route hr =>
    exact h (hit.1, route) (lookup_mem _ _ _ hr) hit.2.1 ResponseWriter.fresh hit.2.2 p.service

theorem serveAll_keeps (hits : List (String × Surroundings × Request)) (p : Proc)
    (h : ∀ pr ∈ p.routes, Route.KeepsMetrics pr.2) :
    (hits.foldl Proc.serveRequest p).routes = p.routes ∧
    (hits.foldl Proc.serveRequest p).trace = p.trace ∧
    (hits.foldl Proc.serveRequest p).deferred = p.deferred ∧
    (hits.foldl Proc.serveRequest p).exitCode = p.exitCode ∧
    (hits.foldl Proc.serveRequest p).service.dbConnections = p.service.dbConnections ∧
    p.service.telemetry.httpRequestsTotal
      ≤ (hits.foldl Proc.serveRequest p).service.telemetry.httpRequestsTotal := by
  induction hits generalizing p with
  | nil => simp
  | cons hit hits ih =>
    rw [List.foldl_cons]
    obtain ⟨f1, f2, f3, f4⟩ := serveRequest_fields p hit
    obtain ⟨k1, k2⟩ := serveRequest_keeps p hit h
    obtain ⟨i1, i2, i3, i4, i5, i6⟩ := ih (p.serveRequest hit) (by rw [f1]; exact h)
    exact ⟨by rw [i1, f1], by rw [i2, f2], by rw [i3, f3], by rw [i4, f4], by rw [i5, k1],
      Nat.le_trans k2 i6⟩

theorem service2_setup_opened (env : MainEnv) (port : Int) (h1 : Atoi env.DB_PORT = some port)
    (h2 : env.sqlOpen (dbInfo env env.DB_USER env.DB_PASSWORD port) = none) :
    Monitoring.Service2.setup env =
      { service := { Service.init with dbConnections := 1 },
        routes := [("/metrics", metricsRoute),
          ("/products", instrument fun e => productsRoute true e.products),
          ("/products/", instrument fun e => productRoute true e.products)],
        deferred := [[.gaugeDec, .dbClose]],
        trace := [.println (dbInfo env env.DB_USER env.DB_PASSWORD port), .gaugeInc,
          .newKafkaWriter [env.KAFKA_HOST] env.KAFKA_TOPIC, .handle "/metrics",
          .handle "/products", .handle "/products/",
          .logPrintln (lit "Server listening on :8080")],
        responses := [], exitCode := none } := by
  simp [Monitoring.Service2.setup, connect_opened env port h1 h2, Proc.emit, Proc.handle]

theorem service1_setup_opened (env : MainEnv) (port : Int) (h1 : Atoi env.DB_PORT = some port)
    (h2 : env.sqlOpen (dbInfo env env.DB_USER env.DB_PASSWORD port) = none) :
    Monitoring.Service1.setup env =
      { service := { Service.init with dbConnections := 1 },
        routes := [("/metrics", metricsRoute),
          ("/users", instrument fun e => usersRoute e.users),
          ("/users/", instrument fun e => userRoute true e.backend e.users),
          ("/users/product/", instrument fun e => userProductRoute true e.backend)],
        deferred := [[.gaugeDec, .dbClose]],
        trace := [.println (dbInfo env env.DB_USER env.DB_PASSWORD port), .gaugeInc,
          .newKafkaWriter [lit "localhost:9092"] (lit "service-log"), .handle "/metrics",
          .handle "/users", .handle "/users/", .handle "/users/product/"],
        responses := [], exitCode := none } := by
  simp [Monitoring.Service1.setup, connect_opened env port h1 h2, Proc.emit, Proc.handle]

theorem listenAndServe_spec (p : Proc) (addr : String)
    (hits : List (String × Surroundings × Request)) (err : Bytes) (hx : p.exitCode = none)
    (hk : ∀ pr ∈ p.routes, Route.KeepsMetrics pr.2) :
    (p.listenAndServe addr hits err).exitCode = some 1 ∧
    (p.listenAndServe addr hits err).trace = p.trace ++ [.listenAndServe addr, .fatal err] ∧
    (p.listenAndServe addr hits err).deferred = p.deferred ∧
    (p.listenAndServe addr hits err).service.dbConnections = p.service.dbConnections ∧
    ∀ hit, (p.listenAndServe addr hits err).service.telemetry.httpRequestsTotal
      ≤ (p.listenAndServe addr (hits ++ [hit]) err).service.telemetry.httpRequestsTotal := by
  have hk2 : ∀ pr ∈ (p.emit (.listenAndServe addr)).routes, Route.KeepsMetrics pr.2 := hk
  obtain ⟨i1, i2, i3, _, i5, _⟩ := serveAll_keeps hits (p.emit (.listenAndServe addr)) hk2
  simp only [Proc.listenAndServe, hx, Option.isSome_none, Bool.false_eq_true, if_false,
    Proc.logFatal]
  refine ⟨trivial, ?_, ?_, ?_, ?_⟩
  · rw [i2]; simp [Proc.emit]
  · rw [i3]; rfl
  · rw [i5]; rfl
  · intro hit
    rw [List.foldl_append]
    exact (serveRequest_keeps _ hit (by rw [i1]; exact hk2)).2

theorem runDeferred_gauge (p : Proc) (h : p.deferred = [[.gaugeDec, .dbClose]]) :
    p.runDeferred.service.dbConnections = p.service.dbConnections - 1 := by
  simp [Proc.runDeferred, h, Proc.apply, Proc.emit]

theorem lookup_products (env : MainEnv) (port : Int) (h1 : Atoi env.DB_PORT = some port)
    (h2 : env.sqlOpen (dbInfo env env.DB_USER env.DB_PASSWORD port) = none) :
    (Monitoring.Service2.setup env).routes.lookup "/metrics" = some metricsRoute ∧
    (Monitoring.Service2.setup env).routes.lookup "/products"
      = some (instrument fun e => productsRoute true e.products) ∧
    (Monitoring.Service2.setup env).routes.lookup "/products/"
      = some (instrument fun e => productRoute true e.products) := by
  rw [service2_setup_opened env port h1 h2]
  exact ⟨rfl, rfl, rfl⟩

theorem instrument_returned (inner : Surroundings → Handler Sys) (e : Surroundings)
    (w : ResponseWriter) (r : Request) (sv : Service) (w1 : ResponseWriter)
    (h : (instrument inner e w r sv).response = .returned w1) :
    ∃ x, instrument inner e w r sv = .returned x := by
  cases hi : instrument inner e w r sv with
  | returned x => exact ⟨x, rfl⟩
  | panicked x => rw [hi] at h; simp [Outcome.response] at h

theorem serveRequest_instrument (p : Proc) (pattern : String) (e : Surroundings) (r : Request)
    (inner : Surroundings → Handler Sys) (h : p.routes.lookup pattern = some (instrument inner)) :
    (p.serveRequest (pattern, e, r)).service.telemetry.httpRequestsTotal
      = p.service.telemetry.httpRequestsTotal + 1 ∧
    (p.serveRequest (pattern, e, r)).service.kafka.calls
      = p.service.kafka.calls ++ [[{ Value := (jsonMarshal (logData r)).getD [] }]] ∧
    (∀ w1, (p.serveRequest (pattern, e, r)).responses = p.responses ++ [.returned w1] →
      (p.serveRequest (pattern, e, r)).service.telemetry.httpRequestDuration.length
        = p.service.telemetry.httpRequestDuration.length + 1) := by
  obtain ⟨_, a, b, c, _⟩ := instrument_effect inner e ResponseWriter.fresh r p.service
  simp only [Proc.serveRequest, h]
  refine ⟨a, b, ?_⟩
  intro w1 hw
  have hr : (instrument inner e ResponseWriter.fresh r p.service).response = .returned w1 := by
    simpa using hw
  exact c (instrument_returned inner e _ r _ w1 hr)

/-- C15 (counterexample): with a well-formed environment, `main` of service 2
(`6_monitoring`) registers `/metrics` first, with the handler of `promhttp` and not
one wrapped by `logRequests`; a request to that route is answered without being
counted, timed or published, while the same request to `/products` is counted. -/
theorem metrics_route_not_instrumented :
    (Monitoring.Service2.setup (sampleMainEnv (lit "5432") none)).routes.map Prod.fst
      = ["/metrics", "/products", "/products/"] ∧
    ((Monitoring.Service2.setup (sampleMainEnv (lit "5432") none)).serveRequest
      ("/metrics", sampleSurroundings, metricsRequest)).responses.length = 1 ∧
    ((Monitoring.Service2.setup (sampleMainEnv (lit "5432") none)).serveRequest
      ("/metrics", sampleSurroundings, metricsRequest)).service.telemetry = Telemetry.init ∧
    ((Monitoring.Service2.setup (sampleMainEnv (lit "5432") none)).serveRequest
      ("/metrics", sampleSurroundings, metricsRequest)).service.kafka = KafkaWriter.init ∧
    ((Monitoring.Service2.setup (sampleMainEnv (lit "5432") none)).serveRequest
      ("/products", sampleSurroundings, metricsRequest)).service.telemetry.httpRequestsTotal
      = 1 := by
  have a1 : Atoi (sampleMainEnv (lit "5432") none).DB_PORT = some 5432 := by decide
  rw [service2_setup_opened _ 5432 a1 rfl]
  refine ⟨rfl, rfl, rfl, rfl, ?_⟩
  exact (instrument_effect _ _ _ _ _).2.1

/-- C15 (amended): when startup succeeds, `main` of service 2 (`6_monitoring`)
registers three routes: `/metrics` with the handler of `promhttp`, not wrapped, and
`/products` and `/products/` with their closures wrapped by `logRequests`. Whatever
the state of the service, a request served by `/products` or `/products/` is counted
once, published in one `WriteMessages` call with one message, and, when the wrapped
handler returns, timed once; a request served by `/metrics` leaves the counter, the
histograms and the writer as they were. -/
theorem product_routes_instrumented (env : MainEnv) (port : Int)
    (h1 : Atoi env.DB_PORT = some port)
    (h2 : env.sqlOpen (dbInfo env env.DB_USER env.DB_PASSWORD port) = none) :
    (Monitoring.Service2.setup env).routes.map Prod.fst
      = ["/metrics", "/products", "/products/"] ∧
    (∀ pr ∈ (Monitoring.Service2.setup env).routes,
      (pr.1 = "/metrics" ∧ pr.2 = metricsRoute) ∨
      (pr.1 ≠ "/metrics" ∧ ∃ inner, pr.2 = instrument inner)) ∧
    (∀ (p : Proc) (pattern : String) (e : Surroundings) (r : Request),
      p.routes = (Monitoring.Service2.setup env).routes →
      pattern = "/products" ∨ pattern = "/products/" →
      (p.serveRequest (pattern, e, r)).service.telemetry.httpRequestsTotal
        = p.service.telemetry.httpRequestsTotal + 1 ∧
      (p.serveRequest (pattern, e, r)).service.kafka.calls
        = p.service.kafka.calls ++ [[{ Value := (jsonMarshal (logData r)).getD [] }]] ∧
      (∀ w1, (p.serveRequest (pattern, e, r)).responses = p.responses ++ [.returned w1] →
        (p.serveRequest (pattern, e, r)).service.telemetry.httpRequestDuration.length
          = p.service.telemetry.httpRequestDuration.length + 1)) ∧
    (∀ (p : Proc) (e : Surroundings) (r : Request),
      p.routes = (Monitoring.Service2.setup env).routes →
      (p.serveRequest ("/metrics", e, r)).service = p.service ∧
      (p.serveRequest ("/metrics", e, r)).responses.length = p.responses.length + 1) := by
  obtain ⟨l1, l2, l3⟩ := lookup_products env port h1 h2
  refine ⟨?_, ?_, ?_, ?_⟩
  · rw [service2_setup_opened env port h1 h2]
    rfl
  · rw [service2_setup_opened env port h1 h2]
    intro pr hpr
    simp only [List.mem_cons, List.mem_singleton, List.not_mem_nil, or_false] at hpr
    rcases hpr with h | h | h <;> subst h
    · exact Or.inl ⟨rfl, rfl⟩
    · exact Or.inr ⟨by decide, _, rfl⟩
    · exact Or.inr ⟨by decide, _, rfl⟩
  · intro p pattern e r hp hpat
    rcases hpat with h | h <;> subst h
    · exact serveRequest_instrument p _ e r _ (by rw [hp]; exact l2)
    · exact serveRequest_instrument p _ e r _ (by rw [hp]; exact l3)
  · intro p e r hp
    have hl : p.routes.lookup "/metrics" = some metricsRoute := by rw [hp]; exact l1
    simp [Proc.serveRequest, hl, metricsRoute, Outcome.state]

/-- C15 (amended) at the well-formed environment with `DB_PORT=5432`: the first
request, `GET /products`, is counted and published, and then a scrape of `/metrics`
changes nothing. -/
theorem product_routes_instrumented_witness :
    Atoi (sampleMainEnv (lit "5432") none).DB_PORT = some 5432 ∧
    (Monitoring.Service2.setup (sampleMainEnv (lit "5432") none)).routes.map Prod.fst
      = ["/metrics", "/products", "/products/"] ∧
    ((Monitoring.Service2.setup (sampleMainEnv (lit "5432") none)).serveRequest
      ("/products", sampleSurroundings, sampleRequest)).service.telemetry.httpRequestsTotal
      = (Monitoring.Service2.setup
          (sampleMainEnv (lit "5432") none)).service.telemetry.httpRequestsTotal + 1 ∧
    (((Monitoring.Service2.setup (sampleMainEnv (lit "5432") none)).serveRequest
      ("/products", sampleSurroundings, sampleRequest)).serveRequest
      ("/metrics", sampleSurroundings, metricsRequest)).service
      = ((Monitoring.Service2.setup (sampleMainEnv (lit "5432") none)).serveRequest
          ("/products", sampleSurroundings, sampleRequest)).service :=
  have h := product_routes_instrumented (sampleMainEnv (lit "5432") none) 5432 (by decide) rfl
  ⟨by decide, h.1,
    (h.2.2.1 _ "/products" sampleSurroundings sampleRequest rfl (Or.inl rfl)).1,
    (h.2.2.2 _ sampleSurroundings metricsRequest (serveRequest_fields _ _).1).1⟩

/-- C11: whatever the environment, the requests served and the error that ends
`ListenAndServe`, `main` of both services of `6_monitoring` exits with code 1 through
`log.Fatal` without ever running the deferred `dbConnections.Dec()`: the gauge starts
at 0, is incremented once exactly when `sql.Open` succeeded, and still reads 1 when
the process exits after a successful startup (0 only when startup had aborted
before the increment). The gauge is never negative, the requests served do not
change it, and serving one more request never lowers `http_requests_total`. Had
the deferred call run, the gauge would have read 0. -/
theorem gauge_not_decremented_at_exit (env : MainEnv)
    (hits : List (String × Surroundings × Request)) (err : Bytes) :
    Service.init.dbConnections = 0 ∧
    ∀ run ∈ [Monitoring.Service1.main env, Monitoring.Service2.main env],
      (run hits err).exitCode = some 1 ∧
      MainEvent.gaugeDec ∉ (run hits err).trace ∧
      (run hits err).trace.count .gaugeInc = (if env.opens then 1 else 0) ∧
      (run hits err).service.dbConnections = (if env.opens then 1 else 0) ∧
      (run hits err).deferred = (if env.opens then [[.gaugeDec, .dbClose]] else []) ∧
      (run hits err).runDeferred.service.dbConnections = 0 ∧
      0 ≤ (run hits err).service.dbConnections ∧
      ∀ hit, (run hits err).service.telemetry.httpRequestsTotal
        ≤ (run (hits ++ [hit]) err).service.telemetry.httpRequestsTotal := by
  refine ⟨rfl, ?_⟩
  intro run hrun
  cases ho : env.opens with
  | false =>
    obtain ⟨c1, c2, c3, c4, c5⟩ := connect_not_opened env ho
    have hm : ∀ hs, run hs err = Monitoring.connect env := by
      intro hs
      obtain ⟨m1, m2⟩ := mains_of_connect_exited env hs err c1
      simp only [List.mem_cons, List.mem_singleton, List.not_mem_nil, or_false] at hrun
      rcases hrun with h | h <;> subst h
      · exact m1
      · exact m2
    simp only [hm]
    refine ⟨c1, c5, ?_, ?_, ?_, ?_, ?_, fun _ => Nat.le_refl _⟩
    · simpa using List.count_eq_zero_of_not_mem c4
    · simp [c2, Service.init]
    · simpa using c3
    · simp [Proc.runDeferred, c3, c2, Service.init]
    · simp [c2, Service.init]
  | true =>
    obtain ⟨port, h1, h2⟩ := (opens_iff env).mp ho
    simp only [List.mem_cons, List.mem_singleton, List.not_mem_nil, or_false] at hrun
    rcases hrun with h | h <;> subst h
    · have hs := service1_setup_opened env port h1 h2
      have hk : ∀ pr ∈ (Monitoring.Service1.setup env).routes, Route.KeepsMetrics pr.2 := by
        rw [hs]
        intro pr hpr
        simp only [List.mem_cons, List.mem_singleton, List.not_mem_nil, or_false] at hpr
        rcases hpr with h | h | h | h <;> subst h
        · exact metricsRoute_keeps
        · exact instrument_keeps _
        · exact instrument_keeps _
        · exact instrument_keeps _
      obtain ⟨l1, l2, l3, l4, l5⟩ := listenAndServe_spec (Monitoring.Service1.setup env) ":8000"
        hits err (by rw [hs]) hk
      simp only [Monitoring.Service1.main]
      refine ⟨l1, ?_, ?_, ?_, ?_, ?_, ?_, l5⟩
      · rw [l2, hs]; simp
      · rw [l2, hs]; simp [List.count_cons]
      · rw [l4, hs]; rfl
      · rw [l3, hs]; rfl
      · rw [runDeferred_gauge _ (by rw [l3, hs]), l4, hs]; rfl
      · rw [l4, hs]; exact Int.one_nonneg
    · have hs := service2_setup_opened env port h1 h2
      have hk : ∀ pr ∈ (Monitoring.Service2.setup env).routes, Route.KeepsMetrics pr.2 := by
        rw [hs]
        intro pr hpr
        simp only [List.mem_cons, List.mem_singleton, List.not_mem_nil, or_false] at hpr
        rcases hpr with h | h | h <;> subst h
        · exact metricsRoute_keeps
        · exact instrument_keeps _
        · exact instrument_keeps _
      obtain ⟨l1, l2, l3, l4, l5⟩ := listenAndServe_spec (Monitoring.Service2.setup env) ":8080"
        hits err (by rw [hs]) hk
      simp only [Monitoring.Service2.main]
      refine ⟨l1, ?_, ?_, ?_, ?_, ?_, ?_, l5⟩
      · rw [l2, hs]; simp
      · rw [l2, hs]; simp [List.count_cons]
      · rw [l4, hs]; rfl
      · rw [l3, hs]; rfl
      · rw [runDeferred_gauge _ (by rw [l3, hs]), l4, hs]; rfl
      · rw [l4, hs]; exact Int.one_nonneg

/-! ### Parallel request-handling tasks and the request counter -/

theorem runAlone_eq_logRequests {σ : Type} (clock : σ → Nat) (next : Handler σ)
    (w : ResponseWriter) (r : Request) (ts : Telemetry × σ) :
    Task.outcome (Task.runAlone clock next (Task.init w r) ts) = logRequests clock next w r ts := by
  simp only [Task.runAlone, Task.init, Task.step, logRequests]
  cases h : next w r ts.2 <;> simp [Task.step, Task.outcome]

theorem Task.step_counter {σ : Type} (clock : σ → Nat) (next : Handler σ) (t : Task)
    (sh : Telemetry × σ) :
    (t.step clock next sh).2.1.httpRequestsTotal + (if t.pc.pastInc then 1 else 0)
      = sh.1.httpRequestsTotal + (if (t.step clock next sh).1.pc.pastInc then 1 else 0) := by
  unfold Task.step
  cases hpc : t.pc
  case call => dsimp only; cases next t.writer t.request sh.2 <;> simp [Pc.pastInc]
  all_goals simp [Pc.pastInc, hpc]

theorem stepAt_counter {σ : Type} (clock : σ → Nat) (next : Handler σ) (i : Nat)
    (tasks : List Task) (sh : Telemetry × σ) :
    (stepAt clock next i tasks sh).2.1.httpRequestsTotal + incCalls tasks
      = sh.1.httpRequestsTotal + incCalls (stepAt clock next i tasks sh).1 ∧
    (stepAt clock next i tasks sh).1.length = tasks.length := by
  induction tasks generalizing i with
  | nil => simp [stepAt]
  | cons t ts ih =>
    cases i with
    | zero =>
      have h := Task.step_counter clock next t sh
      simp only [stepAt, incCalls, List.filter_cons, List.length_cons]
      refine ⟨?_, trivial⟩
      by_cases h1 : t.pc.pastInc = true <;>
        by_cases h2 : (t.step clock next sh).1.pc.pastInc = true <;>
        simp [h1, h2] at h ⊢ <;> omega
    | succ i =>
      obtain ⟨h, hl⟩ := ih i
      simp only [stepAt, incCalls, List.filter_cons, List.length_cons] at h ⊢
      refine ⟨?_, by rw [hl]⟩
      by_cases h1 : t.pc.pastInc = true <;> simp [h1] <;> omega

theorem runParallel_counter {σ : Type} (clock : σ → Nat) (next : Handler σ)
    (schedule : List Nat) (pool : List Task × (Telemetry × σ)) :
    (runParallel clock next schedule pool).2.1.httpRequestsTotal + incCalls pool.1
      = pool.2.1.httpRequestsTotal + incCalls (runParallel clock next schedule pool).1 ∧
    (runParallel clock next schedule pool).1.length = pool.1.length := by
  induction schedule generalizing pool with
  | nil => simp [runParallel]
  | cons i is ih =>
    obtain ⟨h1, l1⟩ := stepAt_counter clock next i pool.1 pool.2
    obtain ⟨h2, l2⟩ := ih (stepAt clock next i pool.1 pool.2)
    simp only [runParallel, List.foldl_cons] at h2 l2 ⊢
    exact ⟨by omega, by rw [l2, l1]⟩

theorem incCalls_init (w : ResponseWriter) (rs : List Request) :
    incCalls (rs.map (Task.init w)) = 0 := by
  induction rs with
  | nil => rfl
  | cons r rs ih => simp [incCalls, Task.init, Pc.pastInc]

theorem incCalls_all (tasks : List Task) (h : ∀ t ∈ tasks, t.pc.pastInc = true) :
    incCalls tasks = tasks.length := by
  unfold incCalls
  rw [List.filter_eq_self.mpr h]

/-- C17: `N` request-handling tasks run the handler returned by `logRequests` in
parallel, interleaved statement by statement in any order. Once all `N` tasks have
executed `httpRequestsTotal.Inc()`, the counter `http_requests_total` reads its
initial value plus `N` (exactly `N` from a fresh start): no increment is lost. -/
theorem concurrent_increments_not_lost {σ : Type} (clock : σ → Nat) (next : Handler σ)
    (requests : List Request) (t0 : Telemetry) (s0 : σ) (schedule : List Nat)
    (h : ∀ t ∈ (runParallel clock next schedule
      (requests.map (Task.init ResponseWriter.fresh), (t0, s0))).1, t.pc.pastInc = true) :
    (runParallel clock next schedule
      (requests.map (Task.init ResponseWriter.fresh), (t0, s0))).2.1.httpRequestsTotal
      = t0.httpRequestsTotal + requests.length := by
  obtain ⟨hc, hl⟩ := runParallel_counter clock next schedule
    (requests.map (Task.init ResponseWriter.fresh), (t0, s0))
  rw [incCalls_all _ h, hl] at hc
  simp only [incCalls_init, List.length_map] at hc
  omega

theorem concurrent_increments_not_lost_witness :
    (∀ t ∈ (runParallel (fun s : Nat => s) errorHandler [0, 1, 2, 2, 1, 0, 1, 0, 2, 0, 2, 1, 1, 0, 2]
      ([sampleRequest, metricsRequest, usersRequest].map (Task.init ResponseWriter.fresh),
        (Telemetry.init, 0))).1, t.pc = .finished) ∧
    (runParallel (fun s : Nat => s) errorHandler [0, 1, 2, 2, 1, 0, 1, 0, 2, 0, 2, 1, 1, 0, 2]
      ([sampleRequest, metricsRequest, usersRequest].map (Task.init ResponseWriter.fresh),
        (Telemetry.init, 0))).2.1.httpRequestsTotal = 3 :=
  ⟨by decide, concurrent_increments_not_lost (fun s : Nat => s) errorHandler
    [sampleRequest, metricsRequest, usersRequest] Telemetry.init 0
    [0, 1, 2, 2, 1, 0, 1, 0, 2, 0, 2, 1, 1, 0, 2] (by decide)⟩

/-! ### Method dispatch and the validation of product data -/

theorem lookup_method_cons (m k : Bytes) (h : Handler Sys) (rest : List (Bytes × Handler Sys)) :
    List.lookup m ((k, h) :: rest) = if m = k then some h else List.lookup m rest := by
  by_cases hm : m = k
  · subst hm; simp [List.lookup]
  · have : (m == k) = false := by simpa using hm
    simp [List.lookup, this, hm]

theorem methodNotAllowed_response (w : ResponseWriter) (h : w.status = none) :
    (methodNotAllowed w).statusCode = 405 ∧
    (methodNotAllowed w).body = w.body ++ lit "Unsupported request method." := by
  simp [methodNotAllowed, ResponseWriter.WriteHeader, ResponseWriter.Write,
    ResponseWriter.statusCode, h]

/-- C22: each route closure dispatches on the method alone. A request with a method
of the route's table (GET and POST on the collection routes, GET, PUT and DELETE on
the item routes, GET on `/users/product/`) gets exactly the outcome of that method's
CRUD handler, called once with the closure's own arguments; a request with any other
method is answered by the `default` case, which writes status 405 and the body
`Unsupported request method.` and leaves the state as it was, so no statement is
issued. This holds for the closures of `3_helm` service 1, of service 2 (`4_istio`
and `6_monitoring`), and of service 1 in `5_kafka` and `6_monitoring`. -/
theorem routes_dispatch_by_method (timed : Bool) (env : Backend) (udb : UserDb)
    (pdb : ProductDb) (hdb : Helm.UserDb) :
    Dispatches (Helm.usersRoute hdb)
      [(lit "GET", Helm.getUsers hdb), (lit "POST", Helm.createUser hdb)]
    ∧ Dispatches (Helm.userRoute hdb)
      [(lit "GET", Helm.getUser hdb), (lit "PUT", Helm.updateUser hdb),
        (lit "DELETE", Helm.deleteUser hdb)]
    ∧ Dispatches (productsRoute timed pdb)
      [(lit "GET", getProducts timed pdb), (lit "POST", createProduct timed pdb)]
    ∧ Dispatches (productRoute timed pdb)
      [(lit "GET", getProduct timed pdb), (lit "PUT", updateProduct timed pdb),
        (lit "DELETE", deleteProduct timed pdb)]
    ∧ Dispatches (usersRoute udb) [(lit "GET", getUsers udb), (lit "POST", createUser true udb)]
    ∧ Dispatches (Kafka.usersRoute udb)
      [(lit "GET", Kafka.getUsers udb), (lit "POST", createUser false udb)]
    ∧ Dispatches (userRoute timed env udb)
      [(lit "GET", getUser timed env), (lit "PUT", updateUser timed udb),
        (lit "DELETE", deleteUser timed udb)]
    ∧ Dispatches (userProductRoute timed env) [(lit "GET", getLastOrderedProduct timed env)]
    ∧ (∀ w : ResponseWriter, w.status = none →
        (methodNotAllowed w).statusCode = 405 ∧
        (methodNotAllowed w).body = w.body ++ lit "Unsupported request method.") := by
  have gp : ¬ lit "POST" = lit "GET" := by decide
  have gu : ¬ lit "PUT" = lit "GET" := by decide
  have gd : ¬ lit "DELETE" = lit "GET" := by decide
  have ud : ¬ lit "DELETE" = lit "PUT" := by decide
  refine ⟨?_, ?_, ?_, ?_, ?_, ?_, ?_, ?_, methodNotAllowed_response⟩
  · intro w r s
    by_cases h1 : r.Method = lit "GET"
    · simp [Helm.usersRoute, lookup_method_cons, h1]
    · by_cases h2 : r.Method = lit "POST"
      · simp [Helm.usersRoute, lookup_method_cons, h2, gp]
      · simp [Helm.usersRoute, lookup_method_cons, h1, h2]
  · intro w r s
    by_cases h1 : r.Method = lit "GET"
    · simp [Helm.userRoute, lookup_method_cons, h1]
    · by_cases h2 : r.Method = lit "PUT"
      · simp [Helm.userRoute, lookup_method_cons, h2, gu]
      · by_cases h3 : r.Method = lit "DELETE"
        · simp [Helm.userRoute, lookup_method_cons, h3, gd, ud]
        · simp [Helm.userRoute, lookup_method_cons, h1, h2, h3]
  · intro w r s
    by_cases h1 : r.Method = lit "GET"
    · simp [productsRoute, lookup_method_cons, h1]
    · by_cases h2 : r.Method = lit "POST"
      · simp [productsRoute, lookup_method_cons, h2, gp]
      · simp [productsRoute, lookup_method_cons, h1, h2]
  · intro w r s
    by_cases h1 : r.Method = lit "GET"
    · simp [productRoute, lookup_method_cons, h1]
    · by_cases h2 : r.Method = lit "PUT"
      · simp [productRoute, lookup_method_cons, h2, gu]
      · by_cases h3 : r.Method = lit "DELETE"
        · simp [productRoute, lookup_method_cons, h3, gd, ud]
        · simp [productRoute, lookup_method_cons, h1, h2, h3]
  · intro w r s
    by_cases h1 : r.Method = lit "GET"
    · simp [usersRoute, lookup_method_cons, h1]
    · by_cases h2 : r.Method = lit "POST"
      · simp [usersRoute, lookup_method_cons, h2, gp]
      · simp [usersRoute, lookup_method_cons, h1, h2]
  · intro w r s
    by_cases h1 : r.Method = lit "GET"
    · simp [Kafka.usersRoute, lookup_method_cons, h1]
    · by_cases h2 : r.Method = lit "POST"
      · simp [Kafka.usersRoute, lookup_method_cons, h2, gp]
      · simp [Kafka.usersRoute, lookup_method_cons, h1, h2]
  · intro w r s
    by_cases h1 : r.Method = lit "GET"
    · simp [userRoute, lookup_method_cons, h1]
    · by_cases h2 : r.Method = lit "PUT"
      · simp [userRoute, lookup_method_cons, h2, gu]
      · by_cases h3 : r.Method = lit "DELETE"
        · simp [userRoute, lookup_method_cons, h3, gd, ud]
        · simp [userRoute, lookup_method_cons, h1, h2, h3]
  · intro w r s
    by_cases h1 : r.Method = lit "GET"
    · simp [userProductRoute, lookup_method_cons, h1]
    · simp [userProductRoute, lookup_method_cons, h1]

/-- C22 at `PATCH /users` and `GET /users` of `3_helm`: the first is answered with
405 and the fixed body without a statement, the second is the call of `getUsers`,
which issues one statement. -/
theorem routes_dispatch_by_method_witness :
    Helm.usersRoute Helm.sampleUserDb ResponseWriter.fresh
        { usersRequest with Method := lit "PATCH" } Sys.init
      = .returned (methodNotAllowed ResponseWriter.fresh, Sys.init)
    ∧ (methodNotAllowed ResponseWriter.fresh).statusCode = 405
    ∧ (methodNotAllowed ResponseWriter.fresh).body = lit "Unsupported request method."
    ∧ Helm.usersRoute Helm.sampleUserDb ResponseWriter.fresh usersRequest Sys.init
      = Helm.getUsers Helm.sampleUserDb ResponseWriter.fresh usersRequest Sys.init
    ∧ (Helm.usersRoute Helm.sampleUserDb ResponseWriter.fresh usersRequest
        Sys.init).state.2.statements = [("SELECT * FROM users", [])] := by
  have h := routes_dispatch_by_method true (sampleBackend (.err [])) sampleUserDb
    sampleProductDb Helm.sampleUserDb
  refine ⟨h.1 _ _ _, (h.2.2.2.2.2.2.2.2 _ rfl).1, (h.2.2.2.2.2.2.2.2 _ rfl).2, h.1 _ _ _, ?_⟩
  decide

theorem Atoi_drop_some_length (path : Bytes) (n : Nat) (id : Int)
    (h : Atoi (path.drop n) = some id) : ¬ path.length < n := by
  intro hlt
  rw [List.drop_of_length_le (Nat.le_of_lt hlt)] at h
  simp [Atoi] at h

theorem body_writeHeader_write (w : ResponseWriter) (code : Nat) (b : Bytes)
    (h : w.status = none) : ((w.WriteHeader code).Write b).body = w.body ++ b := by
  simp [ResponseWriter.WriteHeader, ResponseWriter.Write, h]

theorem createProduct_invalid (timed : Bool) (db : ProductDb) (w : ResponseWriter)
    (r : Request) (s : Sys) (h : db.InvalidData r.Body) :
    createProduct timed db w r s
      = .returned ((w.WriteHeader 400).Write (lit "Invalid product data."), s) := by
  unfold createProduct
  rcases h with h | ⟨p, h, hp⟩
  · simp [h]
  · simp [h, hp]

theorem createProduct_valid (timed : Bool) (db : ProductDb) (w : ResponseWriter)
    (r : Request) (s : Sys) (hw : w.status = none) (h : ¬ db.InvalidData r.Body) :
    (createProduct timed db w r s).state.1.statusCode ≠ 400 ∧
    ∃ st, (createProduct timed db w r s).state.2.statements = s.statements ++ [st] := by
  unfold ProductDb.InvalidData at h
  unfold createProduct
  cases hd : db.decodeProduct r.Body with
  | none => exact absurd (Or.inl hd) h
  | some p =>
    have hp : ¬ (p.Name = [] ∨ p.Price ≤ 0) := fun hp => h (Or.inr ⟨p, hd, hp⟩)
    simp only [hp, if_false]
    cases db.insert p.Name p.Price <;>
      simp [Outcome.state, Sys.afterStatement, statusCode_writeHeader_write,
        statusCode_encodeJSON, hw]

theorem updateProduct_invalid (timed : Bool) (db : ProductDb) (w : ResponseWriter)
    (r : Request) (s : Sys) (id : Int)
    (hid : Atoi (r.Path.drop (lit "/products/").length) = some id)
    (h : db.InvalidData r.Body) :
    updateProduct timed db w r s
      = .returned ((w.WriteHeader 400).Write (lit "Invalid product data."), s) := by
  have hlen := Atoi_drop_some_length _ _ _ hid
  unfold updateProduct
  rcases h with h | ⟨p, h, hp⟩
  · simp [hlen, hid, h]
  · simp [hlen, hid, h, hp]

theorem updateProduct_valid (timed : Bool) (db : ProductDb) (w : ResponseWriter)
    (r : Request) (s : Sys) (id : Int) (hw : w.status = none)
    (hid : Atoi (r.Path.drop (lit "/products/").length) = some id)
    (h : ¬ db.InvalidData r.Body) :
    (updateProduct timed db w r s).state.1.statusCode ≠ 400 ∧
    ∃ st, (updateProduct timed db w r s).state.2.statements = s.statements ++ [st] := by
  have hlen := Atoi_drop_some_length _ _ _ hid
  unfold ProductDb.InvalidData at h
  unfold updateProduct
  cases hd : db.decodeProduct r.Body with
  | none => exact absurd (Or.inl hd) h
  | some p =>
    have hp : ¬ (p.Name = [] ∨ p.Price ≤ 0) := fun hp => h (Or.inr ⟨p, hd, hp⟩)
    simp only [hlen, hid, hp, if_false]
    cases hu : db.update p.Name p.Price id with
    | err msg =>
      simp [Outcome.state, Sys.afterStatement, statusCode_writeHeader_write, hw]
    | ok n =>
      by_cases hn : n = 0 <;>
        simp [Outcome.state, Sys.afterStatement, statusCode_writeHeader_write, hw, hn]

theorem updateProduct_bad_id (timed : Bool) (db : ProductDb) (w : ResponseWriter)
    (r : Request) (s : Sys)
    (hid : Atoi (r.Path.drop (lit "/products/").length) = none) :
    (updateProduct timed db w r s).state.2 = s ∧
    ((lit "/products/").length ≤ r.Path.length →
      updateProduct timed db w r s
        = .returned ((w.WriteHeader 400).Write (lit "Invalid product ID."), s)) ∧
    (r.Path.length < (lit "/products/").length →
      updateProduct timed db w r s = .panicked (w, s)) := by
  unfold updateProduct
  by_cases hlen : r.Path.length < (lit "/products/").length
  · simp [hlen, Outcome.state]
  · simp [hlen, hid, Outcome.state]

theorem invalid_data_ne_invalid_id : lit "Invalid product ID." ≠ lit "Invalid product data." := by
  decide

/-- C21: `createProduct` and `updateProduct` of the database-backed product service
(`4_istio` and `6_monitoring`), called with a fresh response, answer with status 400
and the body `Invalid product data.` exactly when the body fails to decode, the
decoded name is empty or the decoded price is not positive (for `updateProduct`,
given that the id in the path parsed). A rejected request leaves the state as it was,
so no statement is issued, while an accepted one issues exactly one. A request to
`updateProduct` whose path id does not parse issues no statement either and is not
answered with that rejection: it gets status 400 with the body
`Invalid product ID.`. -/
theorem invalid_product_data_rejected (timed : Bool) (db : ProductDb) (w : ResponseWriter)
    (r : Request) (s : Sys) (hw : w.status = none) (hb : w.body = []) :
    (RejectedAsInvalidData (createProduct timed db w r s) ↔ db.InvalidData r.Body)
    ∧ (db.InvalidData r.Body → (createProduct timed db w r s).state.2 = s)
    ∧ (¬ db.InvalidData r.Body →
        ∃ st, (createProduct timed db w r s).state.2.statements = s.statements ++ [st])
    ∧ (∀ id, Atoi (r.Path.drop (lit "/products/").length) = some id →
        (RejectedAsInvalidData (updateProduct timed db w r s) ↔ db.InvalidData r.Body)
        ∧ (db.InvalidData r.Body → (updateProduct timed db w r s).state.2 = s)
        ∧ (¬ db.InvalidData r.Body →
            ∃ st, (updateProduct timed db w r s).state.2.statements = s.statements ++ [st]))
    ∧ (Atoi (r.Path.drop (lit "/products/").length) = none →
        (updateProduct timed db w r s).state.2 = s
        ∧ ¬ RejectedAsInvalidData (updateProduct timed db w r s)
        ∧ ((lit "/products/").length ≤ r.Path.length →
            updateProduct timed db w r s
              = .returned ((w.WriteHeader 400).Write (lit "Invalid product ID."), s))) := by
  have rej : RejectedAsInvalidData
      (.returned ((w.WriteHeader 400).Write (lit "Invalid product data."), s)) :=
    ⟨statusCode_writeHeader_write w 400 _ hw, by
      simp only [Outcome.state]; rw [body_writeHeader_write w 400 _ hw, hb]; rfl⟩
  refine ⟨⟨?_, ?_⟩, ?_, ?_, ?_, ?_⟩
  · intro hr
    by_contra hv
    exact (createProduct_valid timed db w r s hw hv).1 hr.1
  · intro hi
    rw [createProduct_invalid timed db w r s hi]
    exact rej
  · intro hi
    rw [createProduct_invalid timed db w r s hi]
    rfl
  · exact fun hv => (createProduct_valid timed db w r s hw hv).2
  · intro id hid
    refine ⟨⟨?_, ?_⟩, ?_, ?_⟩
    · intro hr
      by_contra hv
      exact (updateProduct_valid timed db w r s id hw hid hv).1 hr.1
    · intro hi
      rw [updateProduct_invalid timed db w r s id hid hi]
      exact rej
    · intro hi
      rw [updateProduct_invalid timed db w r s id hid hi]
      rfl
    · exact fun hv => (updateProduct_valid timed db w r s id hw hid hv).2
  · intro hid
    obtain ⟨h1, h2, h3⟩ := updateProduct_bad_id timed db w r s hid
    refine ⟨h1, ?_, h2⟩
    intro hr
    by_cases hlen : r.Path.length < (lit "/products/").length
    · rw [h3 hlen] at hr
      have := hr.1
      simp [Outcome.state, ResponseWriter.statusCode, hw] at this
    · rw [h2 (Nat.le_of_not_lt hlen)] at hr
      have := hr.2
      simp only [Outcome.state] at this
      rw [body_writeHeader_write w 400 _ hw, hb] at this
      exact invalid_data_ne_invalid_id this

/-- C21 at concrete requests: a body that does not decode and a product with the
price 0 are rejected by `createProduct` without a statement; `PUT /products/1` with
a valid product issues the update; `PUT /products/x` is answered with
`Invalid product ID.`. -/
theorem invalid_product_data_rejected_witness :
    RejectedAsInvalidData (createProduct true sampleProductDb ResponseWriter.fresh
      { sampleRequest with Body := lit "bad" } Sys.init)
    ∧ (createProduct true freeProductDb ResponseWriter.fresh
        { sampleRequest with Body := lit "pen" } Sys.init).state.2 = Sys.init
    ∧ (updateProduct true sampleProductDb ResponseWriter.fresh
        { sampleRequest with Body := lit "pen" } Sys.init).state.2.statements
      = [("UPDATE products SET name = $1, price = $2 WHERE id = $3",
          [.text (lit "pen"), .int 4, .int 1])]
    ∧ updateProduct true sampleProductDb ResponseWriter.fresh
        { sampleRequest with Path := lit "/products/x", Body := lit "pen" } Sys.init
      = .returned ((ResponseWriter.fresh.WriteHeader 400).Write (lit "Invalid product ID."),
          Sys.init) :=
  ⟨(invalid_product_data_rejected true sampleProductDb ResponseWriter.fresh
      { sampleRequest with Body := lit "bad" } Sys.init rfl rfl).1.mpr (Or.inl rfl),
    (invalid_product_data_rejected true freeProductDb ResponseWriter.fresh
      { sampleRequest with Body := lit "pen" } Sys.init rfl rfl).2.1
      (Or.inr ⟨_, rfl, Or.inr (by decide)⟩),
    by decide,
    ((invalid_product_data_rejected true sampleProductDb ResponseWriter.fresh
      { sampleRequest with Path := lit "/products/x", Body := lit "pen" } Sys.init rfl
      rfl).2.2.2.2 (by decide)).2.2 (by decide)⟩

end Microservices
